import Mathlib

/-! # AutoCentral: order lifecycle and car availability

A shallow embedding of the reservation core of the dealership application:
the `Car` and `Order` documents (`models/Car.js`, `models/Order.js`), the
order routes (`routes/orders.js`), the admin routes (`routes/admin.js`),
the admin guard (`middleware/auth.js`) and the notification fan-out
(`utils/notifications.js`).

Modelling conventions.

* The document store is a pair of lists (the `cars` and `orders`
  collections).  ObjectIds are natural numbers; `nextId` is the next
  identifier the driver hands out, which models their uniqueness.
* `doc.save()` on a loaded document rewrites the document with that `_id`;
  `save()` on a new document appends it.  Both run the schema validators and
  the `pre('save')` hook first.
* JavaScript numbers that hold prices are exact rationals.
* `Date.now()` is an explicit argument `now` of every operation.
* A handler is the `async (req, res) => ...` function of a route: the
  request has already passed the `express-validator` chain mounted in front
  of it.  `try`/`catch` is modelled with `Except`.
* A persistence failure can be injected at one store write of an operation:
  `fault = some k` makes the write number `k` (counted from 0 in execution
  order) reject, by the database or by the validators that `save()` runs on
  the loaded document.
* The two order routes are also given with their middleware and every
  rejection (`createOrderRoute`, `cancelOrderRoute`): the `validateOrder`
  chain, each awaited store call, and the schema validators of both saves.
* `Order.findById` populates `userId`; the access checks compare the session
  id with the text of that populated value (`orderUserText`).
-/

namespace AutoCentral

/-! ## Text helpers (JavaScript string semantics) -/

/-- Code points matched by `\s` in a JavaScript regular expression, which are
also the ones removed by `String.prototype.trim`. -/
def jsIsSpace (c : Char) : Bool :=
  let n := c.toNat
  n == 0x09 || n == 0x0A || n == 0x0B || n == 0x0C || n == 0x0D || n == 0x20 ||
  n == 0xA0 || n == 0x1680 || (0x2000 ≤ n && n ≤ 0x200A) || n == 0x2028 ||
  n == 0x2029 || n == 0x202F || n == 0x205F || n == 0x3000 || n == 0xFEFF

/-- The function `String.prototype.trim`. -/
def jsTrim (s : String) : String :=
  String.mk ((s.toList.dropWhile jsIsSpace).reverse.dropWhile jsIsSpace).reverse

/-- The `length` of a JavaScript string: the number of UTF-16 code units. -/
def jsLength (s : String) : Nat :=
  (s.toList.map (fun c => if c.toNat < 0x10000 then 1 else 2)).sum

/-- The `lowercase: true` setter of a schema string on ASCII text: the
letters `A` to `Z` are mapped.  `String.prototype.toLowerCase` also maps the
letters of other scripts; the routes with their middleware take it from
`FormLibrary.toLowerCase` instead. -/
def jsToLowerCase (s : String) : String :=
  String.mk (s.toList.map Char.toLower)

/-- Tail of the e-mail pattern: `\S+\.\S+$` on text already known to hold no
white space, i.e. a dot that is neither the first nor the last character. -/
def emailTail (cs : List Char) : Bool :=
  (cs.drop 1).dropLast.contains '.'

/-- Scan for an `@` followed by a text matching `emailTail`. -/
def emailFrom : List Char → Bool
  | [] => false
  | c :: rest => (c == '@' && emailTail rest) || emailFrom rest

/-- The pattern `/^\S+@\S+\.\S+$/` of `customerInfo.email`. -/
def matchesEmail (s : String) : Bool :=
  s.toList.all (fun c => !jsIsSpace c) &&
    (match s.toList with
     | [] => false
     | _ :: rest => emailFrom rest)

/-- A character of the class `[\d\s-()]`. -/
def phoneChar (c : Char) : Bool :=
  c.isDigit || jsIsSpace c || c == '-' || c == '(' || c == ')'

/-- The pattern `/^\+?[\d\s-()]+$/` of `customerInfo.phone`. -/
def matchesPhone (s : String) : Bool :=
  let body := match s.toList with
    | '+' :: rest => rest
    | cs => cs
  !body.isEmpty && body.all phoneChar

/-! ## Documents -/

/-- A price or amount (a JavaScript number, taken as an exact rational). -/
abbrev Price := Rat

/-- The values of `orderSchema.status`. -/
inductive Status
  | pending | confirmed | processing | completed | cancelled
  deriving DecidableEq, Repr

/-- Membership of a request string in the `enum` of `orderSchema.status`. -/
def Status.ofString (s : String) : Option Status :=
  if s = "pending" then some .pending
  else if s = "confirmed" then some .confirmed
  else if s = "processing" then some .processing
  else if s = "completed" then some .completed
  else if s = "cancelled" then some .cancelled
  else none

/-- The `enum` of `orderSchema.paymentMethod`. -/
def paymentMethods : List String :=
  ["Cash App", "Chime", "Zelle", "Apple Pay", "PayPal", "Varo", "Gift Cards"]

/-- A document of the `Car` collection (`carSchema`). -/
structure Car where
  id : Nat
  make : String
  model : String
  year : Int
  price : Price
  mileage : Int
  fuelType : String
  transmission : String
  description : String
  images : List String
  features : List String
  isAvailable : Bool
  createdAt : Nat
  updatedAt : Nat
  deriving DecidableEq, Repr

/-- The embedded `customerInfo` of an order. -/
structure CustomerInfo where
  name : String
  email : String
  phone : String
  address : String
  deriving DecidableEq, Repr

/-- A document of the `Order` collection (`orderSchema`). -/
structure Order where
  id : Nat
  carId : Nat
  userId : Option Nat
  customerInfo : CustomerInfo
  paymentMethod : String
  totalAmount : Price
  status : Status
  notes : String
  createdAt : Nat
  updatedAt : Nat
  deriving DecidableEq, Repr

/-- The document store. -/
structure Store where
  cars : List Car
  orders : List Order
  nextId : Nat
  deriving DecidableEq, Repr

/-- The store before any operation. -/
def Store.empty : Store := ⟨[], [], 0⟩

/-- The value of `req.session.user`. -/
structure SessionUser where
  id : Nat
  isAdmin : Bool
  deriving DecidableEq, Repr

/-- The session of a request: `req.session.user`, absent for a visitor who
is not logged in. -/
abbrev Session := Option SessionUser

/-- The observable result of a route handler. -/
inductive Outcome
  | ok
  | notFound
  | carUnavailable
  | accessDenied
  | cannotCancel
  | imageRequired
  | adminRequired
  | error
  deriving DecidableEq, Repr

/-! ## Store primitives -/

/-- The query `Car.findById`. -/
def Store.findCar (s : Store) (id : Nat) : Option Car :=
  s.cars.find? (fun c => c.id == id)

/-- The query `Order.findById` (without the populated references). -/
def Store.findOrder (s : Store) (id : Nat) : Option Order :=
  s.orders.find? (fun o => o.id == id)

/-- Rewrite the stored car with identifier `id`. -/
def Store.updateCar (s : Store) (id : Nat) (f : Car → Car) : Store :=
  { s with cars := s.cars.map (fun c => if c.id = id then f c else c) }

/-- Rewrite the stored order with identifier `id`. -/
def Store.updateOrder (s : Store) (id : Nat) (f : Order → Order) : Store :=
  { s with orders := s.orders.map (fun o => if o.id = id then f o else o) }

/-- Insert a new order document; its identifier is then used up. -/
def Store.insertOrder (s : Store) (o : Order) : Store :=
  { s with orders := s.orders ++ [o], nextId := s.nextId + 1 }

/-- Insert a new car document; its identifier is then used up. -/
def Store.insertCar (s : Store) (c : Car) : Store :=
  { s with cars := s.cars ++ [c], nextId := s.nextId + 1 }

/-- The query `Car.findByIdAndDelete`. -/
def Store.deleteCar (s : Store) (id : Nat) : Store :=
  { s with cars := s.cars.filter (fun c => c.id != id) }

/-! ## Schema validation (`models/Order.js`) -/

/-- The validators of `orderSchema` that can reject a document, run on the
values after the `trim` and `lowercase` setters: required paths, the two
`match` patterns, the payment `enum`, `min: 0` on the amount and
`maxlength: 1000` on the notes. -/
def orderSchemaValid (o : Order) : Bool :=
  o.customerInfo.name != "" &&
  o.customerInfo.email != "" && matchesEmail o.customerInfo.email &&
  o.customerInfo.phone != "" && matchesPhone o.customerInfo.phone &&
  o.customerInfo.address != "" &&
  paymentMethods.contains o.paymentMethod &&
  decide (0 ≤ o.totalAmount) &&
  decide (jsLength o.notes ≤ 1000)

/-- The `enum` of `carSchema.fuelType`. -/
def fuelTypes : List String := ["Gasoline", "Diesel", "Electric", "Hybrid", "Other"]

/-- The `enum` of `carSchema.transmission`. -/
def transmissions : List String := ["Manual", "Automatic", "CVT"]

/-- The validators of `carSchema` (`models/Car.js`), run on the values after
the `trim` setters.  `maxYear` is `new Date().getFullYear() + 1`, computed
when the schema is loaded. -/
def carSchemaValid (maxYear : Int) (c : Car) : Bool :=
  c.make != "" && c.model != "" &&
  decide (1900 ≤ c.year) && decide (c.year ≤ maxYear) &&
  decide (0 ≤ c.price) && decide (c.price ≤ 3000) &&
  decide (0 ≤ c.mileage) &&
  fuelTypes.contains c.fuelType && transmissions.contains c.transmission &&
  c.description != "" && decide (jsLength c.description ≤ 2000) &&
  c.images.all (fun i => i != "")

/-! ## Notifications (`utils/notifications.js`, `Order.getSummary`) -/

/-- The fields of the referenced car that the `pre(/^find/)` hook of
`orderSchema` populates into `order.carId`. -/
structure CarSummary where
  id : Nat
  make : String
  model : String
  year : Int
  price : Price
  images : List String
  deriving DecidableEq, Repr

/-- An order as returned by `Order.findById`: the document with `carId`
populated (absent when the car no longer exists). -/
structure OrderView where
  order : Order
  car : Option CarSummary
  deriving DecidableEq, Repr

/-- The populated projection of a car. -/
def Car.summary (c : Car) : CarSummary :=
  ⟨c.id, c.make, c.model, c.year, c.price, c.images⟩

/-- The query `Order.findById` with the populate hook applied. -/
def Store.findOrderPopulated (s : Store) (id : Nat) : Option OrderView :=
  (s.findOrder id).map (fun o => ⟨o, (s.findCar o.carId).map Car.summary⟩)

/-- One hexadecimal digit. -/
def hexDigit (n : Nat) : Char :=
  if n < 10 then Char.ofNat (48 + n) else Char.ofNat (87 + n)

/-- The `width` low hexadecimal digits of `n`, most significant first. -/
def hexFixed : Nat → Nat → List Char
  | 0, _ => []
  | w + 1, n => hexFixed w (n / 16) ++ [hexDigit (n % 16)]

/-- The string form of an ObjectId: 24 hexadecimal digits. -/
def objectIdString (id : Nat) : String := String.mk (hexFixed 24 id)

/-- The call `s.slice(-k)`: the last `k` characters, the whole string when it
is shorter. -/
def jsSliceLast (k : Nat) (s : String) : String :=
  String.mk (s.toList.drop (s.toList.length - k))

/-- The result of `getSummary`.  `amount` and `date` are the values handed
to `Intl.NumberFormat` and `toLocaleDateString`, whose rendering belongs to
the runtime. -/
structure Summary where
  orderNumber : String
  carTitle : String
  customerName : String
  amount : Price
  status : Status
  date : Nat
  deriving DecidableEq, Repr

/-- The method `orderSchema.methods.getSummary`. -/
def OrderView.getSummary (v : OrderView) : Summary :=
  { orderNumber := jsSliceLast 8 (objectIdString v.order.id)
    carTitle :=
      match v.car with
      | some car => toString car.year ++ " " ++ car.make ++ " " ++ car.model
      | none => "Car not available"
    customerName := v.order.customerInfo.name
    amount := v.order.totalAmount
    status := v.order.status
    date := v.order.createdAt }

/-- The `type` of a notification. -/
inductive NotifyType
  | new_order | order_cancelled
  deriving DecidableEq, Repr

/-- The three delivery channels. -/
inductive Channel
  | email | telegram | sms
  deriving DecidableEq, Repr

/-- What one channel attempt did. -/
inductive Delivery
  | notConfigured | sent | failed
  deriving DecidableEq, Repr

/-- The environment of the notification code: whether rendering the message
throws, which credentials are configured, and whether the external mail and
chat-bot services accept the message. -/
structure NotifyEnv where
  formatThrows : Bool
  emailConfigured : Bool
  emailDelivers : Bool
  telegramConfigured : Bool
  telegramDelivers : Bool
  deriving DecidableEq, Repr

/-- The value of `formatOrderMessage`: the selected template together with
the data interpolated into its `subject`, `email`, `telegram` and `sms`
texts. -/
structure Messages where
  kind : NotifyType
  summary : Summary
  order : Order
  deriving DecidableEq, Repr

/-- The function `formatOrderMessage`.  It throws when `order` is `null`
(`order.getSummary()`), or when the runtime formatting throws. -/
def formatOrderMessage (env : NotifyEnv) (kind : NotifyType) (order : Option OrderView)
    (_car : Option Car) : Except String Messages :=
  match order with
  | none => .error "TypeError: order is null"
  | some v =>
    if env.formatThrows then .error "formatting failed"
    else .ok ⟨kind, v.getSummary, v.order⟩

/-- The function `sendEmailNotification`: its own `try`/`catch` turns a
failure into a log line.  `emailDelivers` tells whether the configured
attempt goes through; the source builds its transport with
`nodemailer.createTransporter`, and where the library has no such function
the attempt throws, which is the case `emailDelivers = false`. -/
def sendEmailNotification (env : NotifyEnv) (_m : Messages) : Except String Delivery :=
  let body : Except String Delivery :=
    if !env.emailConfigured then .ok .notConfigured
    else if env.emailDelivers then .ok .sent
    else .error "sendMail rejected"
  match body with
  | .ok d => .ok d
  | .error _ => .ok .failed

/-- The function `sendTelegramNotification`. -/
def sendTelegramNotification (env : NotifyEnv) (_m : Messages) : Except String Delivery :=
  let body : Except String Delivery :=
    if !env.telegramConfigured then .ok .notConfigured
    else if env.telegramDelivers then .ok .sent
    else .error "axios.post rejected"
  match body with
  | .ok d => .ok d
  | .error _ => .ok .failed

/-- The function `sendSMSNotification`: a placeholder that only logs. -/
def sendSMSNotification (_env : NotifyEnv) (_m : Messages) : Except String Delivery :=
  let body : Except String Delivery := .ok .sent
  match body with
  | .ok d => .ok d
  | .error _ => .ok .failed

/-- One entry of `Promise.allSettled`: a rejection is recorded, not thrown. -/
def settle (c : Channel) (r : Except String Delivery) : Channel × Delivery :=
  match r with
  | .ok d => (c, d)
  | .error _ => (c, .failed)

/-- The function `sendNotification`: the list of channel attempts it made.
Its `try`/`catch` absorbs a failure of the formatting. -/
def sendNotification (env : NotifyEnv) (kind : NotifyType) (order : Option OrderView)
    (car : Option Car) : Except String (List (Channel × Delivery)) :=
  let body : Except String (List (Channel × Delivery)) :=
    match formatOrderMessage env kind order car with
    | .error e => .error e
    | .ok m =>
      .ok [settle .email (sendEmailNotification env m),
           settle .telegram (sendTelegramNotification env m),
           settle .sms (sendSMSNotification env m)]
  match body with
  | .ok t => .ok t
  | .error _ => .ok []

/-! ## Order routes (`routes/orders.js`) -/

/-- What a handler leaves behind: its outcome, the store, and the channel
attempts of the notification it triggered. -/
structure Response where
  outcome : Outcome
  store : Store
  notified : List (Channel × Delivery)
  deriving DecidableEq, Repr

/-- The body of `POST /orders/create/:carId`. -/
structure OrderBody where
  customerInfo : CustomerInfo
  paymentMethod : String
  notes : Option String
  deriving DecidableEq, Repr

/-- The document built by `new Order(...)` in the create handler, after the
schema setters (`trim`, `lowercase`) and defaults. -/
def newOrder (id now : Nat) (session : Session) (car : Car) (body : OrderBody) : Order :=
  { id := id
    carId := car.id
    userId := session.map (fun u => u.id)
    customerInfo :=
      { name := jsTrim body.customerInfo.name
        email := jsToLowerCase body.customerInfo.email
        phone := jsTrim body.customerInfo.phone
        address := jsTrim body.customerInfo.address }
    paymentMethod := body.paymentMethod
    totalAmount := car.price
    status := .pending
    notes := jsTrim (body.notes.getD "")
    createdAt := now
    updatedAt := now }

/-- The handler of `POST /orders/create/:carId`, behind the `validateOrder`
chain, with one write that may reject: `order.save()` rejects a document
that fails `orderSchema`, and also when `fault = some 0`; `fault = some 1` is
a rejected `car.save()`, whether the database or the schema validators on
the loaded car reject it.
`createOrderRoute` is the route with the chain in front, the lookup able to
fail and the validators of both documents spelled out. -/
def createOrder (env : NotifyEnv) (fault : Option Nat) (s : Store) (now : Nat)
    (session : Session) (carId : Nat) (body : OrderBody) : Response :=
  match s.findCar carId with
  | none => ⟨.notFound, s, []⟩
  | some car =>
    if !car.isAvailable then ⟨.carUnavailable, s, []⟩
    else
      let order := newOrder s.nextId now session car body
      -- await order.save()
      if !orderSchemaValid order || fault == some 0 then ⟨.error, s, []⟩
      else
        let s1 := s.insertOrder order
        -- car.isAvailable = false; await car.save()
        if fault == some 1 then ⟨.error, s1, []⟩
        else
          let s2 := s1.updateCar car.id
            (fun c => { c with isAvailable := false, updatedAt := now })
          -- try { await sendNotification(...) } catch { }
          let sent :=
            match sendNotification env .new_order (s2.findOrderPopulated order.id)
                (some { car with isAvailable := false, updatedAt := now }) with
            | .ok t => t
            | .error _ => []
          ⟨.ok, s2, sent⟩

/-- A value compared by `===` in the access checks of the order routes. -/
inductive JsValue
  | undefined
  | idText (id : Nat)
  | documentText (id : Nat)
  deriving DecidableEq, Repr

/-- The value of `req.session.user.id`: the identifier kept at login, as
text. -/
def sessionUserId (u : SessionUser) : JsValue := .idText u.id

/-- The value of `order.userId?.toString()` on an order returned by
`Order.findById`.  The `pre(/^find/)` hook of `orderSchema` has populated
`userId`, so for an order placed by a user the path holds that user's
document and `toString` gives the printed document, not the text of its
identifier; for a guest order it is `undefined`. -/
def orderUserText (o : Order) : JsValue :=
  match o.userId with
  | none => .undefined
  | some id => .documentText id

/-- The access check of the cancel handler: `true` when access is denied,
`!req.session.user || (req.session.user.id !== order.userId?.toString() &&
!req.session.user.isAdmin)`. -/
def cancelDenied (session : Session) (o : Order) : Bool :=
  match session with
  | none => true
  | some u => (sessionUserId u != orderUserText o) && !u.isAdmin

/-- The test `['pending', 'confirmed'].includes(order.status)`. -/
def cancellable (st : Status) : Bool :=
  st == .pending || st == .confirmed

/-- The handler of `POST /orders/cancel/:id` with one write that may reject:
`fault = some 0` is a rejected `order.save()` and `fault = some 1` a rejected
`car.save()`, whether the database or the schema validators of `save()`
reject it.  The two lookups are taken to succeed; `cancelOrderRoute` is the
same route with every lookup able to fail and the validators of both
documents spelled out. -/
def cancelOrder (env : NotifyEnv) (fault : Option Nat) (s : Store) (now : Nat)
    (session : Session) (id : Nat) : Response :=
  match s.findOrderPopulated id with
  | none => ⟨.notFound, s, []⟩
  | some v =>
    if cancelDenied session v.order then ⟨.accessDenied, s, []⟩
    else if !cancellable v.order.status then ⟨.cannotCancel, s, []⟩
    else
      -- order.status = 'cancelled'; await order.save()
      if fault == some 0 then ⟨.error, s, []⟩
      else
        let s1 := s.updateOrder id
          (fun o => { o with status := .cancelled, updatedAt := now })
        let v1 : OrderView :=
          { v with order := { v.order with status := .cancelled, updatedAt := now } }
        -- const car = await Car.findById(order.carId)
        match s1.findCar v.order.carId with
        | none =>
          let sent :=
            match sendNotification env .order_cancelled (some v1) none with
            | .ok t => t
            | .error _ => []
          ⟨.ok, s1, sent⟩
        | some car =>
          -- car.isAvailable = true; await car.save()
          if fault == some 1 then ⟨.error, s1, []⟩
          else
            let s2 := s1.updateCar car.id
              (fun c => { c with isAvailable := true, updatedAt := now })
            let sent :=
              match sendNotification env .order_cancelled (some v1)
                  (some { car with isAvailable := true, updatedAt := now }) with
              | .ok t => t
              | .error _ => []
            ⟨.ok, s2, sent⟩

/-! ## Admin routes (`middleware/auth.js`, `routes/admin.js`) -/

/-- The middleware `requireAdmin`: `true` when the handler may run. -/
def requireAdmin (session : Session) : Bool :=
  match session with
  | none => false
  | some u => u.isAdmin

/-- The body and files of `POST /admin/cars/add` and `/admin/cars/edit/:id`,
with the numeric fields already read by `parseInt` and `parseFloat`. -/
structure CarBody where
  make : String
  model : String
  year : Int
  price : Price
  mileage : Int
  fuelType : String
  transmission : String
  description : String
  features : String
  files : List String
  deriving DecidableEq, Repr

/-- The call `features.split(',')` on the characters of the text. -/
def splitComma : List Char → List (List Char)
  | [] => [[]]
  | c :: cs =>
    match splitComma cs with
    | [] => [[c]]
    | h :: t => if c = ',' then [] :: h :: t else (c :: h) :: t

/-- The expression
`features ? features.split(',').map(f => f.trim()).filter(f => f) : []`. -/
def parseFeatures (features : String) : List String :=
  if features = "" then []
  else ((splitComma features.toList).map (fun cs => jsTrim (String.mk cs))).filter
    (fun f => f != "")

/-- The route `POST /admin/cars/add`. -/
def adminAddCar (maxYear : Int) (fault : Option Nat) (s : Store) (now : Nat)
    (session : Session) (body : CarBody) : Response :=
  if !requireAdmin session then ⟨.adminRequired, s, []⟩
  else if body.files.isEmpty then ⟨.imageRequired, s, []⟩
  else
    let car : Car :=
      { id := s.nextId
        make := jsTrim body.make
        model := jsTrim body.model
        year := body.year
        price := body.price
        mileage := body.mileage
        fuelType := body.fuelType
        transmission := body.transmission
        description := jsTrim body.description
        images := body.files
        features := (parseFeatures body.features).map jsTrim
        isAvailable := true
        createdAt := now
        updatedAt := now }
    -- await car.save()
    if !carSchemaValid maxYear car || fault == some 0 then ⟨.error, s, []⟩
    else ⟨.ok, s.insertCar car, []⟩

/-- The route `POST /admin/cars/edit/:id`. -/
def adminEditCar (maxYear : Int) (fault : Option Nat) (s : Store) (now : Nat)
    (session : Session) (id : Nat) (body : CarBody) : Response :=
  if !requireAdmin session then ⟨.adminRequired, s, []⟩
  else
    match s.findCar id with
    | none => ⟨.notFound, s, []⟩
    | some car =>
      let edited : Car :=
        { car with
          make := jsTrim body.make
          model := jsTrim body.model
          year := body.year
          price := body.price
          mileage := body.mileage
          fuelType := body.fuelType
          transmission := body.transmission
          description := jsTrim body.description
          features := (parseFeatures body.features).map jsTrim
          images := if body.files.isEmpty then car.images else car.images ++ body.files
          updatedAt := now }
      -- await car.save()
      if !carSchemaValid maxYear edited || fault == some 0 then ⟨.error, s, []⟩
      else
        ⟨.ok, s.updateCar id (fun c =>
          { c with
            make := edited.make
            model := edited.model
            year := edited.year
            price := edited.price
            mileage := edited.mileage
            fuelType := edited.fuelType
            transmission := edited.transmission
            description := edited.description
            features := edited.features
            images := edited.images
            updatedAt := now }), []⟩

/-- The route `DELETE /admin/cars/:id`. -/
def adminDeleteCar (fault : Option Nat) (s : Store) (session : Session) (id : Nat) :
    Response :=
  if !requireAdmin session then ⟨.adminRequired, s, []⟩
  else
    match s.findCar id with
    | none => ⟨.notFound, s, []⟩
    | some _ =>
      if fault == some 0 then ⟨.error, s, []⟩
      else ⟨.ok, s.deleteCar id, []⟩

/-- The route `PATCH /admin/cars/:id/toggle`. -/
def adminToggleCar (fault : Option Nat) (s : Store) (now : Nat) (session : Session)
    (id : Nat) : Response :=
  if !requireAdmin session then ⟨.adminRequired, s, []⟩
  else
    match s.findCar id with
    | none => ⟨.notFound, s, []⟩
    | some car =>
      -- car.isAvailable = !car.isAvailable; await car.save()
      if fault == some 0 then ⟨.error, s, []⟩
      else
        ⟨.ok, s.updateCar id
          (fun c => { c with isAvailable := !car.isAvailable, updatedAt := now }), []⟩

/-- The route `PATCH /admin/orders/:id/status`.  The requested `status` is
any string; the `enum` validator of `orderSchema.status` rejects the save of
a value outside the enumerated set.  The same `save()` validates the other
paths of the loaded order, which passed them when a route stored it; their
rejection, like one by the database, is the case `fault = some 0`. -/
def adminUpdateOrderStatus (fault : Option Nat) (s : Store) (now : Nat)
    (session : Session) (id : Nat) (status : String) : Response :=
  if !requireAdmin session then ⟨.adminRequired, s, []⟩
  else
    match s.findOrder id with
    | none => ⟨.notFound, s, []⟩
    | some _ =>
      -- order.status = status; await order.save()
      match Status.ofString status with
      | none => ⟨.error, s, []⟩
      | some st =>
        if fault == some 0 then ⟨.error, s, []⟩
        else
          ⟨.ok, s.updateOrder id (fun o => { o with status := st, updatedAt := now }), []⟩

/-! ## Sequences of operations -/

/-- One request to the application, with everything it depends on. -/
inductive Op
  | addCar (maxYear : Int) (now : Nat) (session : Session) (body : CarBody)
  | editCar (maxYear : Int) (now : Nat) (session : Session) (id : Nat) (body : CarBody)
  | deleteCar (session : Session) (id : Nat)
  | toggleCar (now : Nat) (session : Session) (id : Nat)
  | createOrder (env : NotifyEnv) (now : Nat) (session : Session) (carId : Nat)
      (body : OrderBody)
  | cancelOrder (env : NotifyEnv) (now : Nat) (session : Session) (id : Nat)
  | updateStatus (now : Nat) (session : Session) (id : Nat) (status : String)
  deriving DecidableEq, Repr

/-- Run one request, with no persistence failure, against a store. -/
def Op.run (s : Store) : Op → Response
  | .addCar maxYear now session body => adminAddCar maxYear none s now session body
  | .editCar maxYear now session id body => adminEditCar maxYear none s now session id body
  | .deleteCar session id => adminDeleteCar none s session id
  | .toggleCar now session id => adminToggleCar none s now session id
  | .createOrder env now session carId body =>
    AutoCentral.createOrder env none s now session carId body
  | .cancelOrder env now session id => AutoCentral.cancelOrder env none s now session id
  | .updateStatus now session id status => adminUpdateOrderStatus none s now session id status

/-- The store after a sequence of requests served one after the other. -/
def runOps (s : Store) (ops : List Op) : Store :=
  ops.foldl (fun st op => (op.run st).store) s

/-- Whether an order counts as active: any status but `cancelled`. -/
def Order.active (o : Order) : Bool := o.status != .cancelled

/-- The active orders that reference the car with identifier `carId`. -/
def Store.activeOrdersOf (s : Store) (carId : Nat) : List Order :=
  s.orders.filter (fun o => o.carId == carId && o.active)

/-- The availability invariant of the specification at one store: every
car is available exactly when no active order references it. -/
def availabilityConsistent (s : Store) : Prop :=
  ∀ c ∈ s.cars, (c.isAvailable = true ↔ s.activeOrdersOf c.id = [])

/-- At most one active order per car. -/
def singleActiveOrder (s : Store) : Prop :=
  ∀ c ∈ s.cars, (s.activeOrdersOf c.id).length ≤ 1

instance (s : Store) : Decidable (availabilityConsistent s) := by
  unfold availabilityConsistent; infer_instance

instance (s : Store) : Decidable (singleActiveOrder s) := by
  unfold singleActiveOrder; infer_instance

/-- The requests after which the availability flag is still tied to the
orders: everything but the admin availability toggle and an admin status
update that moves an order into or out of `cancelled`. -/
def Op.keepsReservation (s : Store) : Op → Bool
  | .toggleCar _ _ _ => false
  | .updateStatus _ session id status =>
    !requireAdmin session ||
      (match s.findOrder id, Status.ofString status with
       | some o, some st => (o.status == .cancelled) == (st == .cancelled)
       | _, _ => true)
  | _ => true

/-- Every request of the sequence, served in turn from `s`, satisfies
`Op.keepsReservation` at the store it meets. -/
def admissible (s : Store) : List Op → Bool
  | [] => true
  | op :: rest => op.keepsReservation s && admissible (op.run s).store rest

/-! ## Two create requests in flight

Each `await` of the create handler is a point where the other request may
run.  A request therefore advances in three atomic steps: the read of the
car with the availability check, `order.save()`, and `car.save()`.  (The
notification that follows writes nothing.) -/

/-- Where a create request stands. -/
inductive CreatePhase
  | start
  | loaded (car : Car)
  | orderSaved (car : Car)
  | done (outcome : Outcome)
  deriving DecidableEq, Repr

/-- A create request in flight. -/
structure CreateRequest where
  now : Nat
  session : Session
  carId : Nat
  body : OrderBody
  phase : CreatePhase
  deriving DecidableEq, Repr

/-- A create request that has not started. -/
def CreateRequest.fresh (now : Nat) (session : Session) (carId : Nat) (body : OrderBody) :
    CreateRequest :=
  ⟨now, session, carId, body, .start⟩

/-- The outcome of a request, once it has one. -/
def CreateRequest.outcome (r : CreateRequest) : Option Outcome :=
  match r.phase with
  | .done o => some o
  | _ => none

/-- One atomic step of a create request: the code between two `await`s. -/
def CreateRequest.step (s : Store) (r : CreateRequest) : Store × CreateRequest :=
  match r.phase with
  | .start =>
    match s.findCar r.carId with
    | none => (s, { r with phase := .done .notFound })
    | some car =>
      if !car.isAvailable then (s, { r with phase := .done .carUnavailable })
      else (s, { r with phase := .loaded car })
  | .loaded car =>
    let order := newOrder s.nextId r.now r.session car r.body
    if !orderSchemaValid order then (s, { r with phase := .done .error })
    else (s.insertOrder order, { r with phase := .orderSaved car })
  | .orderSaved car =>
    match s.findCar car.id with
    | none => (s, { r with phase := .done .error })
    | some _ =>
      (s.updateCar car.id (fun c => { c with isAvailable := false, updatedAt := r.now }),
        { r with phase := .done .ok })
  | .done _ => (s, r)

/-- Run two requests under a schedule: `false` lets the first request take
its next step, `true` the second. -/
def runSchedule (s : Store) (a b : CreateRequest) : List Bool → Store × CreateRequest × CreateRequest
  | [] => (s, a, b)
  | false :: rest => runSchedule (a.step s).1 (a.step s).2 b rest
  | true :: rest => runSchedule (b.step s).1 a (b.step s).2 rest

/-- The merges of `m + 1` steps of the first request with `n` steps of the
second, given the merges `prev` of `m` steps of the first. -/
def mergesAux (prev : Nat → List (List Bool)) (m : Nat) : Nat → List (List Bool)
  | 0 => [List.replicate (m + 1) false]
  | n + 1 =>
    (prev (n + 1)).map (fun l => false :: l) ++
      (mergesAux prev m n).map (fun l => true :: l)

/-- All ways to merge `m` steps of the first request with `n` steps of the
second. -/
def merges : Nat → Nat → List (List Bool)
  | 0 => fun n => [List.replicate n true]
  | m + 1 => mergesAux (merges m) m

/-- The interleavings of two create requests: three steps each. -/
def interleavings : List (List Bool) := merges 3 3

/-- The two schedules in which one request runs to its end before the other
starts. -/
def serial (sched : List Bool) : Bool :=
  sched == [false, false, false, true, true, true] ||
  sched == [true, true, true, false, false, false]

/-- The reservation discipline of a store: identifiers are unique and
already handed out, every car is available exactly when all the orders that
reference it are cancelled, and no two active orders reference one car. -/
structure WellReserved (s : Store) : Prop where
  carIds : (s.cars.map Car.id).Nodup
  orderIds : (s.orders.map Order.id).Nodup
  carFresh : ∀ c ∈ s.cars, c.id < s.nextId
  orderFresh : ∀ o ∈ s.orders, o.id < s.nextId ∧ o.carId < s.nextId
  avail : ∀ c ∈ s.cars,
    (c.isAvailable = true ↔ ∀ o ∈ s.orders, o.carId = c.id → o.status = .cancelled)
  single : s.orders.Pairwise
    (fun a b => a.carId = b.carId → a.status ≠ .cancelled → b.status = .cancelled)

/-! ## Validity of a create request -/

/-- The customer details pass the validators of `orderSchema.customerInfo`
once the schema setters have been applied. -/
def customerInfoValid (ci : CustomerInfo) : Bool :=
  jsTrim ci.name != "" &&
  jsToLowerCase ci.email != "" && matchesEmail (jsToLowerCase ci.email) &&
  jsTrim ci.phone != "" && matchesPhone (jsTrim ci.phone) &&
  jsTrim ci.address != ""

/-- The payment method is one of the enumerated methods. -/
def paymentMethodValid (m : String) : Bool := paymentMethods.contains m

/-- The notes, once trimmed, hold at most 1000 characters. -/
def notesValid (notes : Option String) : Bool :=
  decide (jsLength (jsTrim (notes.getD "")) ≤ 1000)

/-- The body of a create request passes the schema validators. -/
def orderBodyValid (body : OrderBody) : Bool :=
  customerInfoValid body.customerInfo && paymentMethodValid body.paymentMethod &&
    notesValid body.notes

/-! ## Sample data -/

/-- A logged-in administrator. -/
def adminSession : Session := some ⟨900, true⟩

/-- A logged-in customer. -/
def customerSession : Session := some ⟨7, false⟩

/-- A car form that passes validation. -/
def sampleCarBody : CarBody :=
  { make := "Honda", model := "Civic", year := 2005, price := 1200, mileage := 150000
    fuelType := "Gasoline", transmission := "Automatic", description := "Runs well"
    features := "AC, Radio", files := ["civic.jpg"] }

/-- An order form that passes validation. -/
def sampleOrderBody : OrderBody :=
  { customerInfo :=
      { name := "Ada Lovelace", email := "Ada@Example.com", phone := "+1 (555) 010-9999"
        address := "12 Main St" }
    paymentMethod := "Zelle"
    notes := some "call first" }

/-- A notification environment in which every service works. -/
def okEnv : NotifyEnv := ⟨false, true, true, true, true⟩

/-- A stored car, available, with no order. -/
def sampleCar : Car :=
  { id := 0, make := "Honda", model := "Civic", year := 2005, price := 1200
    mileage := 150000, fuelType := "Gasoline", transmission := "Automatic"
    description := "Runs well", images := ["civic.jpg"], features := ["AC", "Radio"]
    isAvailable := true, createdAt := 10, updatedAt := 10 }


/-- Notes of 1001 characters. -/
def longNotes : String := String.mk (List.replicate 1001 'x')

/-- The sample car alone in the store. -/
def carOnlyStore : Store := ⟨[sampleCar], [], 1⟩

/-- The order placed on the sample car by the sample customer at time 20. -/
def sampleOrder : Order :=
  { id := 1, carId := 0, userId := some 7
    customerInfo :=
      { name := "Ada Lovelace", email := "ada@example.com", phone := "+1 (555) 010-9999"
        address := "12 Main St" }
    paymentMethod := "Zelle", totalAmount := 1200, status := .pending
    notes := "call first", createdAt := 20, updatedAt := 20 }

/-- The store after that order: the car is reserved. -/
def reservedStore : Store :=
  ⟨[{ sampleCar with isAvailable := false, updatedAt := 20 }], [sampleOrder], 2⟩

/-- The store after the order was cancelled through the cancel route at
time 30. -/
def cancelledStore : Store :=
  ⟨[{ sampleCar with isAvailable := true, updatedAt := 30 }],
    [{ sampleOrder with status := .cancelled, updatedAt := 30 }], 2⟩

/-- An admin adds the sample car and then toggles its availability. -/
def toggleOps : List Op :=
  [.addCar 2027 10 adminSession sampleCarBody, .toggleCar 11 adminSession 0]

/-- The sample car is ordered, toggled back to available by an admin, and
ordered again. -/
def doubleBookingOps : List Op :=
  [.addCar 2027 10 adminSession sampleCarBody,
   .createOrder okEnv 20 customerSession 0 sampleOrderBody,
   .toggleCar 25 adminSession 0,
   .createOrder okEnv 30 none 0 sampleOrderBody]

/-- A history without toggle: the car is added, ordered, the order is
confirmed by an admin and cancelled through the cancel route (by an admin,
the caller whom its access check admits), the car is edited and
ordered again by a guest, and that order is completed. -/
def lifecycleOps : List Op :=
  [.addCar 2027 10 adminSession sampleCarBody,
   .createOrder okEnv 20 customerSession 0 sampleOrderBody,
   .updateStatus 22 adminSession 1 "confirmed",
   .cancelOrder okEnv 30 adminSession 1,
   .editCar 2027 35 adminSession 0 { sampleCarBody with price := 900, files := [] },
   .createOrder okEnv 40 none 0 sampleOrderBody,
   .updateStatus 50 adminSession 2 "processing",
   .updateStatus 60 adminSession 2 "completed"]

/-- Two create requests for the same car, run under a schedule. -/
def raceCreate (s : Store) (carId : Nat) (now1 : Nat) (session1 : Session)
    (body1 : OrderBody) (now2 : Nat) (session2 : Session) (body2 : OrderBody)
    (sched : List Bool) : Store × CreateRequest × CreateRequest :=
  runSchedule s (.fresh now1 session1 carId body1) (.fresh now2 session2 carId body2) sched

/-- A schedule in which the second request reads the car before the first
has saved it. -/
def overlappingSchedule : List Bool := [false, true, false, false, true, true]

/-! ## Status update with a missing `status`

`const { status } = req.body` is `undefined` when the body has no such key.
Mongoose runs no validator other than `required` on an undefined value, so
the `enum` of `orderSchema.status` does not reject it; saving an undefined
path unsets it in the stored document, and every later read fills the
missing path with the schema default `'pending'`. -/

/-- The route `PATCH /admin/orders/:id/status` on the raw body: `status` is
`none` when the body carries no `status` key. -/
def adminUpdateOrderStatusRaw (fault : Option Nat) (s : Store) (now : Nat)
    (session : Session) (id : Nat) (status : Option String) : Response :=
  match status with
  | some str => adminUpdateOrderStatus fault s now session id str
  | none =>
    if !requireAdmin session then ⟨.adminRequired, s, []⟩
    else
      match s.findOrder id with
      | none => ⟨.notFound, s, []⟩
      | some _ =>
        -- order.status = undefined; await order.save()
        if fault == some 0 then ⟨.error, s, []⟩
        else
          ⟨.ok, s.updateOrder id (fun o => { o with status := .pending, updatedAt := now }),
            []⟩

/-! ## Frame of the order documents -/

/-- The paths of an order that no route assigns after creation. -/
def Order.frozen (o : Order) :
    Nat × Nat × Option Nat × CustomerInfo × String × Price × String × Nat :=
  (o.id, o.carId, o.userId, o.customerInfo, o.paymentMethod, o.totalAmount, o.notes,
    o.createdAt)

/-- The request is an admin car edit. -/
def Op.isEditCar : Op → Bool
  | .editCar _ _ _ _ _ => true
  | _ => false

/-! ## Search (`Car.search`, `routes/index.js`, `routes/cars.js`)

The regular-expression engine and the number parsers belong to the
JavaScript runtime and to the database; they are parameters of the model. -/

/-- The engine behind `new RegExp(p, 'i')`: `none` when the constructor
throws a `SyntaxError`, otherwise the test that a subject string undergoes. -/
abbrev RegexEngine := String → Option (String → Bool)

/-- The built-ins of the runtime used by the search routes.  `parseInt` and
`parseFloat` answer `none` for `NaN`. -/
structure JsRuntime where
  regex : RegexEngine
  parseInt : String → Option Int
  parseFloat : String → Option Price

/-- The `query` object handed to `Car.search`: the keys it reads, and
whatever other keys the caller sent along. -/
structure SearchQuery where
  make : Option String
  model : Option String
  year : Option Int
  minPrice : Option Price
  maxPrice : Option Price
  fuelType : Option String
  transmission : Option String
  extra : List (String × String)
  deriving DecidableEq, Repr

/-- The query `{}`. -/
def SearchQuery.empty : SearchQuery :=
  ⟨none, none, none, none, none, none, none, []⟩

/-- JavaScript truthiness of a string-valued key: present and not `''`. -/
def truthyString : Option String → Option String
  | some v => if v = "" then none else some v
  | none => none

/-- JavaScript truthiness of an integer-valued key: present and not `0`. -/
def truthyInt : Option Int → Option Int
  | some v => if v = 0 then none else some v
  | none => none

/-- JavaScript truthiness of a price-valued key: present and not `0`. -/
def truthyPrice : Option Price → Option Price
  | some v => if v = 0 then none else some v
  | none => none

/-- The order of `sort({ createdAt: -1 })`: `a` may come before `b`. -/
def newerOrSame (a b : Car) : Prop := b.createdAt ≤ a.createdAt

instance : DecidableRel newerOrSame :=
  fun a b => inferInstanceAs (Decidable (b.createdAt ≤ a.createdAt))

instance : IsTotal Car newerOrSame :=
  ⟨fun a b => Nat.le_total b.createdAt a.createdAt⟩

instance : IsTrans Car newerOrSame :=
  ⟨fun _ _ _ hab hbc => Nat.le_trans hbc hab⟩

/-- The stage `.sort({ createdAt: -1 })`.  Documents with equal `createdAt`
keep their relative order here; the database promises no order for them. -/
def sortNewestFirst (l : List Car) : List Car := l.insertionSort newerOrSame

/-- The condition put on a text path by
`if (query.k) searchQuery.k = new RegExp(query.k, 'i')`. -/
def regexCondition (rx : RegexEngine) (pattern : Option String) (path : Car → String) :
    Except String (List (Car → Bool)) :=
  match truthyString pattern with
  | none => .ok []
  | some p =>
    match rx p with
    | none => .error "SyntaxError: Invalid regular expression"
    | some test => .ok [fun c => test (path c)]

/-- The condition `if (query.year) searchQuery.year = query.year`. -/
def yearCondition (query : SearchQuery) : List (Car → Bool) :=
  match truthyInt query.year with
  | none => []
  | some y => [fun c => decide (c.year = y)]

/-- The condition built by
`if (query.minPrice || query.maxPrice) { searchQuery.price = {}; ... }`. -/
def priceCondition (query : SearchQuery) : List (Car → Bool) :=
  if (truthyPrice query.minPrice).isSome || (truthyPrice query.maxPrice).isSome then
    (match truthyPrice query.minPrice with
      | none => []
      | some lo => [fun c => decide (lo ≤ c.price)]) ++
    (match truthyPrice query.maxPrice with
      | none => []
      | some hi => [fun c => decide (c.price ≤ hi)])
  else []

/-- The condition `if (query.k) searchQuery.k = query.k` on an enumerated
text path. -/
def exactCondition (value : Option String) (path : Car → String) : List (Car → Bool) :=
  match truthyString value with
  | none => []
  | some v => [fun c => decide (path c = v)]

/-- The static `carSchema.statics.search`: the documents that satisfy every
condition of `searchQuery`, newest first.  It throws when a pattern is not a
regular expression. -/
def Car.search (rx : RegexEngine) (s : Store) (query : SearchQuery) :
    Except String (List Car) :=
  -- const searchQuery = { isAvailable: true }
  let available : List (Car → Bool) := [fun c => c.isAvailable]
  match regexCondition rx query.make Car.make with
  | .error e => .error e
  | .ok make =>
    match regexCondition rx query.model Car.model with
    | .error e => .error e
    | .ok model =>
      let searchQuery := available ++ make ++ model ++ yearCondition query ++
        priceCondition query ++ exactCondition query.fuelType Car.fuelType ++
        exactCondition query.transmission Car.transmission
      .ok (sortNewestFirst (s.cars.filter (fun c => searchQuery.all (fun cond => cond c))))

/-- A number read from a query-string value by `v ? parse(v) : absent`. -/
def parsedKey {α : Type} (parse : String → Option α) (value : Option String) : Option α :=
  match truthyString value with
  | none => none
  | some v => parse v

/-- The object that `GET /search` hands to `Car.search`: `req.query` with
`year`, `minPrice` and `maxPrice` run through `parseInt` and `parseFloat`. -/
def searchRouteQuery (rt : JsRuntime) (query : List (String × String)) : SearchQuery :=
  { make := query.lookup "make"
    model := query.lookup "model"
    year := parsedKey rt.parseInt (query.lookup "year")
    minPrice := parsedKey rt.parseFloat (query.lookup "minPrice")
    maxPrice := parsedKey rt.parseFloat (query.lookup "maxPrice")
    fuelType := query.lookup "fuelType"
    transmission := query.lookup "transmission"
    extra := query }

/-- The cars rendered by `GET /search`.  `query` is `req.query`, the keys
and values of the query string. -/
def searchRoute (rt : JsRuntime) (s : Store) (query : List (String × String)) : List Car :=
  -- let cars = []; if (Object.keys(query).length > 0) ...
  if query.isEmpty then []
  else
    match Car.search rt.regex s (searchRouteQuery rt query) with
    | .ok cars => cars
    | .error _ => []

/-- The `filters` object of `GET /cars` after its empty entries are removed. -/
def inventoryFilters (rt : JsRuntime) (query : List (String × String)) : SearchQuery :=
  { make := truthyString (query.lookup "make")
    model := none
    year := parsedKey rt.parseInt (query.lookup "year")
    minPrice := parsedKey rt.parseFloat (query.lookup "minPrice")
    maxPrice := parsedKey rt.parseFloat (query.lookup "maxPrice")
    fuelType := truthyString (query.lookup "fuelType")
    transmission := truthyString (query.lookup "transmission")
    extra := [] }

/-- The text `m` occurs at the head of the subject. -/
def literalAt : List Char → List Char → Bool
  | [], _ => true
  | _ :: _, [] => false
  | p :: ps, c :: cs => p == c && literalAt ps cs

/-- The text `m` occurs somewhere in the subject. -/
def literalFind (m : List Char) : List Char → Bool
  | [] => m.isEmpty
  | c :: cs => literalAt m (c :: cs) || literalFind m cs

/-- Following the specification: `subject`, compared case-insensitively,
contains `m` as a literal substring. -/
def specContainsIgnoreCase (subject m : String) : Bool :=
  literalFind (jsToLowerCase m).toList (jsToLowerCase subject).toList

/-! ## Sample runtime

A runtime for the examples.  Its engine knows the patterns made of ordinary
characters and `.` and rejects every pattern that uses another
metacharacter; its parsers know the plain decimal digit strings.  On these
inputs it agrees with the JavaScript built-ins, which accept more. -/

/-- The metacharacters other than `.`. -/
def regexSpecials : List Char :=
  [Char.ofNat 92, '^', '$', '*', '+', '?', '(', ')', '[', ']', Char.ofNat 123,
    Char.ofNat 125, '|']

/-- One pattern character against one subject character, ignoring case; `.`
stands for any character but a line terminator. -/
def wildcardChar (p c : Char) : Bool :=
  if p = '.' then
    !(c.toNat == 0x0A || c.toNat == 0x0D || c.toNat == 0x2028 || c.toNat == 0x2029)
  else p.toLower == c.toLower

/-- The pattern matches at the head of the subject. -/
def wildcardAt : List Char → List Char → Bool
  | [], _ => true
  | _ :: _, [] => false
  | p :: ps, c :: cs => wildcardChar p c && wildcardAt ps cs

/-- The pattern matches somewhere in the subject. -/
def wildcardFind (p : List Char) : List Char → Bool
  | [] => p.isEmpty
  | c :: cs => wildcardAt p (c :: cs) || wildcardFind p cs

/-- The sample engine. -/
def wildcardRegex : RegexEngine := fun p =>
  if p.toList.any (fun c => regexSpecials.contains c) then none
  else some (fun subject => wildcardFind p.toList subject.toList)

/-- The value of a string of decimal digits. -/
def digitsValue : List Char → Option Nat
  | [] => none
  | cs => if cs.all Char.isDigit then
      some (cs.foldl (fun n c => 10 * n + (c.toNat - 48)) 0)
    else none

/-- The sample runtime. -/
def sampleRuntime : JsRuntime :=
  { regex := wildcardRegex
    parseInt := fun v => (digitsValue v.toList).map (fun n => (n : Int))
    parseFloat := fun v => (digitsValue v.toList).map (fun n => (n : Price)) }

/-- The sample order completed: the car stays reserved. -/
def completedStore : Store :=
  ⟨[{ sampleCar with isAvailable := false, updatedAt := 20 }],
    [{ sampleOrder with status := .completed, updatedAt := 60 }], 2⟩

/-- An older, cheaper car that is available. -/
def oldCar : Car :=
  { sampleCar with id := 5, make := "Ford", model := "Focus", price := 0, createdAt := 5
                   updatedAt := 5 }

/-- A car that is reserved. -/
def reservedCar : Car :=
  { sampleCar with id := 6, make := "Honda", model := "Accord", isAvailable := false
                   createdAt := 8, updatedAt := 9 }

/-- Three cars: an old available one, a reserved one, and the sample car. -/
def lotStore : Store := ⟨[oldCar, reservedCar, sampleCar], [], 7⟩

/-- A customer other than the one who placed the sample order. -/
def strangerSession : Session := some ⟨8, false⟩

/-- The sample order placed by a guest. -/
def guestStore : Store :=
  ⟨[{ sampleCar with isAvailable := false, updatedAt := 20 }],
    [{ sampleOrder with userId := none }], 2⟩

/-- The admin edits the price of the sample car twice. -/
def priceEdits : List Op :=
  [.editCar 2027 35 adminSession 0 { sampleCarBody with price := 900, files := [] },
   .editCar 2027 36 adminSession 0 { sampleCarBody with price := 2500, files := [] }]

/-! ## Pages that show an order (`routes/orders.js`, `routes/admin.js`) -/

/-- What a route that only reads renders: its outcome and, when it shows
the page, the data on it. -/
structure Rendered (α : Type) where
  outcome : Outcome
  data : Option α
  deriving DecidableEq, Repr

/-- The route `GET /orders/confirmation/:id`.  The handler does not look at
the session. -/
def orderConfirmation (s : Store) (_session : Session) (id : Nat) : Rendered OrderView :=
  match s.findOrderPopulated id with
  | none => ⟨.notFound, none⟩
  | some v => ⟨.ok, some v⟩

/-- The test of `GET /orders/status/:id`,
`req.session.user && (req.session.user.id === order.userId?.toString() ||
req.session.user.isAdmin)`, on the populated order. -/
def statusAllowed (session : Session) (o : Order) : Bool :=
  match session with
  | none => false
  | some u => (sessionUserId u == orderUserText o) || u.isAdmin

/-- The route `GET /orders/status/:id`. -/
def orderStatusPage (s : Store) (session : Session) (id : Nat) : Rendered OrderView :=
  match s.findOrderPopulated id with
  | none => ⟨.notFound, none⟩
  | some v =>
    if statusAllowed session v.order then ⟨.ok, some v⟩
    else ⟨.accessDenied, none⟩

/-- The route `GET /admin/orders/:id`. -/
def adminViewOrder (s : Store) (session : Session) (id : Nat) : Rendered OrderView :=
  if !requireAdmin session then ⟨.adminRequired, none⟩
  else
    match s.findOrderPopulated id with
    | none => ⟨.notFound, none⟩
    | some v => ⟨.ok, some v⟩

/-! ## The availability request of the admin page

`public/js/main.js` sends `PATCH /admin/cars/:id/toggle` with the body
`{ isAvailable }`, the state of the checkbox.  The route does not read the
body. -/

/-- The route `PATCH /admin/cars/:id/toggle` as the admin page calls it,
with the requested value in the body. -/
def adminToggleCarRequest (fault : Option Nat) (s : Store) (now : Nat) (session : Session)
    (id : Nat) (_isAvailable : Bool) : Response :=
  adminToggleCar fault s now session id

/-! ## Validation of the car form (`middleware/validation.js`) -/

/-- The chain `validateCar` on the typed form: the messages of the
validators that fail. -/
def validateCar (maxYear : Int) (body : CarBody) : List String :=
  (if jsTrim body.make = "" then ["Make is required"] else []) ++
  (if (jsTrim body.make).length > 50 then ["Make cannot exceed 50 characters"] else []) ++
  (if jsTrim body.model = "" then ["Model is required"] else []) ++
  (if (jsTrim body.model).length > 50 then ["Model cannot exceed 50 characters"] else []) ++
  (if 1900 ≤ body.year ∧ body.year ≤ maxYear then []
    else ["Year must be between 1900 and " ++ toString maxYear]) ++
  (if 1 ≤ body.price ∧ body.price ≤ 3000 then []
    else ["Price must be between $1 and $3000"]) ++
  (if 0 ≤ body.mileage then [] else ["Mileage must be a positive number"]) ++
  (if fuelTypes.contains body.fuelType then [] else ["Please select a valid fuel type"]) ++
  (if transmissions.contains body.transmission then []
    else ["Please select a valid transmission type"]) ++
  (if jsTrim body.description = "" then ["Description is required"] else []) ++
  (if (jsTrim body.description).length > 2000 then
    ["Description cannot exceed 2000 characters"] else [])

/-- The route `POST /admin/cars/add` with its middleware: `requireAdmin`,
then `validateCar` with `handleValidationErrors` (which answers with the
messages and does not call the handler), then the handler. -/
def postAddCar (maxYear : Int) (fault : Option Nat) (s : Store) (now : Nat)
    (session : Session) (body : CarBody) : Except (List String) Response :=
  if !requireAdmin session then .ok ⟨.adminRequired, s, []⟩
  else
    match validateCar maxYear body with
    | [] => .ok (adminAddCar maxYear fault s now session body)
    | e :: es => .error (e :: es)

/-- The route `POST /admin/cars/edit/:id` with its middleware. -/
def postEditCar (maxYear : Int) (fault : Option Nat) (s : Store) (now : Nat)
    (session : Session) (id : Nat) (body : CarBody) : Except (List String) Response :=
  if !requireAdmin session then .ok ⟨.adminRequired, s, []⟩
  else
    match validateCar maxYear body with
    | [] => .ok (adminEditCar maxYear fault s now session id body)
    | e :: es => .error (e :: es)

/-- The store after a route with middleware: the one given when the
handler did not run. -/
def routedStore (s : Store) (r : Except (List String) Response) : Store :=
  match r with
  | .ok response => response.store
  | .error _ => s

/-- Every stored car is priced within the bounds of `carSchema.price`. -/
def priceBounded (s : Store) : Prop :=
  ∀ c ∈ s.cars, 0 ≤ c.price ∧ c.price ≤ 3000

/-! ## Pagination (`routes/cars.js`, `routes/admin.js`) -/

/-- One page of a listing and the `pagination` object rendered with it. -/
structure Page (α : Type) where
  items : List α
  currentPage : Nat
  total : Nat
  totalPages : Nat
  hasNext : Bool
  hasPrev : Bool
  deriving DecidableEq, Repr

/-- The computation shared by the paginated routes:
`skip = (page - 1) * limit`, `.skip(skip).limit(limit)`,
`totalPages = Math.ceil(total / limit)`, `hasNext = page < totalPages`,
`hasPrev = page > 1`. -/
def paginate {α : Type} (limit page : Nat) (l : List α) : Page α :=
  { items := (l.drop ((page - 1) * limit)).take limit
    currentPage := page
    total := l.length
    totalPages := (l.length + limit - 1) / limit
    hasNext := decide (page < (l.length + limit - 1) / limit)
    hasPrev := decide (page > 1) }

/-- The pages `1 .. k` of a listing put one after the other. -/
def firstPages {α : Type} (limit : Nat) (l : List α) : Nat → List α
  | 0 => []
  | k + 1 => firstPages limit l k ++ (paginate limit (k + 1) l).items

/-- The expression `parseInt(req.query.page) || 1`. -/
def requestedPage (rt : JsRuntime) (query : List (String × String)) : Int :=
  match query.lookup "page" with
  | none => 1
  | some v =>
    match rt.parseInt v with
    | none => 1
    | some n => if n = 0 then 1 else n

/-- The route `GET /cars`: the page of the inventory.  A negative page
number makes the `skip` stage throw; so does a pattern that is not a
regular expression. -/
def inventoryRoute (rt : JsRuntime) (s : Store) (query : List (String × String)) :
    Rendered (Page Car) :=
  match Car.search rt.regex s (inventoryFilters rt query) with
  | .error _ => ⟨.error, none⟩
  | .ok cars =>
    if requestedPage rt query < 1 then ⟨.error, none⟩
    else ⟨.ok, some (paginate 12 (requestedPage rt query).toNat cars)⟩

/-- The stored text of a status. -/
def Status.text : Status → String
  | .pending => "pending"
  | .confirmed => "confirmed"
  | .processing => "processing"
  | .completed => "completed"
  | .cancelled => "cancelled"

/-- The order of `sort({ createdAt: -1 })` on any collection. -/
def newestBy {α : Type} (createdAt : α → Nat) (a b : α) : Prop := createdAt b ≤ createdAt a

instance {α : Type} (createdAt : α → Nat) : DecidableRel (newestBy createdAt) :=
  fun a b => inferInstanceAs (Decidable (createdAt b ≤ createdAt a))

/-- The route `GET /admin/orders`: the page of the orders, filtered by the
`status` of the query string when it is not empty. -/
def adminListOrders (rt : JsRuntime) (s : Store) (session : Session)
    (query : List (String × String)) : Rendered (Page OrderView) :=
  if !requireAdmin session then ⟨.adminRequired, none⟩
  else
    let found := s.orders.filter (fun o =>
      match truthyString (query.lookup "status") with
      | none => true
      | some status => o.status.text == status)
    let sorted := found.insertionSort (newestBy Order.createdAt)
    let views := sorted.map (fun o => (⟨o, (s.findCar o.carId).map Car.summary⟩ : OrderView))
    if requestedPage rt query < 1 then ⟨.error, none⟩
    else ⟨.ok, some (paginate 10 (requestedPage rt query).toNat views)⟩

/-- The result of `Order.find(query).sort({ createdAt: -1 })` in
`GET /admin/orders` before `skip` and `limit`, named for the statements
about its pages. -/
def adminOrderListing (s : Store) (query : List (String × String)) : List OrderView :=
  ((s.orders.filter (fun o =>
      match truthyString (query.lookup "status") with
      | none => true
      | some status => o.status.text == status)).insertionSort
    (newestBy Order.createdAt)).map
    (fun o => (⟨o, (s.findCar o.carId).map Car.summary⟩ : OrderView))

/-- The items a listing route shows (none when it renders no page). -/
def renderedItems {α : Type} (r : Rendered (Page α)) : List α :=
  match r.data with
  | some page => page.items
  | none => []

/-- The items shown for the page numbers `1 .. k`, one page after the
other. -/
def concatPages {α : Type} (render : Nat → List α) : Nat → List α
  | 0 => []
  | k + 1 => concatPages render k ++ render (k + 1)

/-- Following the specification: `page` is page `p` of the listing `l` in
pages of `L` items, the sub-list from offset `(p-1)*L` up to but excluding
`min (p*L) n`, with `totalPages` the ceiling of `n / L`. -/
def specPage {α : Type} (L p : Nat) (l : List α) (page : Page α) : Prop :=
  page.items = (l.take (min (p * L) l.length)).drop ((p - 1) * L) ∧
  page.currentPage = p ∧
  page.totalPages = ⌈(l.length : ℚ) / (L : ℚ)⌉₊

/-- The route `GET /admin/cars`: the page of all cars. -/
def adminListCars (rt : JsRuntime) (s : Store) (session : Session)
    (query : List (String × String)) : Rendered (Page Car) :=
  if !requireAdmin session then ⟨.adminRequired, none⟩
  else if requestedPage rt query < 1 then ⟨.error, none⟩
  else ⟨.ok, some (paginate 10 (requestedPage rt query).toNat (sortNewestFirst s.cars))⟩

/-! ## Accounts (`routes/auth.js`, `routes/admin.js`)

`models/User.js` is not among the sources.  What `user.save()` accepts (its
validators and unique indexes) is a parameter. -/

/-- Modelled from the spec: `models/User.js` is missing from the sources.
An account carries the identity the specification names (identifier and
`isAdmin` flag) and the fields that the routes assign: `username`, `email`,
`password` (as submitted; the schema may store a hash) and `phone`. -/
structure User where
  id : Nat
  username : String
  email : String
  password : String
  phone : Option String
  isAdmin : Bool
  createdAt : Nat
  deriving DecidableEq, Repr

/-- The `User` collection. -/
structure Accounts where
  users : List User
  nextId : Nat
  deriving DecidableEq, Repr

/-- Whether `user.save()` accepts a new document, given the stored ones. -/
abbrev UserSchema := List User → User → Bool

/-- What an account route leaves behind: its outcome, the collection, and
`req.session.user`. -/
structure AuthResponse where
  outcome : Outcome
  accounts : Accounts
  session : Session
  deriving DecidableEq, Repr

/-- The middleware `requireGuest`: `true` when the handler may run. -/
def requireGuest (session : Session) : Bool := session.isNone

/-- The body of `POST /auth/register`. -/
structure RegisterBody where
  username : String
  email : String
  password : String
  phone : Option String
  deriving DecidableEq, Repr

/-- The route `POST /auth/register` (after its validation chain).  A
logged-in visitor is sent to the home page. -/
def register (schema : UserSchema) (fault : Option Nat) (a : Accounts) (now : Nat)
    (session : Session) (body : RegisterBody) : AuthResponse :=
  if !requireGuest session then ⟨.accessDenied, a, session⟩
  else
    -- const existingUser = await User.findOne({ $or: [{ email }, { username }] })
    match a.users.find? (fun u => u.email == body.email || u.username == body.username) with
    | some _ => ⟨.error, a, session⟩
    | none =>
      let user : User :=
        { id := a.nextId, username := body.username, email := body.email
          password := body.password, phone := body.phone, isAdmin := false
          createdAt := now }
      -- await user.save()
      if !schema a.users user || fault == some 0 then ⟨.error, a, session⟩
      else ⟨.ok, ⟨a.users ++ [user], a.nextId + 1⟩, some ⟨user.id, user.isAdmin⟩⟩

/-- The variables `ADMIN_EMAIL`, `ADMIN_PASSWORD` and `ADMIN_PHONE` of the
environment. -/
structure AdminEnv where
  email : String
  password : String
  phone : Option String
  deriving DecidableEq, Repr

/-- The route `POST /auth/admin-setup`. -/
def adminSetup (schema : UserSchema) (fault : Option Nat) (a : Accounts) (now : Nat)
    (session : Session) (env : AdminEnv) : AuthResponse :=
  -- const adminExists = await User.findOne({ isAdmin: true })
  match a.users.find? (fun u => u.isAdmin) with
  | some _ => ⟨.error, a, session⟩
  | none =>
    let adminUser : User :=
      { id := a.nextId, username := "admin", email := env.email, password := env.password
        phone := env.phone, isAdmin := true, createdAt := now }
    -- await adminUser.save()
    if !schema a.users adminUser || fault == some 0 then ⟨.error, a, session⟩
    else ⟨.ok, ⟨a.users ++ [adminUser], a.nextId + 1⟩, some ⟨adminUser.id, adminUser.isAdmin⟩⟩

/-- The query `User.findById`. -/
def Accounts.findUser (a : Accounts) (id : Nat) : Option User :=
  a.users.find? (fun u => u.id == id)

/-- The route `DELETE /admin/users/:id`. -/
def adminDeleteUser (fault : Option Nat) (a : Accounts) (session : Session) (id : Nat) :
    AuthResponse :=
  if !requireAdmin session then ⟨.adminRequired, a, session⟩
  else
    match a.findUser id with
    | none => ⟨.notFound, a, session⟩
    | some user =>
      -- Prevent deleting admin users
      if user.isAdmin then ⟨.error, a, session⟩
      else if fault == some 0 then ⟨.error, a, session⟩
      else ⟨.ok, { a with users := a.users.filter (fun u => u.id != id) }, session⟩

/-- The route `GET /admin/users`: the page of the users, without their
passwords. -/
def adminListUsers (rt : JsRuntime) (a : Accounts) (session : Session)
    (query : List (String × String)) : Rendered (Page User) :=
  if !requireAdmin session then ⟨.adminRequired, none⟩
  else if requestedPage rt query < 1 then ⟨.error, none⟩
  else
    ⟨.ok, some (paginate 10 (requestedPage rt query).toNat
      ((a.users.insertionSort (newestBy User.createdAt)).map
        (fun u => { u with password := "" })))⟩

/-- One request to the account routes. -/
inductive AccountOp
  | register (now : Nat) (session : Session) (body : RegisterBody)
  | adminSetup (now : Nat) (session : Session) (env : AdminEnv)
  | deleteUser (session : Session) (id : Nat)
  deriving DecidableEq, Repr

/-- Run one account request with no persistence failure. -/
def AccountOp.run (schema : UserSchema) (a : Accounts) : AccountOp → AuthResponse
  | .register now session body => AutoCentral.register schema none a now session body
  | .adminSetup now session env => AutoCentral.adminSetup schema none a now session env
  | .deleteUser session id => adminDeleteUser none a session id

/-- The collection after a sequence of account requests. -/
def runAccountOps (schema : UserSchema) (a : Accounts) (ops : List AccountOp) : Accounts :=
  ops.foldl (fun acc op => (op.run schema acc).accounts) a

/-- The number of users with `isAdmin = true`. -/
def Accounts.adminCount (a : Accounts) : Nat := a.users.countP (fun u => u.isAdmin)

/-- Every car referenced by a completed order is unavailable. -/
def completedKeepsReserved (s : Store) : Prop :=
  ∀ c ∈ s.cars, ∀ o ∈ s.orders, o.carId = c.id → o.status = .completed →
    c.isAvailable = false

instance (s : Store) : Decidable (completedKeepsReserved s) := by
  unfold completedKeepsReserved; infer_instance

/-! ## More sample data -/

/-- A schema that accepts every document. -/
def anySchema : UserSchema := fun _ _ => true

/-- The collection with no user. -/
def noAccounts : Accounts := ⟨[], 0⟩

/-- A registration form. -/
def adaRegistration : RegisterBody :=
  { username := "ada", email := "ada@example.com", password := "Secret1", phone := none }

/-- Another registration form. -/
def bobRegistration : RegisterBody :=
  { username := "bob", email := "bob@example.com", password := "Secret2", phone := none }

/-- The admin credentials of the environment. -/
def sampleAdminEnv : AdminEnv := ⟨"admin@example.com", "Admin123", some "+15550100"⟩

/-- Two visitors register, the admin is set up twice, and the admin then
tries to delete itself and deletes the first user. -/
def accountOps : List AccountOp :=
  [.register 1 none adaRegistration,
   .adminSetup 2 none sampleAdminEnv,
   .register 3 none bobRegistration,
   .adminSetup 4 none sampleAdminEnv,
   .deleteUser (some ⟨1, true⟩) 1,
   .deleteUser (some ⟨1, true⟩) 0]

/-- The accounts after the first three requests of `accountOps`. -/
def threeAccounts : Accounts := runAccountOps anySchema noAccounts (accountOps.take 3)

/-- The sample order is created, cancelled through the cancel route (by an
admin, the caller whom its access check admits), and then set to `completed`
by an admin. -/
def reviveOps : List Op :=
  [.addCar 2027 10 adminSession sampleCarBody,
   .createOrder okEnv 20 customerSession 0 sampleOrderBody,
   .cancelOrder okEnv 30 adminSession 1,
   .updateStatus 40 adminSession 1 "completed"]

/-- The sample order on a store whose car has been deleted. -/
def orphanStore : Store := ⟨[], [sampleOrder], 2⟩

/-- A car form priced above the ceiling. -/
def dearCarBody : CarBody := { sampleCarBody with price := 3500 }

/-- Twenty-five numbered items. -/
def twentyFive : List Nat := List.range 25

/-! ## The order routes with their middleware and every rejection

The handlers `createOrder` and `cancelOrder` above take one write that may
reject.  The two routes below follow `routes/orders.js` once more with
everything that can stop them: the `validateOrder` chain in front of the
create handler, every awaited store call, and the schema validators that
`save()` runs on every path of a loaded document. -/

/-- The functions of `validator.js` used by `validateOrder`, and
`String.prototype.toLowerCase`, which the schema setter `lowercase: true`
applies. -/
structure FormLibrary where
  isEmail : String → Bool
  normalizeEmail : String → String
  toLowerCase : String → String

/-- The chain `validateOrder` (`middleware/validation.js`): the messages of
the validators that fail, each run on the value left by the sanitizers
written before it in the chain. -/
def validateOrder (lib : FormLibrary) (body : OrderBody) : List String :=
  (if jsTrim body.customerInfo.name = "" then ["Name is required"] else []) ++
  (if (jsTrim body.customerInfo.name).length > 100 then
    ["Name cannot exceed 100 characters"] else []) ++
  (if lib.isEmail body.customerInfo.email then []
    else ["Please enter a valid email address"]) ++
  (if matchesPhone body.customerInfo.phone then []
    else ["Please enter a valid phone number"]) ++
  (if jsTrim body.customerInfo.address = "" then ["Address is required"] else []) ++
  (if (jsTrim body.customerInfo.address).length > 200 then
    ["Address cannot exceed 200 characters"] else []) ++
  (if paymentMethods.contains body.paymentMethod then []
    else ["Please select a valid payment method"])

/-- The body the handler reads after the chain: the sanitizers `trim` and
`normalizeEmail` have replaced the values they ran on. -/
def sanitizeOrder (lib : FormLibrary) (body : OrderBody) : OrderBody :=
  { body with
    customerInfo :=
      { name := jsTrim body.customerInfo.name
        email := lib.normalizeEmail body.customerInfo.email
        phone := body.customerInfo.phone
        address := jsTrim body.customerInfo.address } }

/-- The document built by `new Order(...)`, with the `lowercase` setter of
the e-mail taken from the library. -/
def newOrderWith (lib : FormLibrary) (id now : Nat) (session : Session) (car : Car)
    (body : OrderBody) : Order :=
  { id := id
    carId := car.id
    userId := session.map (fun u => u.id)
    customerInfo :=
      { name := jsTrim body.customerInfo.name
        email := lib.toLowerCase body.customerInfo.email
        phone := jsTrim body.customerInfo.phone
        address := jsTrim body.customerInfo.address }
    paymentMethod := body.paymentMethod
    totalAmount := car.price
    status := .pending
    notes := jsTrim (body.notes.getD "")
    createdAt := now
    updatedAt := now }

/-- The awaited store calls of the two order routes, in source order: the
first `findById` of the handler, `order.save()`, the `Car.findById` between
the two writes of the cancel handler, and `car.save()`. -/
inductive StoreCall
  | findFirst | saveOrder | findCar | saveCar
  deriving DecidableEq, Repr

/-- No store call is rejected. -/
def noRejection : StoreCall → Bool := fun _ => false

/-- Only the given store call is rejected. -/
def rejectOnly (call : StoreCall) : StoreCall → Bool := fun c => c == call

/-- The route `POST /orders/create/:carId`: `validateOrder` with
`handleValidationErrors` (which answers with the messages and does not call
the handler), then the handler.  `rejects` tells which store calls the
database rejects; `order.save()` also rejects a document that fails
`orderSchema`, and `car.save()` one that fails `carSchema`. -/
def createOrderRoute (lib : FormLibrary) (maxYear : Int) (env : NotifyEnv)
    (rejects : StoreCall → Bool) (s : Store) (now : Nat) (session : Session) (carId : Nat)
    (body : OrderBody) : Except (List String) Response :=
  match validateOrder lib body with
  | e :: es => .error (e :: es)
  | [] =>
    -- const car = await Car.findById(req.params.carId)
    if rejects .findFirst then .ok ⟨.error, s, []⟩
    else
      match s.findCar carId with
      | none => .ok ⟨.notFound, s, []⟩
      | some car =>
        if !car.isAvailable then .ok ⟨.carUnavailable, s, []⟩
        else
          let order := newOrderWith lib s.nextId now session car (sanitizeOrder lib body)
          -- await order.save()
          if !orderSchemaValid order || rejects .saveOrder then .ok ⟨.error, s, []⟩
          else
            let s1 := s.insertOrder order
            -- car.isAvailable = false; await car.save()
            if !carSchemaValid maxYear { car with isAvailable := false, updatedAt := now } ||
                rejects .saveCar then .ok ⟨.error, s1, []⟩
            else
              let s2 := s1.updateCar car.id
                (fun c => { c with isAvailable := false, updatedAt := now })
              let sent :=
                match sendNotification env .new_order (s2.findOrderPopulated order.id)
                    (some { car with isAvailable := false, updatedAt := now }) with
                | .ok t => t
                | .error _ => []
              .ok ⟨.ok, s2, sent⟩

/-- The route `POST /orders/cancel/:id` with every rejection. -/
def cancelOrderRoute (maxYear : Int) (env : NotifyEnv) (rejects : StoreCall → Bool)
    (s : Store) (now : Nat) (session : Session) (id : Nat) : Response :=
  -- const order = await Order.findById(req.params.id)
  if rejects .findFirst then ⟨.error, s, []⟩
  else
    match s.findOrderPopulated id with
    | none => ⟨.notFound, s, []⟩
    | some v =>
      if cancelDenied session v.order then ⟨.accessDenied, s, []⟩
      else if !cancellable v.order.status then ⟨.cannotCancel, s, []⟩
      else
        -- order.status = 'cancelled'; await order.save()
        if !orderSchemaValid { v.order with status := .cancelled, updatedAt := now } ||
            rejects .saveOrder then ⟨.error, s, []⟩
        else
          let s1 := s.updateOrder id
            (fun o => { o with status := .cancelled, updatedAt := now })
          let v1 : OrderView :=
            { v with order := { v.order with status := .cancelled, updatedAt := now } }
          -- const car = await Car.findById(order.carId)
          if rejects .findCar then ⟨.error, s1, []⟩
          else
            match s1.findCar v.order.carId with
            | none =>
              let sent :=
                match sendNotification env .order_cancelled (some v1) none with
                | .ok t => t
                | .error _ => []
              ⟨.ok, s1, sent⟩
            | some car =>
              -- car.isAvailable = true; await car.save()
              if !carSchemaValid maxYear { car with isAvailable := true, updatedAt := now } ||
                  rejects .saveCar then ⟨.error, s1, []⟩
              else
                let s2 := s1.updateCar car.id
                  (fun c => { c with isAvailable := true, updatedAt := now })
                let sent :=
                  match sendNotification env .order_cancelled (some v1)
                      (some { car with isAvailable := true, updatedAt := now }) with
                  | .ok t => t
                  | .error _ => []
                ⟨.ok, s2, sent⟩

/-- The answer of a route with middleware, when its handler ran. -/
def handlerResponse (r : Except (List String) Response) : Option Response :=
  match r with
  | .ok response => some response
  | .error _ => none

/-- A stand-in for the library on plain ASCII addresses of a domain that
`normalizeEmail` only lowercases. -/
def sampleLibrary : FormLibrary :=
  { isEmail := matchesEmail, normalizeEmail := jsToLowerCase, toLowerCase := jsToLowerCase }

/-- An order form whose name holds 101 characters. -/
def longNameBody : OrderBody :=
  { sampleOrderBody with
    customerInfo :=
      { sampleOrderBody.customerInfo with name := String.mk (List.replicate 101 'a') } }

/-- A store whose only car is priced above the ceiling of `carSchema`. -/
def dearCarStore : Store := ⟨[{ sampleCar with price := 5000 }], [], 1⟩

/-- What the create route answers when the sample customer orders the
sample car at time 77 and nothing is rejected. -/
def createdResponse : Response :=
  (handlerResponse (createOrderRoute sampleLibrary 2027 okEnv noRejection carOnlyStore 77
    customerSession 0 sampleOrderBody)).getD ⟨.error, carOnlyStore, []⟩

/-- What the create route answers when the sample customer orders the
sample car at time 20 and `car.save()` is rejected. -/
def partialResponse : Response :=
  (handlerResponse (createOrderRoute sampleLibrary 2027 okEnv (rejectOnly .saveCar)
    carOnlyStore 20 customerSession 0 sampleOrderBody)).getD ⟨.ok, carOnlyStore, []⟩

/-- A lot of twenty-five available cars, each with one cancelled order. -/
def fleetStore : Store :=
  ⟨(List.range 25).map (fun i => { sampleCar with id := i, createdAt := 100 + i }),
    (List.range 25).map (fun i =>
      { sampleOrder with id := 100 + i, carId := i, status := .cancelled, createdAt := 200 + i }),
    125⟩

/-- The query string `?page=k`. -/
def pageQuery (k : Nat) : List (String × String) := [("page", toString k)]

/-- The inventory of `fleetStore`, newest first. -/
def fleetListing : List Car := sortNewestFirst fleetStore.cars

/-! # Theorems -/

/-! ## Lemmas on the store primitives -/

theorem find_map_update {α : Type} (key : α → Nat) (f : α → α)
    (hf : ∀ a, key (f a) = key a) (id : Nat) (l : List α) :
    (l.map (fun a => if key a = id then f a else a)).find? (fun a => key a == id) =
      (l.find? (fun a => key a == id)).map f := by
  induction l with
  | nil => rfl
  | cons a t ih =>
    by_cases h : key a = id
    · have e1 : (key (f a) == id) = true := by rw [hf, h]; exact beq_self_eq_true id
      have e2 : (key a == id) = true := by rw [h]; exact beq_self_eq_true id
      simp only [List.map_cons, if_pos h, List.find?_cons, e1, e2, Option.map_some']
    · have e2 : (key a == id) = false := by simpa using h
      simp only [List.map_cons, if_neg h, List.find?_cons, e2, ih]

theorem find_map_update_ne {α : Type} (key : α → Nat) (f : α → α)
    (hf : ∀ a, key (f a) = key a) (id id2 : Nat) (hne : id2 ≠ id) (l : List α) :
    (l.map (fun a => if key a = id then f a else a)).find? (fun a => key a == id2) =
      l.find? (fun a => key a == id2) := by
  induction l with
  | nil => rfl
  | cons a t ih =>
    by_cases h : key a = id
    · have e1 : (key (f a) == id2) = false := by
        rw [hf, h]; simpa using hne.symm
      have e2 : (key a == id2) = false := by
        rw [h]; simpa using hne.symm
      simp only [List.map_cons, if_pos h, List.find?_cons, e1, e2, ih]
    · simp only [List.map_cons, if_neg h, List.find?_cons, ih]

theorem findCar_id {s : Store} {id : Nat} {c : Car} (h : s.findCar id = some c) :
    c.id = id := by
  have := List.find?_some h
  simpa using this

theorem findCar_mem {s : Store} {id : Nat} {c : Car} (h : s.findCar id = some c) :
    c ∈ s.cars :=
  List.mem_of_find?_eq_some h

theorem findOrder_id {s : Store} {id : Nat} {o : Order} (h : s.findOrder id = some o) :
    o.id = id := by
  have := List.find?_some h
  simpa using this

theorem findOrder_mem {s : Store} {id : Nat} {o : Order} (h : s.findOrder id = some o) :
    o ∈ s.orders :=
  List.mem_of_find?_eq_some h

theorem findCar_updateCar (s : Store) (id : Nat) (f : Car → Car)
    (hf : ∀ c, (f c).id = c.id) :
    (s.updateCar id f).findCar id = (s.findCar id).map f :=
  find_map_update Car.id f hf id s.cars

theorem findOrder_updateOrder (s : Store) (id : Nat) (f : Order → Order)
    (hf : ∀ o, (f o).id = o.id) :
    (s.updateOrder id f).findOrder id = (s.findOrder id).map f :=
  find_map_update Order.id f hf id s.orders

@[simp] theorem findCar_insertOrder (s : Store) (o : Order) (id : Nat) :
    (s.insertOrder o).findCar id = s.findCar id := rfl

@[simp] theorem findCar_updateOrder (s : Store) (oid : Nat) (f : Order → Order) (id : Nat) :
    (s.updateOrder oid f).findCar id = s.findCar id := rfl

@[simp] theorem findOrder_updateCar (s : Store) (cid : Nat) (f : Car → Car) (id : Nat) :
    (s.updateCar cid f).findOrder id = s.findOrder id := rfl

@[simp] theorem orders_updateCar (s : Store) (cid : Nat) (f : Car → Car) :
    (s.updateCar cid f).orders = s.orders := rfl

@[simp] theorem cars_updateOrder (s : Store) (oid : Nat) (f : Order → Order) :
    (s.updateOrder oid f).cars = s.cars := rfl

@[simp] theorem cars_insertOrder (s : Store) (o : Order) :
    (s.insertOrder o).cars = s.cars := rfl

@[simp] theorem orders_insertOrder (s : Store) (o : Order) :
    (s.insertOrder o).orders = s.orders ++ [o] := rfl

/-! ## Order creation -/

/-- C2. Order creation against a car whose `isAvailable` is `false` answers
with the car-unavailable outcome and returns the store it was given: no
order is added and no field of any record changes.  This holds for every
notification environment and every injected write failure. -/
theorem createOrder_unavailable_rejected (env : NotifyEnv) (fault : Option Nat)
    (s : Store) (now : Nat) (session : Session) (carId : Nat) (body : OrderBody)
    (car : Car) (hfind : s.findCar carId = some car) (hun : car.isAvailable = false) :
    createOrder env fault s now session carId body = ⟨.carUnavailable, s, []⟩ := by
  simp [createOrder, hfind, hun]

/-- Witness for C2: an order on the sample car after it has been reserved. -/
theorem createOrder_unavailable_rejected_witness :
    createOrder okEnv none ⟨[{ sampleCar with isAvailable := false }], [], 1⟩ 20
        customerSession 0 sampleOrderBody =
      ⟨.carUnavailable, ⟨[{ sampleCar with isAvailable := false }], [], 1⟩, []⟩ :=
  createOrder_unavailable_rejected okEnv none
    ⟨[{ sampleCar with isAvailable := false }], [], 1⟩ 20 customerSession 0 sampleOrderBody
    { sampleCar with isAvailable := false } (by decide) (by decide)

theorem orderSchemaValid_newOrder (id now : Nat) (session : Session) (car : Car)
    (body : OrderBody) :
    orderSchemaValid (newOrder id now session car body) =
      (customerInfoValid body.customerInfo && paymentMethodValid body.paymentMethod &&
        decide (0 ≤ car.price) && notesValid body.notes) := by
  simp only [orderSchemaValid, newOrder, customerInfoValid, paymentMethodValid, notesValid,
    Bool.and_assoc]

theorem handlerResponse_eq_some (x : Except (List String) Response) (r : Response)
    (h : handlerResponse x = some r) : x = .ok r := by
  cases x with
  | error e => cases h
  | ok r2 =>
    simp only [handlerResponse, Option.some.injEq] at h
    rw [h]

set_option maxRecDepth 100000 in
/-- C3 (as stated, refuted). The sample car is available and passes the car
schema, the customer details and the payment method pass the `validateOrder`
chain and the order schema, and no store call is rejected; yet creation
fails and writes nothing: the notes hold 1001 characters, for which the
chain has no rule, and `order.save()` rejects them. -/
theorem createOrder_valid_customer_long_notes_fails :
    carOnlyStore.findCar 0 = some sampleCar ∧ sampleCar.isAvailable = true ∧
    carSchemaValid 2027 sampleCar = true ∧
    validateOrder sampleLibrary { sampleOrderBody with notes := some longNotes } = [] ∧
    customerInfoValid sampleOrderBody.customerInfo = true ∧
    paymentMethodValid sampleOrderBody.paymentMethod = true ∧
    handlerResponse (createOrderRoute sampleLibrary 2027 okEnv noRejection carOnlyStore 20
        customerSession 0 { sampleOrderBody with notes := some longNotes }) =
      some ⟨.error, carOnlyStore, []⟩ ∧
    createOrder okEnv none carOnlyStore 20 customerSession 0
        { sampleOrderBody with notes := some longNotes } =
      ⟨.error, carOnlyStore, []⟩ := by
  decide

/-- The hypotheses of the amended C3 are needed on the route: a name of 101
characters is refused by the chain before the handler runs, and on a store
whose car is priced 5000 the order is saved and `car.save()` then rejects
the loaded car, so the route answers with an error. -/
theorem createOrderRoute_sample_rejections :
    createOrderRoute sampleLibrary 2027 okEnv noRejection carOnlyStore 20 customerSession 0
        longNameBody = .error ["Name cannot exceed 100 characters"] ∧
    (handlerResponse (createOrderRoute sampleLibrary 2027 okEnv noRejection dearCarStore 20
        customerSession 0 sampleOrderBody)).map (fun r => (r.outcome, r.store.orders.length)) =
      some (.error, 1) := by
  constructor
  · rfl
  · decide

/-- C3 (amended). For an existing available car whose stored document
passes the car schema, a request body that passes the `validateOrder` chain
and whose document, built from the sanitized body, passes the order schema
(which bounds the trimmed notes to 1000 characters), and no rejected store
call: the route runs the handler and creation succeeds; the orders of the
resulting store are the previous ones followed by exactly one new order,
which is pending, references the car and carries the price of the car; the
car is unavailable afterwards and the other cars are as before. -/
theorem createOrder_succeeds (lib : FormLibrary) (maxYear : Int) (env : NotifyEnv)
    (rejects : StoreCall → Bool) (s : Store) (now : Nat) (session : Session) (carId : Nat)
    (body : OrderBody) (car : Car)
    (hfind : s.findCar carId = some car) (hav : car.isAvailable = true)
    (hcar : carSchemaValid maxYear car = true)
    (hform : validateOrder lib body = [])
    (hdoc : orderSchemaValid
      (newOrderWith lib s.nextId now session car (sanitizeOrder lib body)) = true)
    (hrej : ∀ call, rejects call = false) :
    ∃ r, createOrderRoute lib maxYear env rejects s now session carId body = .ok r ∧
      r.outcome = .ok ∧
      r.store.orders =
        s.orders ++ [newOrderWith lib s.nextId now session car (sanitizeOrder lib body)] ∧
      (newOrderWith lib s.nextId now session car (sanitizeOrder lib body)).status = .pending ∧
      (newOrderWith lib s.nextId now session car (sanitizeOrder lib body)).carId = carId ∧
      (newOrderWith lib s.nextId now session car (sanitizeOrder lib body)).totalAmount =
        car.price ∧
      r.store.findCar carId = some { car with isAvailable := false, updatedAt := now } ∧
      ∀ other, other ≠ carId → r.store.findCar other = s.findCar other := by
  have hid : car.id = carId := findCar_id hfind
  subst hid
  have hcar2 : carSchemaValid maxYear { car with isAvailable := false, updatedAt := now } =
      true := hcar
  have hupd := findCar_updateCar
    (s.insertOrder (newOrderWith lib s.nextId now session car (sanitizeOrder lib body)))
    car.id (fun c => { c with isAvailable := false, updatedAt := now }) (fun _ => rfl)
  rw [findCar_insertOrder, hfind] at hupd
  simp only [createOrderRoute, hform, hfind, hav, hdoc, hcar2, hrej, Bool.not_true,
    Bool.false_eq_true, Bool.or_false, if_false]
  refine ⟨_, rfl, rfl, rfl, rfl, rfl, rfl, hupd, ?_⟩
  intro other hne
  exact find_map_update_ne Car.id
    (fun c => { c with isAvailable := false, updatedAt := now }) (fun _ => rfl) car.id other
    hne s.cars

/-- Witness for C3 (amended): the sample customer orders the sample car. -/
theorem createOrder_succeeds_witness :
    ∃ r, createOrderRoute sampleLibrary 2027 okEnv noRejection carOnlyStore 20 customerSession 0
        sampleOrderBody = .ok r ∧
      r.outcome = .ok ∧
      r.store.orders = carOnlyStore.orders ++
        [newOrderWith sampleLibrary carOnlyStore.nextId 20 customerSession sampleCar
          (sanitizeOrder sampleLibrary sampleOrderBody)] ∧
      (newOrderWith sampleLibrary carOnlyStore.nextId 20 customerSession sampleCar
        (sanitizeOrder sampleLibrary sampleOrderBody)).status = .pending ∧
      (newOrderWith sampleLibrary carOnlyStore.nextId 20 customerSession sampleCar
        (sanitizeOrder sampleLibrary sampleOrderBody)).carId = 0 ∧
      (newOrderWith sampleLibrary carOnlyStore.nextId 20 customerSession sampleCar
        (sanitizeOrder sampleLibrary sampleOrderBody)).totalAmount = sampleCar.price ∧
      r.store.findCar 0 = some { sampleCar with isAvailable := false, updatedAt := 20 } ∧
      ∀ other, other ≠ 0 → r.store.findCar other = carOnlyStore.findCar other :=
  createOrder_succeeds sampleLibrary 2027 okEnv noRejection carOnlyStore 20 customerSession 0
    sampleOrderBody sampleCar (by decide) (by decide) (by decide) (by decide) (by decide)
    (fun _ => rfl)

/-! ## Customer cancellation -/

theorem findOrderPopulated_eq (s : Store) (id : Nat) (o : Order)
    (h : s.findOrder id = some o) :
    s.findOrderPopulated id = some ⟨o, (s.findCar o.carId).map Car.summary⟩ := by
  simp [Store.findOrderPopulated, h]

theorem session_never_owner (u : SessionUser) (o : Order) :
    (sessionUserId u == orderUserText o) = false := by
  cases hu : o.userId <;> simp [sessionUserId, orderUserText, hu]

theorem cancelDenied_eq_false_iff (session : Session) (o : Order) :
    cancelDenied session o = false ↔ requireAdmin session = true := by
  cases session with
  | none => simp [cancelDenied, requireAdmin]
  | some u =>
    cases hu : o.userId <;> simp [cancelDenied, requireAdmin, sessionUserId, orderUserText, hu]

theorem carSchemaValid_flags (maxYear : Int) (car : Car) (b : Bool) (t : Nat) :
    carSchemaValid maxYear { car with isAvailable := b, updatedAt := t } =
      carSchemaValid maxYear car := rfl

/-- The cancel route for a caller who passes the access check, an order that
is pending or confirmed and passes the order schema, and store calls that
are not rejected up to the second lookup: the order is stored as cancelled;
when the car is gone nothing else is written, and when the car is there,
passes the car schema and its save is not rejected, it is stored as
available. -/
theorem cancelOrderRoute_ok (maxYear : Int) (env : NotifyEnv) (rejects : StoreCall → Bool)
    (s : Store) (now : Nat) (session : Session) (id : Nat) (o : Order)
    (hfind : s.findOrder id = some o) (hauth : cancelDenied session o = false)
    (hst : o.status = .pending ∨ o.status = .confirmed)
    (hdoc : orderSchemaValid { o with status := .cancelled, updatedAt := now } = true)
    (h0 : rejects .findFirst = false) (h1 : rejects .saveOrder = false)
    (h2 : rejects .findCar = false) :
    (s.findCar o.carId = none →
      (cancelOrderRoute maxYear env rejects s now session id).outcome = .ok ∧
      (cancelOrderRoute maxYear env rejects s now session id).store =
        s.updateOrder id (fun o => { o with status := .cancelled, updatedAt := now })) ∧
    (∀ car, s.findCar o.carId = some car → carSchemaValid maxYear car = true →
      rejects .saveCar = false →
      (cancelOrderRoute maxYear env rejects s now session id).outcome = .ok ∧
      (cancelOrderRoute maxYear env rejects s now session id).store =
        (s.updateOrder id (fun o => { o with status := .cancelled, updatedAt := now })).updateCar
          o.carId (fun c => { c with isAvailable := true, updatedAt := now })) := by
  have hpop := findOrderPopulated_eq s id o hfind
  have hc : cancellable o.status = true := by
    rcases hst with h | h <;> simp [cancellable, h]
  constructor
  · intro hcar
    simp [cancelOrderRoute, hpop, hauth, hc, hdoc, h0, h1, h2, hcar]
  · intro car hcar hvalid h3
    have hcid : car.id = o.carId := findCar_id hcar
    have hv2 : carSchemaValid maxYear { car with isAvailable := true, updatedAt := now } =
        true := hvalid
    simp only [cancelOrderRoute, hpop, hauth, hc, hdoc, h0, h1, h2, hcar, h3, hv2,
      findCar_updateOrder, Bool.false_eq_true, if_false, Bool.not_true, Bool.or_false,
      Bool.not_false, if_true]
    rw [hcid]
    simp

/-- The cancel route answers that the order cannot be cancelled, and writes
nothing, when the caller passes the access check and the status is
processing, completed or cancelled. -/
theorem cancelOrderRoute_cannotCancel (maxYear : Int) (env : NotifyEnv)
    (rejects : StoreCall → Bool) (s : Store) (now : Nat) (session : Session) (id : Nat)
    (o : Order) (hfind : s.findOrder id = some o) (hauth : cancelDenied session o = false)
    (hst : o.status = .processing ∨ o.status = .completed ∨ o.status = .cancelled)
    (h0 : rejects .findFirst = false) :
    cancelOrderRoute maxYear env rejects s now session id = ⟨.cannotCancel, s, []⟩ := by
  have hpop := findOrderPopulated_eq s id o hfind
  have hc : cancellable o.status = false := by
    rcases hst with h | h | h <;> simp [cancellable, h]
  simp [cancelOrderRoute, hpop, hauth, hc, h0]

/-- Every run of the cancel route whose two lookups succeed is a run of the
handler `cancelOrder` for some rejected write: what is proved of the handler
for every `fault` holds of the route. -/
theorem cancelOrderRoute_is_handler_run (maxYear : Int) (env : NotifyEnv)
    (rejects : StoreCall → Bool) (s : Store) (now : Nat) (session : Session) (id : Nat)
    (h0 : rejects .findFirst = false) (h2 : rejects .findCar = false) :
    ∃ fault, cancelOrderRoute maxYear env rejects s now session id =
      cancelOrder env fault s now session id := by
  cases hfind : s.findOrder id with
  | none =>
    exact ⟨none, by simp [cancelOrderRoute, cancelOrder, h0, Store.findOrderPopulated, hfind]⟩
  | some o =>
    have hpop := findOrderPopulated_eq s id o hfind
    by_cases h1 : cancelDenied session o = true
    · exact ⟨none, by simp [cancelOrderRoute, cancelOrder, h0, hpop, h1]⟩
    by_cases hc : cancellable o.status = true
    swap
    · exact ⟨none, by simp [cancelOrderRoute, cancelOrder, h0, hpop, h1, hc]⟩
    by_cases h3 : (!orderSchemaValid { o with status := .cancelled, updatedAt := now } ||
        rejects .saveOrder) = true
    · refine ⟨some 0, ?_⟩
      simp only [cancelOrderRoute, cancelOrder, h0, hpop, h1, hc, h3, Bool.false_eq_true,
        Bool.not_true, if_false, if_true, beq_self_eq_true]
    cases hcar : s.findCar o.carId with
    | none =>
      refine ⟨none, ?_⟩
      simp only [cancelOrderRoute, cancelOrder, h0, h2, hpop, h1, hc, h3, hcar,
        findCar_updateOrder, Bool.false_eq_true, Bool.not_true, if_false]
      rfl
    | some car =>
      by_cases h4 : (!carSchemaValid maxYear { car with isAvailable := true, updatedAt := now } ||
          rejects .saveCar) = true
      · refine ⟨some 1, ?_⟩
        simp only [cancelOrderRoute, cancelOrder, h0, h2, hpop, h1, hc, h3, hcar, h4,
          findCar_updateOrder, Bool.false_eq_true, Bool.not_true, if_false, if_true,
          beq_self_eq_true]
        rfl
      · refine ⟨none, ?_⟩
        simp only [cancelOrderRoute, cancelOrder, h0, h2, hpop, h1, hc, h3, hcar, h4,
          findCar_updateOrder, Bool.false_eq_true, Bool.not_true, if_false]
        rfl

/-- C4 (the code at the failing input). User 7 placed the pending sample
order and is logged in, yet the cancel route answers access denied and
writes nothing, in the route with every rejection and in the handler alone:
the comparison of the session id with the populated `userId` never holds.
The same request from an admin cancels the order and frees the car. -/
theorem cancelOrder_denies_owner :
    sampleOrder.userId = some 7 ∧ customerSession = some ⟨7, false⟩ ∧
    sampleOrder.status = .pending ∧
    reservedStore.findOrder 1 = some sampleOrder ∧
    cancelOrderRoute 2027 okEnv noRejection reservedStore 30 customerSession 1 =
      ⟨.accessDenied, reservedStore, []⟩ ∧
    cancelOrder okEnv none reservedStore 30 customerSession 1 =
      ⟨.accessDenied, reservedStore, []⟩ ∧
    (cancelOrderRoute 2027 okEnv noRejection reservedStore 30 adminSession 1).outcome = .ok ∧
    (cancelOrderRoute 2027 okEnv noRejection reservedStore 30 adminSession 1).store =
      cancelledStore := by
  decide

/-! ## Admin status update -/

/-- C5 (as stated, refuted). The sample order is cancelled; an admin update
to `completed` is not a transition of the table, yet it succeeds and the
stored order becomes completed. -/
theorem adminUpdate_cancelled_to_completed_succeeds :
    cancelledStore.findOrder 1 = some { sampleOrder with status := .cancelled, updatedAt := 30 } ∧
    (adminUpdateOrderStatus none cancelledStore 50 adminSession 1 "completed").outcome = .ok ∧
    (adminUpdateOrderStatus none cancelledStore 50 adminSession 1 "completed").store.findOrder 1 =
      some { sampleOrder with status := .completed, updatedAt := 50 } := by
  decide

/-- C5 (amended). The admin status update checks no transition table. For
an admin caller and an existing order in any status, a requested status
among pending, confirmed, processing and completed is accepted: the stored
order takes that status and every car is unchanged. A requested status
outside the enumerated set fails and returns the store unchanged. -/
theorem adminUpdateOrderStatus_any_transition (s : Store) (now : Nat) (session : Session)
    (id : Nat) (o : Order) (status : String)
    (hadmin : requireAdmin session = true) (hfind : s.findOrder id = some o) :
    (∀ st, Status.ofString status = some st → st ≠ .cancelled →
      (adminUpdateOrderStatus none s now session id status).outcome = .ok ∧
      (adminUpdateOrderStatus none s now session id status).store.findOrder id =
        some { o with status := st, updatedAt := now } ∧
      (adminUpdateOrderStatus none s now session id status).store.cars = s.cars) ∧
    (Status.ofString status = none →
      adminUpdateOrderStatus none s now session id status = ⟨.error, s, []⟩) := by
  constructor
  · intro st hst _
    have hord := findOrder_updateOrder s id
      (fun o => { o with status := st, updatedAt := now }) (fun _ => rfl)
    rw [hfind] at hord
    refine ⟨?_, ?_, ?_⟩
    · simp [adminUpdateOrderStatus, hadmin, hfind, hst]
    · simp only [adminUpdateOrderStatus, hadmin, hfind, hst]
      simpa using hord
    · simp [adminUpdateOrderStatus, hadmin, hfind, hst]
  · intro hst
    simp [adminUpdateOrderStatus, hadmin, hfind, hst]

/-- Witness for C5 (amended): the admin moves the pending sample order
straight to `completed`; a status `shipped` is rejected. -/
theorem adminUpdateOrderStatus_any_transition_witness :
    ((adminUpdateOrderStatus none reservedStore 40 adminSession 1 "completed").outcome = .ok ∧
      (adminUpdateOrderStatus none reservedStore 40 adminSession 1 "completed").store.findOrder 1 =
        some { sampleOrder with status := .completed, updatedAt := 40 } ∧
      (adminUpdateOrderStatus none reservedStore 40 adminSession 1 "completed").store.cars =
        reservedStore.cars) ∧
    adminUpdateOrderStatus none reservedStore 40 adminSession 1 "shipped" =
      ⟨.error, reservedStore, []⟩ :=
  ⟨(adminUpdateOrderStatus_any_transition reservedStore 40 adminSession 1 sampleOrder
      "completed" (by decide) (by decide)).1 .completed (by decide) (by decide),
    (adminUpdateOrderStatus_any_transition reservedStore 40 adminSession 1 sampleOrder
      "shipped" (by decide) (by decide)).2 (by decide)⟩

/-- C6 (the code at the failing input). On the store in which the sample
order reserves the sample car, the admin update to `cancelled` succeeds and
cancels the order, but the car stays unavailable; the customer cancel route
on the same store makes the car available. -/
theorem adminUpdate_cancel_leaves_car_reserved :
    (adminUpdateOrderStatus none reservedStore 40 adminSession 1 "cancelled").outcome = .ok ∧
    ((adminUpdateOrderStatus none reservedStore 40 adminSession 1 "cancelled").store.findOrder
      1).map Order.status = some .cancelled ∧
    ((adminUpdateOrderStatus none reservedStore 40 adminSession 1 "cancelled").store.findCar
      0).map Car.isAvailable = some false ∧
    ((cancelOrder okEnv none reservedStore 40 adminSession 1).store.findCar 0).map
      Car.isAvailable = some true := by
  decide

/-! ## Error paths and write failures -/

/-- C8 (as stated, refuted). When `car.save()` is rejected during order
creation, the route ends in the error outcome with the new order persisted
while the car still reports available; the same happens with no injected
failure on a store whose car fails the car schema; and when the
`Car.findById` of the cancel route is rejected, the order is stored as
cancelled while its car stays unavailable. -/
theorem createOrder_second_write_failure_is_partial :
    (handlerResponse (createOrderRoute sampleLibrary 2027 okEnv (rejectOnly .saveCar)
        carOnlyStore 20 customerSession 0 sampleOrderBody)).map
        (fun r => (r.outcome, r.store.orders.map Order.status,
          (r.store.findCar 0).map Car.isAvailable)) =
      some (.error, [.pending], some true) ∧
    (handlerResponse (createOrderRoute sampleLibrary 2027 okEnv noRejection
        dearCarStore 20 customerSession 0 sampleOrderBody)).map
        (fun r => (r.outcome, r.store.orders.map Order.status,
          (r.store.findCar 0).map Car.isAvailable)) =
      some (.error, [.pending], some true) ∧
    (cancelOrderRoute 2027 okEnv (rejectOnly .findCar) reservedStore 30 adminSession
        1).outcome = .error ∧
    ((cancelOrderRoute 2027 okEnv (rejectOnly .findCar) reservedStore 30 adminSession
        1).store.findOrder 1).map Order.status = some .cancelled ∧
    ((cancelOrderRoute 2027 okEnv (rejectOnly .findCar) reservedStore 30 adminSession
        1).store.findCar 0).map Car.isAvailable = some false ∧
    (createOrder okEnv (some 1) carOnlyStore 20 customerSession 0 sampleOrderBody).outcome =
      .error ∧
    (createOrder okEnv (some 1) carOnlyStore 20 customerSession 0 sampleOrderBody).store.orders =
      [sampleOrder] ∧
    ((createOrder okEnv (some 1) carOnlyStore 20 customerSession 0 sampleOrderBody).store.findCar
      0).map Car.isAvailable = some true := by
  decide

theorem createOrderRoute_error_paths (lib : FormLibrary) (maxYear : Int) (env : NotifyEnv)
    (rejects : StoreCall → Bool) (s : Store) (now : Nat) (session : Session) (carId : Nat)
    (body : OrderBody) (r : Response)
    (hr : createOrderRoute lib maxYear env rejects s now session carId body = .ok r)
    (hne : r.outcome ≠ .ok) :
    r.store = s ∨
    ∃ car, s.findCar carId = some car ∧ car.isAvailable = true ∧
      (carSchemaValid maxYear car = false ∨ rejects .saveCar = true) ∧
      r.store =
        s.insertOrder (newOrderWith lib s.nextId now session car (sanitizeOrder lib body)) ∧
      r.store.cars = s.cars := by
  cases hval : validateOrder lib body with
  | cons e es => simp [createOrderRoute, hval] at hr
  | nil =>
    cases hfind : s.findCar carId with
    | none =>
      simp only [createOrderRoute, hval, hfind] at hr
      split_ifs at hr <;> (cases hr; exact Or.inl rfl)
    | some car =>
      by_cases h0 : rejects .findFirst = true
      · simp only [createOrderRoute, hval, hfind, h0, if_true] at hr
        cases hr
        exact Or.inl rfl
      by_cases h1 : car.isAvailable = true
      swap
      · simp [createOrderRoute, hval, hfind, h0, h1] at hr
        subst hr
        exact Or.inl rfl
      by_cases h2 : (!orderSchemaValid
          (newOrderWith lib s.nextId now session car (sanitizeOrder lib body)) ||
          rejects .saveOrder) = true
      · simp only [createOrderRoute, hval, hfind, h0, h1, h2, Bool.not_true,
          Bool.false_eq_true, if_false, if_true] at hr
        cases hr
        exact Or.inl rfl
      by_cases h3 : (!carSchemaValid maxYear
          { car with isAvailable := false, updatedAt := now } || rejects .saveCar) = true
      · simp only [createOrderRoute, hval, hfind, h0, h1, h2, h3, Bool.not_true,
          Bool.false_eq_true, if_false, if_true] at hr
        cases hr
        refine Or.inr ⟨car, rfl, h1, ?_, rfl, rfl⟩
        simp only [Bool.or_eq_true, Bool.not_eq_true'] at h3
        exact h3
      · simp only [createOrderRoute, hval, hfind, h0, h1, h2, h3, Bool.not_true,
          Bool.false_eq_true, if_false] at hr
        cases hr
        exact absurd rfl hne

theorem cancelOrderRoute_error_paths (maxYear : Int) (env : NotifyEnv)
    (rejects : StoreCall → Bool) (s : Store) (now : Nat) (session : Session) (id : Nat)
    (hne : (cancelOrderRoute maxYear env rejects s now session id).outcome ≠ .ok) :
    (cancelOrderRoute maxYear env rejects s now session id).store = s ∨
    ∃ o, s.findOrder id = some o ∧
      (rejects .findCar = true ∨ ∃ car, s.findCar o.carId = some car ∧
        (carSchemaValid maxYear car = false ∨ rejects .saveCar = true)) ∧
      (cancelOrderRoute maxYear env rejects s now session id).store =
        s.updateOrder id (fun o => { o with status := .cancelled, updatedAt := now }) ∧
      (cancelOrderRoute maxYear env rejects s now session id).store.cars = s.cars := by
  by_cases h0 : rejects .findFirst = true
  · left; simp [cancelOrderRoute, h0]
  cases hfind : s.findOrder id with
  | none => left; simp [cancelOrderRoute, h0, Store.findOrderPopulated, hfind]
  | some o =>
    have hpop := findOrderPopulated_eq s id o hfind
    by_cases h1 : cancelDenied session o = true
    · left; simp [cancelOrderRoute, h0, hpop, h1]
    by_cases h2 : cancellable o.status = true
    swap
    · left; simp [cancelOrderRoute, h0, hpop, h1, h2]
    by_cases h3 : orderSchemaValid { o with status := .cancelled, updatedAt := now } = true
    swap
    · left; simp [cancelOrderRoute, h0, hpop, h1, h2, h3]
    by_cases h4 : rejects .saveOrder = true
    · left; simp [cancelOrderRoute, h0, hpop, h1, h2, h3, h4]
    by_cases h5 : rejects .findCar = true
    · right
      have hstore : (cancelOrderRoute maxYear env rejects s now session id).store =
          s.updateOrder id (fun o => { o with status := .cancelled, updatedAt := now }) := by
        simp [cancelOrderRoute, h0, hpop, h1, h2, h3, h4, h5]
      exact ⟨o, rfl, Or.inl h5, hstore, by rw [hstore]; rfl⟩
    have hst : o.status = .pending ∨ o.status = .confirmed := by
      cases hs : o.status <;> simp [cancellable, hs] at h2 ⊢
    have hroute := cancelOrderRoute_ok maxYear env rejects s now session id o hfind
      (by simpa using h1) hst h3 (by simpa using h0) (by simpa using h4) (by simpa using h5)
    cases hcar : s.findCar o.carId with
    | none => exact absurd (hroute.1 hcar).1 hne
    | some car =>
      by_cases h6 : carSchemaValid maxYear car = true
      swap
      · right
        have h6b : carSchemaValid maxYear
            { car with isAvailable := true, updatedAt := now } = false := by
          simpa using h6
        have hstore : (cancelOrderRoute maxYear env rejects s now session id).store =
            s.updateOrder id (fun o => { o with status := .cancelled, updatedAt := now }) := by
          simp [cancelOrderRoute, h0, hpop, h1, h2, h3, h4, h5, hcar, h6b]
        exact ⟨o, rfl, Or.inr ⟨car, hcar, Or.inl (by simpa using h6)⟩, hstore,
          by rw [hstore]; rfl⟩
      by_cases h7 : rejects .saveCar = true
      · right
        have hstore : (cancelOrderRoute maxYear env rejects s now session id).store =
            s.updateOrder id (fun o => { o with status := .cancelled, updatedAt := now }) := by
          simp [cancelOrderRoute, h0, hpop, h1, h2, h3, h4, h5, hcar, h7]
        exact ⟨o, rfl, Or.inr ⟨car, hcar, Or.inr h7⟩, hstore, by rw [hstore]; rfl⟩
      · exact absurd (hroute.2 car hcar h6 (by simpa using h7)).1 hne

/-- C8 (amended). Whenever the create or the cancel route runs its handler
and does not succeed, the store is the one it was given, except when a store
call after the first write is rejected: `car.save()` (by the database or by
the car schema on the loaded car) in either route, or the `Car.findById` of
the cancel route. Then exactly the first write stays (the inserted order,
respectively the cancelled status of the order) and no car is changed. -/
theorem error_paths_store_effect (lib : FormLibrary) (maxYear : Int) (env : NotifyEnv)
    (rejects : StoreCall → Bool) (s : Store) (now : Nat) (session : Session) (carId id : Nat)
    (body : OrderBody) :
    (∀ r, createOrderRoute lib maxYear env rejects s now session carId body = .ok r →
      r.outcome ≠ .ok →
      r.store = s ∨
      ∃ car, s.findCar carId = some car ∧ car.isAvailable = true ∧
        (carSchemaValid maxYear car = false ∨ rejects .saveCar = true) ∧
        r.store =
          s.insertOrder (newOrderWith lib s.nextId now session car (sanitizeOrder lib body)) ∧
        r.store.cars = s.cars) ∧
    ((cancelOrderRoute maxYear env rejects s now session id).outcome ≠ .ok →
      (cancelOrderRoute maxYear env rejects s now session id).store = s ∨
      ∃ o, s.findOrder id = some o ∧
        (rejects .findCar = true ∨ ∃ car, s.findCar o.carId = some car ∧
          (carSchemaValid maxYear car = false ∨ rejects .saveCar = true)) ∧
        (cancelOrderRoute maxYear env rejects s now session id).store =
          s.updateOrder id (fun o => { o with status := .cancelled, updatedAt := now }) ∧
        (cancelOrderRoute maxYear env rejects s now session id).store.cars = s.cars) :=
  ⟨createOrderRoute_error_paths lib maxYear env rejects s now session carId body,
    cancelOrderRoute_error_paths maxYear env rejects s now session id⟩

/-- Witness for C8 (amended): the create route with `car.save()` rejected on
the sample car, and the cancel route called by an admin with its
`Car.findById` rejected on the reserved store. -/
theorem error_paths_store_effect_witness :
    (partialResponse.store = carOnlyStore ∨
      ∃ car, carOnlyStore.findCar 0 = some car ∧ car.isAvailable = true ∧
        (carSchemaValid 2027 car = false ∨ rejectOnly .saveCar .saveCar = true) ∧
        partialResponse.store =
          carOnlyStore.insertOrder (newOrderWith sampleLibrary carOnlyStore.nextId 20
            customerSession car (sanitizeOrder sampleLibrary sampleOrderBody)) ∧
        partialResponse.store.cars = carOnlyStore.cars) ∧
    partialResponse.store ≠ carOnlyStore ∧
    ((cancelOrderRoute 2027 okEnv (rejectOnly .findCar) reservedStore 30 adminSession 1).store =
        reservedStore ∨
      ∃ o, reservedStore.findOrder 1 = some o ∧
        (rejectOnly .findCar .findCar = true ∨ ∃ car, reservedStore.findCar o.carId = some car ∧
          (carSchemaValid 2027 car = false ∨ rejectOnly .findCar .saveCar = true)) ∧
        (cancelOrderRoute 2027 okEnv (rejectOnly .findCar) reservedStore 30 adminSession
            1).store =
          reservedStore.updateOrder 1
            (fun o => { o with status := .cancelled, updatedAt := 30 }) ∧
        (cancelOrderRoute 2027 okEnv (rejectOnly .findCar) reservedStore 30 adminSession
            1).store.cars = reservedStore.cars) ∧
    (cancelOrderRoute 2027 okEnv (rejectOnly .findCar) reservedStore 30 adminSession 1).store ≠
      reservedStore :=
  ⟨(error_paths_store_effect sampleLibrary 2027 okEnv (rejectOnly .saveCar) carOnlyStore 20
      customerSession 0 1 sampleOrderBody).1 partialResponse
      (handlerResponse_eq_some _ _ (by decide)) (by decide),
    by decide,
    (error_paths_store_effect sampleLibrary 2027 okEnv (rejectOnly .findCar) reservedStore 30
      adminSession 0 1 sampleOrderBody).2 (by decide),
    by decide⟩

/-! ## Notifications do not influence the order -/

/-- C10. The outcome of order creation and the store it leaves are the same
under any two notification environments: whether the message formatting
throws and whether each channel is configured, delivers or fails has no
effect on the success of the operation nor on the persisted order and
car. -/
theorem createOrder_notification_independent (env1 env2 : NotifyEnv) (fault : Option Nat)
    (s : Store) (now : Nat) (session : Session) (carId : Nat) (body : OrderBody) :
    (createOrder env1 fault s now session carId body).outcome =
      (createOrder env2 fault s now session carId body).outcome ∧
    (createOrder env1 fault s now session carId body).store =
      (createOrder env2 fault s now session carId body).store := by
  unfold createOrder
  cases s.findCar carId with
  | none => exact ⟨rfl, rfl⟩
  | some car =>
    simp only
    split_ifs <;> exact ⟨rfl, rfl⟩

/-- The notification environment is really consulted: on the same request
the channel attempts differ between a working environment and one whose
formatting throws, while outcome and store agree. -/
theorem createOrder_attempts_depend_on_env :
    (createOrder okEnv none carOnlyStore 20 customerSession 0 sampleOrderBody).notified =
      [(.email, .sent), (.telegram, .sent), (.sms, .sent)] ∧
    (createOrder ⟨true, true, true, true, true⟩ none carOnlyStore 20 customerSession 0
      sampleOrderBody).notified = [] ∧
    (createOrder ⟨false, true, false, false, true⟩ none carOnlyStore 20 customerSession 0
      sampleOrderBody).notified =
      [(.email, .failed), (.telegram, .notConfigured), (.sms, .sent)] := by
  decide

/-! ## The reservation invariant -/

theorem wellReserved_empty : WellReserved Store.empty where
  carIds := List.nodup_nil
  orderIds := List.nodup_nil
  carFresh := by intro c hc; cases hc
  orderFresh := by intro o ho; cases ho
  avail := by intro c hc; cases hc
  single := List.Pairwise.nil

theorem map_id_update {α : Type} (key : α → Nat) (f : α → α)
    (hf : ∀ a, key (f a) = key a) (id : Nat) (l : List α) :
    (l.map (fun a => if key a = id then f a else a)).map key = l.map key := by
  rw [List.map_map]
  apply List.map_congr_left
  intro a _
  by_cases h : key a = id <;> simp [h, hf]

theorem findCar_none_ne {s : Store} {id : Nat} (h : s.findCar id = none) :
    ∀ c ∈ s.cars, c.id ≠ id := by
  intro c hc e
  have := List.find?_eq_none.mp h c hc
  simp [e] at this

theorem wellReserved_insertCar {s : Store} (h : WellReserved s) (c : Car)
    (hid : c.id = s.nextId) (hav : c.isAvailable = true) :
    WellReserved (s.insertCar c) where
  carIds := by
    show ((s.cars ++ [c]).map Car.id).Nodup
    rw [List.map_append, List.nodup_append]
    refine ⟨h.carIds, by simp, ?_⟩
    intro x hx hx2
    obtain ⟨c2, hc2, rfl⟩ := List.mem_map.mp hx
    have := h.carFresh c2 hc2
    simp at hx2
    omega
  orderIds := h.orderIds
  carFresh := by
    intro c2 hc2
    show c2.id < s.nextId + 1
    rcases List.mem_append.mp hc2 with h2 | h2
    · exact Nat.lt_succ_of_lt (h.carFresh c2 h2)
    · simp at h2; subst h2; omega
  orderFresh := by
    intro o ho
    show o.id < s.nextId + 1 ∧ o.carId < s.nextId + 1
    have := h.orderFresh o ho
    omega
  avail := by
    intro c2 hc2
    show c2.isAvailable = true ↔ ∀ o ∈ s.orders, o.carId = c2.id → o.status = .cancelled
    rcases List.mem_append.mp hc2 with h2 | h2
    · exact h.avail c2 h2
    · simp at h2; subst h2
      refine ⟨fun _ o ho e => ?_, fun _ => hav⟩
      have := (h.orderFresh o ho).2
      omega
  single := h.single

theorem wellReserved_updateCar {s : Store} (h : WellReserved s) (id : Nat) (f : Car → Car)
    (hf : ∀ c, (f c).id = c.id) (hfa : ∀ c, (f c).isAvailable = c.isAvailable) :
    WellReserved (s.updateCar id f) where
  carIds := by
    show ((s.cars.map (fun c => if c.id = id then f c else c)).map Car.id).Nodup
    rw [map_id_update Car.id f hf]
    exact h.carIds
  orderIds := h.orderIds
  carFresh := by
    intro c hc
    obtain ⟨c0, hc0, rfl⟩ := List.mem_map.mp hc
    show (if c0.id = id then f c0 else c0).id < s.nextId
    have := h.carFresh c0 hc0
    by_cases e : c0.id = id <;> simp [e, hf] <;> omega
  orderFresh := h.orderFresh
  avail := by
    intro c hc
    obtain ⟨c0, hc0, rfl⟩ := List.mem_map.mp hc
    show (if c0.id = id then f c0 else c0).isAvailable = true ↔
      ∀ o ∈ s.orders, o.carId = (if c0.id = id then f c0 else c0).id → o.status = .cancelled
    have := h.avail c0 hc0
    by_cases e : c0.id = id
    · simp only [if_pos e, hf, hfa]; exact this
    · simp only [if_neg e]; exact this
  single := h.single

theorem wellReserved_deleteCar {s : Store} (h : WellReserved s) (id : Nat) :
    WellReserved (s.deleteCar id) where
  carIds := by
    show ((s.cars.filter (fun c => c.id != id)).map Car.id).Nodup
    exact List.Nodup.sublist (List.Sublist.map _ (List.filter_sublist _)) h.carIds
  orderIds := h.orderIds
  carFresh := by
    intro c hc
    exact h.carFresh c (List.mem_of_mem_filter hc)
  orderFresh := h.orderFresh
  avail := by
    intro c hc
    exact h.avail c (List.mem_of_mem_filter hc)
  single := h.single

theorem reserved_symm :
    Symmetric (fun a b : Order =>
      a.carId = b.carId → a.status ≠ .cancelled → b.status = .cancelled) := by
  intro a b hab e hb
  by_contra ha
  exact hb (hab e.symm ha)

theorem wellReserved_create {s : Store} (h : WellReserved s) (carId now : Nat) (car : Car)
    (o : Order) (hfind : s.findCar carId = some car) (hav : car.isAvailable = true)
    (hoid : o.id = s.nextId) (hocar : o.carId = car.id) (host : o.status = .pending) :
    WellReserved ((s.insertOrder o).updateCar car.id
      (fun c => { c with isAvailable := false, updatedAt := now })) where
  carIds := by
    show ((s.cars.map (fun c => if c.id = car.id then
      { c with isAvailable := false, updatedAt := now } else c)).map Car.id).Nodup
    rw [map_id_update Car.id (fun c => { c with isAvailable := false, updatedAt := now })
      (fun _ => rfl)]
    exact h.carIds
  orderIds := by
    show ((s.orders ++ [o]).map Order.id).Nodup
    rw [List.map_append, List.nodup_append]
    refine ⟨h.orderIds, by simp, ?_⟩
    intro x hx hx2
    obtain ⟨o2, ho2, rfl⟩ := List.mem_map.mp hx
    have := (h.orderFresh o2 ho2).1
    simp at hx2
    omega
  carFresh := by
    intro c hc
    obtain ⟨c0, hc0, rfl⟩ := List.mem_map.mp hc
    show (if c0.id = car.id then _ else c0).id < s.nextId + 1
    have := h.carFresh c0 hc0
    by_cases e : c0.id = car.id <;> simp [e] <;> omega
  orderFresh := by
    intro o2 ho2
    show o2.id < s.nextId + 1 ∧ o2.carId < s.nextId + 1
    rcases List.mem_append.mp ho2 with h2 | h2
    · have := h.orderFresh o2 h2
      omega
    · simp at h2; subst h2
      have := h.carFresh car (findCar_mem hfind)
      omega
  avail := by
    intro c hc
    obtain ⟨c0, hc0, rfl⟩ := List.mem_map.mp hc
    show (if c0.id = car.id then ({ c0 with isAvailable := false, updatedAt := now } : Car)
        else c0).isAvailable = true ↔
      ∀ x ∈ s.orders ++ [o], x.carId = (if c0.id = car.id then
        ({ c0 with isAvailable := false, updatedAt := now } : Car) else c0).id →
        x.status = .cancelled
    by_cases e : c0.id = car.id
    · simp only [if_pos e]
      constructor
      · intro hfalse; cases hfalse
      · intro hall
        have := hall o (by simp) (by rw [hocar, e])
        rw [host] at this
        cases this
    · simp only [if_neg e]
      rw [h.avail c0 hc0]
      constructor
      · intro hall x hx hxc
        rcases List.mem_append.mp hx with h2 | h2
        · exact hall x h2 hxc
        · simp at h2; subst h2
          exact absurd (hocar.symm.trans hxc).symm e
      · intro hall x hx hxc
        exact hall x (List.mem_append_left _ hx) hxc
  single := by
    show (s.orders ++ [o]).Pairwise _
    rw [List.pairwise_append]
    refine ⟨h.single, List.pairwise_singleton _ _, ?_⟩
    intro a ha b hb hcar hact
    simp at hb; subst hb
    have := (h.avail car (findCar_mem hfind)).mp hav a ha (hcar.trans hocar)
    exact absurd this hact

theorem wellReserved_updateOrder {s : Store} (h : WellReserved s) (id : Nat)
    (f : Order → Order) (hid : ∀ o, (f o).id = o.id) (hcar : ∀ o, (f o).carId = o.carId)
    (hst : ∀ o ∈ s.orders, o.id = id → ((f o).status = .cancelled ↔ o.status = .cancelled)) :
    WellReserved (s.updateOrder id f) := by
  have key : ∀ x ∈ s.orders,
      ((if x.id = id then f x else x).carId = x.carId) ∧
      ((if x.id = id then f x else x).status = .cancelled ↔ x.status = .cancelled) := by
    intro x hx
    by_cases e : x.id = id
    · rw [if_pos e]; exact ⟨hcar x, hst x hx e⟩
    · rw [if_neg e]; exact ⟨rfl, Iff.rfl⟩
  exact
  { carIds := h.carIds
    orderIds := by
      show ((s.orders.map (fun o => if o.id = id then f o else o)).map Order.id).Nodup
      rw [map_id_update Order.id f hid]
      exact h.orderIds
    carFresh := h.carFresh
    orderFresh := by
      intro o ho
      obtain ⟨o0, ho0, rfl⟩ := List.mem_map.mp ho
      show (if o0.id = id then f o0 else o0).id < s.nextId ∧
        (if o0.id = id then f o0 else o0).carId < s.nextId
      have := h.orderFresh o0 ho0
      by_cases e : o0.id = id <;> simp [e, hid, hcar] <;> omega
    avail := by
      intro c hc
      show c.isAvailable = true ↔
        ∀ x ∈ s.orders.map (fun o => if o.id = id then f o else o),
          x.carId = c.id → x.status = .cancelled
      rw [h.avail c hc]
      constructor
      · intro hall x hx hxc
        obtain ⟨x0, hx0, rfl⟩ := List.mem_map.mp hx
        have k := key x0 hx0
        exact k.2.mpr (hall x0 hx0 (k.1.symm.trans hxc))
      · intro hall x hx hxc
        have k := key x hx
        exact k.2.mp (hall _ (List.mem_map_of_mem _ hx) (k.1.trans hxc))
    single := by
      show (s.orders.map (fun o => if o.id = id then f o else o)).Pairwise _
      rw [List.pairwise_map]
      refine List.Pairwise.imp_of_mem ?_ h.single
      intro a b ha hb hab e hact
      have ka := key a ha
      have kb := key b hb
      exact kb.2.mpr (hab (ka.1.symm.trans (e.trans kb.1)) (fun hc => hact (ka.2.mpr hc))) }

theorem updateCar_of_none {s : Store} {id : Nat} (h : s.findCar id = none) (g : Car → Car) :
    s.updateCar id g = s := by
  have hne := findCar_none_ne h
  have : s.cars.map (fun c => if c.id = id then g c else c) = s.cars := by
    conv_rhs => rw [← List.map_id s.cars]
    apply List.map_congr_left
    intro c hc
    simp [hne c hc]
  show ({ s with cars := s.cars.map (fun c => if c.id = id then g c else c) } : Store) = s
  rw [this]

theorem wellReserved_cancel {s : Store} (h : WellReserved s) (id now : Nat) (o : Order)
    (hfind : s.findOrder id = some o) (hact : o.status ≠ .cancelled) (g : Car → Car)
    (hgid : ∀ c, (g c).id = c.id) (hgav : ∀ c, (g c).isAvailable = true) :
    WellReserved ((s.updateOrder id
      (fun o => { o with status := .cancelled, updatedAt := now })).updateCar o.carId g) := by
  have hoid : o.id = id := findOrder_id hfind
  have homem : o ∈ s.orders := findOrder_mem hfind
  have uniq : ∀ x ∈ s.orders, x.id = id → x = o := fun x hx e =>
    List.inj_on_of_nodup_map h.orderIds hx homem (e.trans hoid.symm)
  have kcar : ∀ x : Order,
      (if x.id = id then ({ x with status := .cancelled, updatedAt := now } : Order)
        else x).carId = x.carId := by
    intro x; by_cases e : x.id = id <;> simp [e]
  exact
  { carIds := by
      show ((s.cars.map (fun c => if c.id = o.carId then g c else c)).map Car.id).Nodup
      rw [map_id_update Car.id g hgid]
      exact h.carIds
    orderIds := by
      show ((s.orders.map (fun x => if x.id = id then
        ({ x with status := .cancelled, updatedAt := now } : Order) else x)).map Order.id).Nodup
      rw [map_id_update Order.id
        (fun x => ({ x with status := .cancelled, updatedAt := now } : Order)) (fun _ => rfl)]
      exact h.orderIds
    carFresh := by
      intro c hc
      obtain ⟨c0, hc0, rfl⟩ := List.mem_map.mp hc
      show (if c0.id = o.carId then g c0 else c0).id < s.nextId
      have := h.carFresh c0 hc0
      by_cases e : c0.id = o.carId <;> simp [e, hgid] <;> omega
    orderFresh := by
      intro x hx
      obtain ⟨x0, hx0, rfl⟩ := List.mem_map.mp hx
      have := h.orderFresh x0 hx0
      show (if x0.id = id then ({ x0 with status := .cancelled, updatedAt := now } : Order)
          else x0).id < s.nextId ∧
        (if x0.id = id then ({ x0 with status := .cancelled, updatedAt := now } : Order)
          else x0).carId < s.nextId
      by_cases e : x0.id = id <;> simp [e] <;> omega
    avail := by
      intro c hc
      obtain ⟨c0, hc0, rfl⟩ := List.mem_map.mp hc
      show (if c0.id = o.carId then g c0 else c0).isAvailable = true ↔
        ∀ x ∈ s.orders.map (fun x => if x.id = id then
            ({ x with status := .cancelled, updatedAt := now } : Order) else x),
          x.carId = (if c0.id = o.carId then g c0 else c0).id → x.status = .cancelled
      by_cases e : c0.id = o.carId
      · simp only [if_pos e, hgid, hgav, true_iff]
        intro x hx hxc
        obtain ⟨x0, hx0, rfl⟩ := List.mem_map.mp hx
        by_cases e2 : x0.id = id
        · simp [e2]
        · rw [if_neg e2] at hxc ⊢
          have hne : o ≠ x0 := fun hh => e2 (hh ▸ hoid)
          exact List.Pairwise.forall reserved_symm h.single homem hx0 hne
            (e.symm.trans hxc.symm) hact
      · simp only [if_neg e]
        rw [h.avail c0 hc0]
        constructor
        · intro hall x hx hxc
          obtain ⟨x0, hx0, rfl⟩ := List.mem_map.mp hx
          by_cases e2 : x0.id = id
          · simp [e2]
          · rw [if_neg e2] at hxc ⊢
            exact hall x0 hx0 hxc
        · intro hall x hx hxc
          have e2 : x.id ≠ id := by
            intro e2
            have := uniq x hx e2
            subst this
            exact e hxc.symm
          have := hall _ (List.mem_map_of_mem _ hx)
          rw [if_neg e2] at this
          exact this hxc
    single := by
      show (s.orders.map (fun x => if x.id = id then
        ({ x with status := .cancelled, updatedAt := now } : Order) else x)).Pairwise _
      rw [List.pairwise_map]
      refine List.Pairwise.imp ?_ h.single
      intro a b hab e hacta
      rw [kcar a, kcar b] at e
      by_cases ea : a.id = id
      · simp [ea] at hacta
      · rw [if_neg ea] at hacta
        have hb := hab e hacta
        by_cases eb : b.id = id
        · simp [eb]
        · rw [if_neg eb]; exact hb }

theorem wellReserved_addCar {s : Store} (h : WellReserved s) (maxYear : Int) (now : Nat)
    (session : Session) (body : CarBody) :
    WellReserved (adminAddCar maxYear none s now session body).store := by
  unfold adminAddCar
  simp only []
  split_ifs <;> first | exact h | exact wellReserved_insertCar h _ rfl rfl

theorem wellReserved_editCar {s : Store} (h : WellReserved s) (maxYear : Int) (now : Nat)
    (session : Session) (id : Nat) (body : CarBody) :
    WellReserved (adminEditCar maxYear none s now session id body).store := by
  unfold adminEditCar
  cases s.findCar id with
  | none => simp only []; split_ifs <;> exact h
  | some car =>
    simp only []
    split_ifs <;>
      first
      | exact h
      | exact wellReserved_updateCar h id _ (fun _ => rfl) (fun _ => rfl)

theorem wellReserved_adminDeleteCar {s : Store} (h : WellReserved s) (session : Session)
    (id : Nat) : WellReserved (adminDeleteCar none s session id).store := by
  unfold adminDeleteCar
  cases s.findCar id with
  | none => simp only []; split_ifs <;> exact h
  | some car =>
    simp only []
    split_ifs <;> first | exact h | exact wellReserved_deleteCar h id

theorem wellReserved_createOrder {s : Store} (h : WellReserved s) (env : NotifyEnv)
    (now : Nat) (session : Session) (carId : Nat) (body : OrderBody) :
    WellReserved (createOrder env none s now session carId body).store := by
  unfold createOrder
  cases hfind : s.findCar carId with
  | none => exact h
  | some car =>
    simp only
    split_ifs with h1 h2 h3
    · exact h
    · exact h
    · simp at h3
    · have hav : car.isAvailable = true := by simpa using h1
      exact wellReserved_create h carId now car _ hfind hav rfl rfl rfl

theorem wellReserved_cancelOrder {s : Store} (h : WellReserved s) (env : NotifyEnv)
    (now : Nat) (session : Session) (id : Nat) :
    WellReserved (cancelOrder env none s now session id).store := by
  cases hfind : s.findOrder id with
  | none => simpa [cancelOrder, Store.findOrderPopulated, hfind] using h
  | some o =>
    have hpop := findOrderPopulated_eq s id o hfind
    by_cases h1 : cancelDenied session o = true
    · simpa [cancelOrder, hpop, h1] using h
    · by_cases h2 : cancellable o.status = true
      · have hact : o.status ≠ .cancelled := by
          intro e; rw [e] at h2; simp [cancellable] at h2
        cases hcar : s.findCar o.carId with
        | none =>
          have key := wellReserved_cancel h id now o hfind hact
            (fun c => { c with isAvailable := true, updatedAt := now })
            (fun _ => rfl) (fun _ => rfl)
          rw [updateCar_of_none (by simpa using hcar)] at key
          simpa [cancelOrder, hpop, h1, h2, hcar] using key
        | some car =>
          have key := wellReserved_cancel h id now o hfind hact
            (fun c => { c with isAvailable := true, updatedAt := now })
            (fun _ => rfl) (fun _ => rfl)
          have hcid : car.id = o.carId := findCar_id hcar
          simpa [cancelOrder, hpop, h1, h2, hcar, hcid] using key
      · simpa [cancelOrder, hpop, h1, h2] using h

theorem wellReserved_updateStatus {s : Store} (h : WellReserved s) (now : Nat)
    (session : Session) (id : Nat) (status : String)
    (hk : (Op.updateStatus now session id status).keepsReservation s = true) :
    WellReserved (adminUpdateOrderStatus none s now session id status).store := by
  by_cases hadm : requireAdmin session = true
  · unfold adminUpdateOrderStatus
    cases hfind : s.findOrder id with
    | none => simp only []; split_ifs <;> exact h
    | some o =>
      cases hst : Status.ofString status with
      | none => simp only []; split_ifs <;> exact h
      | some st =>
        have hk2 : (o.status == .cancelled) = (st == .cancelled) := by
          simpa [Op.keepsReservation, hfind, hst, hadm] using hk
        have key : WellReserved
            (s.updateOrder id (fun o => { o with status := st, updatedAt := now })) := by
          refine wellReserved_updateOrder h id _ (fun _ => rfl) (fun _ => rfl) ?_
          intro x hx e
          have hxo : x = o :=
            List.inj_on_of_nodup_map h.orderIds hx (findOrder_mem hfind)
              (e.trans (findOrder_id hfind).symm)
          subst hxo
          show st = .cancelled ↔ x.status = .cancelled
          constructor
          · intro e2
            have : (x.status == Status.cancelled) = true := by rw [hk2, e2]; rfl
            simpa using this
          · intro e2
            have : (st == Status.cancelled) = true := by rw [← hk2, e2]; rfl
            simpa using this
        simp only []
        split_ifs <;> first | exact h | exact key
  · simpa [adminUpdateOrderStatus, hadm] using h

theorem wellReserved_run {s : Store} (h : WellReserved s) (op : Op)
    (hk : op.keepsReservation s = true) : WellReserved (op.run s).store := by
  cases op with
  | addCar maxYear now session body => exact wellReserved_addCar h maxYear now session body
  | editCar maxYear now session id body =>
    exact wellReserved_editCar h maxYear now session id body
  | deleteCar session id => exact wellReserved_adminDeleteCar h session id
  | toggleCar now session id => simp [Op.keepsReservation] at hk
  | createOrder env now session carId body =>
    exact wellReserved_createOrder h env now session carId body
  | cancelOrder env now session id => exact wellReserved_cancelOrder h env now session id
  | updateStatus now session id status =>
    exact wellReserved_updateStatus h now session id status hk

theorem wellReserved_runOps (ops : List Op) :
    ∀ s : Store, WellReserved s → admissible s ops = true → WellReserved (runOps s ops) := by
  induction ops with
  | nil => intro s h _; exact h
  | cons op rest ih =>
    intro s h hadm
    simp only [admissible, Bool.and_eq_true] at hadm
    show WellReserved (runOps (op.run s).store rest)
    exact ih _ (wellReserved_run h op hadm.1) hadm.2

theorem length_le_one_of_pairwise_false {α : Type} {R : α → α → Prop} {l : List α}
    (hp : l.Pairwise R) (hno : ∀ a ∈ l, ∀ b ∈ l, ¬ R a b) : l.length ≤ 1 := by
  match l, hp, hno with
  | [], _, _ => simp
  | [_], _, _ => simp
  | a :: b :: t, hp, hno =>
    have hab : R a b := (List.pairwise_cons.mp hp).1 b (by simp)
    exact absurd hab (hno a (by simp) b (by simp))

/-- C1 (as stated, refuted). After an admin adds a car and toggles its
availability, the car is unavailable although no order references it. -/
theorem toggle_breaks_availability :
    ¬ availabilityConsistent (runOps Store.empty toggleOps) := by
  decide

/-- C1 (amended). In every state reached from the empty store by a sequence
of requests, each served without a rejected store call (`runOps` serves
every request with no persistence failure), that contains no admin
availability toggle and no admin status update moving an order into or out
of `cancelled` (car create, edit and delete, order creation, cancellation
through the cancel route and the other admin status updates are all
allowed), every car is available exactly when no active order references
it. -/
theorem availability_consistent_of_admissible (ops : List Op)
    (hadm : admissible Store.empty ops = true) :
    availabilityConsistent (runOps Store.empty ops) := by
  have h := wellReserved_runOps ops Store.empty wellReserved_empty hadm
  intro c hc
  rw [h.avail c hc]
  unfold Store.activeOrdersOf
  rw [List.filter_eq_nil_iff]
  constructor
  · intro hall o ho
    simp only [Order.active, Bool.and_eq_true, beq_iff_eq, bne_iff_ne, not_and, not_not]
    intro e
    exact hall o ho e
  · intro hall o ho e
    have := hall o ho
    simp only [Order.active, Bool.and_eq_true, beq_iff_eq, bne_iff_ne, not_and, not_not] at this
    exact this e

/-- Witness for C1 (amended): the lifecycle history. -/
theorem availability_consistent_of_admissible_witness :
    availabilityConsistent (runOps Store.empty lifecycleOps) :=
  availability_consistent_of_admissible lifecycleOps (by decide)

/-- C7 (as stated, refuted). Once an admin has toggled a reserved car back
to available, a second order is accepted: two active orders reference the
car. -/
theorem toggle_allows_double_booking :
    ¬ singleActiveOrder (runOps Store.empty doubleBookingOps) := by
  decide

/-- C7 (amended). In every state reached from the empty store by a sequence
of requests, each served without a rejected store call (`runOps` serves
every request with no persistence failure), that contains no admin
availability toggle and no admin status update moving an order into or out
of `cancelled`, each car is referenced by at most one active order. -/
theorem single_active_order_of_admissible (ops : List Op)
    (hadm : admissible Store.empty ops = true) :
    singleActiveOrder (runOps Store.empty ops) := by
  have h := wellReserved_runOps ops Store.empty wellReserved_empty hadm
  intro c _
  unfold Store.activeOrdersOf
  refine length_le_one_of_pairwise_false (List.Pairwise.filter _ h.single) ?_
  intro a ha b hb hab
  have ha2 := (List.mem_filter.mp ha).2
  have hb2 := (List.mem_filter.mp hb).2
  simp only [Order.active, Bool.and_eq_true, beq_iff_eq, bne_iff_ne] at ha2 hb2
  exact hb2.2 (hab (ha2.1.trans hb2.1.symm) ha2.2)

/-- Witness for C7 (amended): the lifecycle history. -/
theorem single_active_order_of_admissible_witness :
    singleActiveOrder (runOps Store.empty lifecycleOps) :=
  single_active_order_of_admissible lifecycleOps (by decide)

/-! ## Concurrent creation -/

/-- The step model run alone is the create handler: three steps of one
request leave the store and the outcome of `createOrder`. -/
theorem steps_agree_with_createOrder (env : NotifyEnv) (s : Store) (now : Nat)
    (session : Session) (carId : Nat) (body : OrderBody) (other : CreateRequest) :
    (runSchedule s (.fresh now session carId body) other [false, false, false]).1 =
      (createOrder env none s now session carId body).store ∧
    (runSchedule s (.fresh now session carId body) other [false, false, false]).2.1.outcome =
      some (createOrder env none s now session carId body).outcome := by
  cases hfind : s.findCar carId with
  | none =>
    simp [runSchedule, CreateRequest.step, CreateRequest.fresh, CreateRequest.outcome,
      createOrder, hfind]
  | some car =>
    have hid : car.id = carId := findCar_id hfind
    subst hid
    by_cases hav : car.isAvailable = true
    · by_cases hv : orderSchemaValid (newOrder s.nextId now session car body) = true
      · simp [runSchedule, CreateRequest.step, CreateRequest.fresh, CreateRequest.outcome,
          createOrder, hfind, hav, hv]
      · simp [runSchedule, CreateRequest.step, CreateRequest.fresh, CreateRequest.outcome,
          createOrder, hfind, hav, hv]
    · simp [runSchedule, CreateRequest.step, CreateRequest.fresh, CreateRequest.outcome,
        createOrder, hfind, hav]

/-- C9 (as stated, refuted). Under the overlapping schedule, which is one of
the interleavings, both requests for the available sample car succeed and
two pending orders reference the car. -/
theorem overlapping_creates_both_succeed :
    overlappingSchedule ∈ interleavings ∧
    (raceCreate carOnlyStore 0 20 customerSession sampleOrderBody 21 none sampleOrderBody
      overlappingSchedule).2.1.outcome = some .ok ∧
    (raceCreate carOnlyStore 0 20 customerSession sampleOrderBody 21 none sampleOrderBody
      overlappingSchedule).2.2.outcome = some .ok ∧
    (raceCreate carOnlyStore 0 20 customerSession sampleOrderBody 21 none sampleOrderBody
      overlappingSchedule).1.orders.map (fun o => (o.carId, o.status)) =
        [(0, .pending), (0, .pending)] := by
  decide

theorem orderSchemaValid_of_bodyValid (id now : Nat) (session : Session) (car : Car)
    (body : OrderBody) (hprice : 0 ≤ car.price) (hv : orderBodyValid body = true) :
    orderSchemaValid (newOrder id now session car body) = true := by
  rw [orderSchemaValid_newOrder]
  simp only [orderBodyValid, Bool.and_eq_true] at hv
  simp [hv.1.1, hv.1.2, hv.2, hprice]

theorem findCar_updateCar_some (s : Store) (id : Nat) (f : Car → Car) (car : Car)
    (hf : ∀ c, (f c).id = c.id) (h : s.findCar id = some car) :
    (s.updateCar id f).findCar id = some (f car) := by
  rw [findCar_updateCar s id f hf, h]; rfl

/-- C9 (amended). Two create requests for the same available car, with
valid bodies, run under any interleaving of their steps. The car is
unavailable at the end. When one request runs to its end before the other
starts, exactly one succeeds, the other is refused as car-unavailable, and
one new pending order references the car. In every other interleaving both
requests succeed and two new pending orders reference the car. -/
theorem race_outcomes (s : Store) (carId : Nat) (car : Car) (now1 : Nat) (session1 : Session)
    (body1 : OrderBody) (now2 : Nat) (session2 : Session) (body2 : OrderBody)
    (sched : List Bool)
    (hfind : s.findCar carId = some car) (hav : car.isAvailable = true)
    (hprice : 0 ≤ car.price) (hv1 : orderBodyValid body1 = true)
    (hv2 : orderBodyValid body2 = true) (hs : sched ∈ interleavings) :
    ((raceCreate s carId now1 session1 body1 now2 session2 body2 sched).1.findCar carId).map
      Car.isAvailable = some false ∧
    (serial sched = true →
      (((raceCreate s carId now1 session1 body1 now2 session2 body2 sched).2.1.outcome =
            some .ok ∧
          (raceCreate s carId now1 session1 body1 now2 session2 body2 sched).2.2.outcome =
            some .carUnavailable) ∨
        ((raceCreate s carId now1 session1 body1 now2 session2 body2 sched).2.1.outcome =
            some .carUnavailable ∧
          (raceCreate s carId now1 session1 body1 now2 session2 body2 sched).2.2.outcome =
            some .ok)) ∧
      ∃ o, (raceCreate s carId now1 session1 body1 now2 session2 body2 sched).1.orders =
          s.orders ++ [o] ∧ o.carId = carId ∧ o.status = .pending) ∧
    (serial sched = false →
      (raceCreate s carId now1 session1 body1 now2 session2 body2 sched).2.1.outcome =
        some .ok ∧
      (raceCreate s carId now1 session1 body1 now2 session2 body2 sched).2.2.outcome =
        some .ok ∧
      ∃ o1 o2, (raceCreate s carId now1 session1 body1 now2 session2 body2 sched).1.orders =
          s.orders ++ [o1, o2] ∧ o1.carId = carId ∧ o2.carId = carId ∧
          o1.status = .pending ∧ o2.status = .pending) := by
  have hid : car.id = carId := findCar_id hfind
  subst hid
  have v1 := fun id => orderSchemaValid_of_bodyValid id now1 session1 car body1 hprice hv1
  have v2 := fun id => orderSchemaValid_of_bodyValid id now2 session2 car body2 hprice hv2
  simp [interleavings, merges, mergesAux] at hs
  rcases hs with rfl | rfl | rfl | rfl | rfl | rfl | rfl | rfl | rfl | rfl | rfl | rfl | rfl | rfl | rfl | rfl | rfl | rfl | rfl | rfl
  all_goals
    simp [raceCreate, runSchedule, CreateRequest.step, CreateRequest.fresh,
      CreateRequest.outcome, serial, hfind, hav, v1, v2, findCar_updateCar]
    first
    | exact ⟨rfl, rfl⟩
    | exact ⟨_, _, ⟨rfl, rfl⟩, rfl, rfl, rfl, rfl⟩

/-- Witness for C9 (amended): two requests for the sample car under the
overlapping schedule. -/
theorem race_outcomes_witness :
    ((raceCreate carOnlyStore 0 20 customerSession sampleOrderBody 21 none sampleOrderBody
        overlappingSchedule).1.findCar 0).map Car.isAvailable = some false ∧
    (serial overlappingSchedule = true →
      (((raceCreate carOnlyStore 0 20 customerSession sampleOrderBody 21 none sampleOrderBody
            overlappingSchedule).2.1.outcome = some .ok ∧
          (raceCreate carOnlyStore 0 20 customerSession sampleOrderBody 21 none sampleOrderBody
            overlappingSchedule).2.2.outcome = some .carUnavailable) ∨
        ((raceCreate carOnlyStore 0 20 customerSession sampleOrderBody 21 none sampleOrderBody
            overlappingSchedule).2.1.outcome = some .carUnavailable ∧
          (raceCreate carOnlyStore 0 20 customerSession sampleOrderBody 21 none sampleOrderBody
            overlappingSchedule).2.2.outcome = some .ok)) ∧
      ∃ o, (raceCreate carOnlyStore 0 20 customerSession sampleOrderBody 21 none
            sampleOrderBody overlappingSchedule).1.orders = carOnlyStore.orders ++ [o] ∧
          o.carId = 0 ∧ o.status = .pending) ∧
    (serial overlappingSchedule = false →
      (raceCreate carOnlyStore 0 20 customerSession sampleOrderBody 21 none sampleOrderBody
        overlappingSchedule).2.1.outcome = some .ok ∧
      (raceCreate carOnlyStore 0 20 customerSession sampleOrderBody 21 none sampleOrderBody
        overlappingSchedule).2.2.outcome = some .ok ∧
      ∃ o1 o2, (raceCreate carOnlyStore 0 20 customerSession sampleOrderBody 21 none
            sampleOrderBody overlappingSchedule).1.orders = carOnlyStore.orders ++ [o1, o2] ∧
          o1.carId = 0 ∧ o2.carId = 0 ∧ o1.status = .pending ∧ o2.status = .pending) :=
  race_outcomes carOnlyStore 0 sampleCar 20 customerSession sampleOrderBody 21 none
    sampleOrderBody overlappingSchedule (by decide) (by decide) (by decide) (by decide)
    (by decide) (by decide)

/-! ## Notification fan-out -/

/-- C11. `sendNotification` never throws: it always returns to its caller.
When the order is present and the formatting does not throw, it makes
exactly one attempt per channel, in the order email, Telegram, SMS, and what
each attempt does depends on the configuration and the service of that
channel alone, whatever happens on the other two. -/
theorem sendNotification_attempts_each_channel_once (env : NotifyEnv) (kind : NotifyType)
    (order : Option OrderView) (car : Option Car) :
    (∃ attempts, sendNotification env kind order car = .ok attempts) ∧
    (∀ v, order = some v → env.formatThrows = false →
      sendNotification env kind order car =
        .ok [(.email,
              if env.emailConfigured then (if env.emailDelivers then .sent else .failed)
              else .notConfigured),
             (.telegram,
              if env.telegramConfigured then (if env.telegramDelivers then .sent else .failed)
              else .notConfigured),
             (.sms, .sent)]) := by
  constructor
  · unfold sendNotification
    cases formatOrderMessage env kind order car with
    | error e => exact ⟨[], rfl⟩
    | ok m => exact ⟨_, rfl⟩
  · intro v hv hfmt
    subst hv
    cases hec : env.emailConfigured <;> cases hed : env.emailDelivers <;>
      cases htc : env.telegramConfigured <;> cases htd : env.telegramDelivers <;>
      simp [sendNotification, formatOrderMessage, hfmt, settle, sendEmailNotification,
        sendTelegramNotification, sendSMSNotification, hec, hed, htc, htd]

/-- Witness for C11: the mail service rejects the message, the chat-bot is
not configured; all three channels are still attempted once. -/
theorem sendNotification_attempts_each_channel_once_witness :
    sendNotification ⟨false, true, false, false, true⟩ .new_order
        (some ⟨sampleOrder, none⟩) none =
      .ok [(.email, .failed), (.telegram, .notConfigured), (.sms, .sent)] :=
  (sendNotification_attempts_each_channel_once ⟨false, true, false, false, true⟩ .new_order
    (some ⟨sampleOrder, none⟩) none).2 ⟨sampleOrder, none⟩ rfl rfl

/-! ## Frame of the order documents -/

theorem adminEditCar_orders (maxYear : Int) (fault : Option Nat) (s : Store) (now : Nat)
    (session : Session) (id : Nat) (body : CarBody) :
    (adminEditCar maxYear fault s now session id body).store.orders = s.orders := by
  unfold adminEditCar
  cases s.findCar id with
  | none => simp only []; split_ifs; rfl; rfl
  | some car => simp only []; split_ifs <;> rfl

theorem runOps_edits_orders (edits : List Op) :
    ∀ s : Store, (∀ op ∈ edits, op.isEditCar = true) → (runOps s edits).orders = s.orders := by
  induction edits with
  | nil => intro s _; rfl
  | cons op rest ih =>
    intro s h
    have hop := h op (by simp)
    have hrest : ∀ o ∈ rest, o.isEditCar = true := fun o ho => h o (by simp [ho])
    show (runOps (op.run s).store rest).orders = s.orders
    rw [ih _ hrest]
    cases op with
    | editCar maxYear now session id body =>
      exact adminEditCar_orders maxYear none s now session id body
    | addCar _ _ _ _ => simp [Op.isEditCar] at hop
    | deleteCar _ _ => simp [Op.isEditCar] at hop
    | toggleCar _ _ _ => simp [Op.isEditCar] at hop
    | createOrder _ _ _ _ _ => simp [Op.isEditCar] at hop
    | cancelOrder _ _ _ _ => simp [Op.isEditCar] at hop
    | updateStatus _ _ _ _ => simp [Op.isEditCar] at hop

theorem createOrder_ok_orders (env : NotifyEnv) (fault : Option Nat) (s : Store) (now : Nat)
    (session : Session) (carId : Nat) (body : OrderBody) (car : Car)
    (hfind : s.findCar carId = some car)
    (hok : (createOrder env fault s now session carId body).outcome = .ok) :
    (createOrder env fault s now session carId body).store.orders =
      s.orders ++ [newOrder s.nextId now session car body] := by
  unfold createOrder at hok ⊢
  rw [hfind] at hok ⊢
  simp only [] at hok ⊢
  split_ifs at hok ⊢
  rfl

/-- C12. Any sequence of admin car edits leaves the orders of any store
exactly as they were. In particular an order created on a car keeps, after
any later edits of that car, the `totalAmount` it was given at creation,
which is the price the car had at that moment. -/
theorem totalAmount_survives_car_edits (env : NotifyEnv) (s : Store) (now : Nat)
    (session : Session) (carId : Nat) (body : OrderBody) (car : Car) (edits : List Op)
    (hfind : s.findCar carId = some car)
    (hok : (createOrder env none s now session carId body).outcome = .ok)
    (hedits : ∀ op ∈ edits, op.isEditCar = true) :
    (∀ s0 : Store, (runOps s0 edits).orders = s0.orders) ∧
    (runOps (createOrder env none s now session carId body).store edits).orders =
      s.orders ++ [newOrder s.nextId now session car body] ∧
    (newOrder s.nextId now session car body).totalAmount = car.price := by
  refine ⟨fun s0 => runOps_edits_orders edits s0 hedits, ?_, rfl⟩
  rw [runOps_edits_orders edits _ hedits]
  exact createOrder_ok_orders env none s now session carId body car hfind hok

/-- Witness for C12: the sample car is ordered at 1200 and then re-priced
to 900 and to 2500; the order still carries 1200. -/
theorem totalAmount_survives_car_edits_witness :
    (∀ s0 : Store, (runOps s0 priceEdits).orders = s0.orders) ∧
    (runOps (createOrder okEnv none carOnlyStore 20 customerSession 0 sampleOrderBody).store
        priceEdits).orders =
      carOnlyStore.orders ++ [newOrder carOnlyStore.nextId 20 customerSession sampleCar
        sampleOrderBody] ∧
    (newOrder carOnlyStore.nextId 20 customerSession sampleCar sampleOrderBody).totalAmount =
      sampleCar.price :=
  totalAmount_survives_car_edits okEnv carOnlyStore 20 customerSession 0 sampleOrderBody
    sampleCar priceEdits (by decide) (by decide) (by decide)

theorem frozen_updateOrder (s : Store) (id : Nat) (f : Order → Order)
    (hf : ∀ o, (f o).frozen = o.frozen) :
    (s.updateOrder id f).orders.map Order.frozen = s.orders.map Order.frozen := by
  show (s.orders.map (fun o => if o.id = id then f o else o)).map Order.frozen = _
  rw [List.map_map]
  apply List.map_congr_left
  intro o _
  by_cases h : o.id = id <;> simp [h, hf]

theorem createOrder_frozen (env : NotifyEnv) (fault : Option Nat) (s : Store) (now : Nat)
    (session : Session) (carId : Nat) (body : OrderBody) :
    ∃ extra, (createOrder env fault s now session carId body).store.orders.map Order.frozen =
      s.orders.map Order.frozen ++ extra := by
  unfold createOrder
  cases s.findCar carId with
  | none => exact ⟨[], by simp⟩
  | some car =>
    simp only []
    split_ifs <;>
      first
      | (refine ⟨[], ?_⟩; simp; done)
      | (refine ⟨[(newOrder s.nextId now session car body).frozen], ?_⟩; simp)

theorem cancelOrder_frozen (env : NotifyEnv) (fault : Option Nat) (s : Store) (now : Nat)
    (session : Session) (id : Nat) :
    (cancelOrder env fault s now session id).store.orders.map Order.frozen =
      s.orders.map Order.frozen := by
  have key := frozen_updateOrder s id
    (fun o => { o with status := .cancelled, updatedAt := now }) (fun _ => rfl)
  cases hord : s.findOrderPopulated id with
  | none => simp [cancelOrder, hord]
  | some v =>
    by_cases h1 : cancelDenied session v.order = true
    · simp [cancelOrder, hord, h1]
    · by_cases h2 : cancellable v.order.status = true
      · by_cases h3 : fault = some 0
        · simp [cancelOrder, hord, h1, h2, h3]
        · cases hcar : s.findCar v.order.carId with
          | none => simpa [cancelOrder, hord, h1, h2, h3, hcar] using key
          | some car =>
            by_cases h4 : fault = some 1
            · simpa [cancelOrder, hord, h1, h2, hcar, h4] using key
            · simpa [cancelOrder, hord, h1, h2, h3, hcar, h4] using key
      · simp [cancelOrder, hord, h1, h2]

theorem adminUpdateOrderStatus_frozen (fault : Option Nat) (s : Store) (now : Nat)
    (session : Session) (id : Nat) (status : String) :
    (adminUpdateOrderStatus fault s now session id status).store.orders.map Order.frozen =
      s.orders.map Order.frozen := by
  unfold adminUpdateOrderStatus
  cases s.findOrder id with
  | none => simp only []; split_ifs <;> rfl
  | some o =>
    cases Status.ofString status with
    | none => simp only []; split_ifs <;> rfl
    | some st =>
      simp only []
      split_ifs <;>
        first
        | rfl
        | exact frozen_updateOrder s id (fun o => { o with status := st, updatedAt := now })
            (fun _ => rfl)

theorem adminUpdateOrderStatusRaw_frozen (fault : Option Nat) (s : Store) (now : Nat)
    (session : Session) (id : Nat) (status : Option String) :
    (adminUpdateOrderStatusRaw fault s now session id status).store.orders.map Order.frozen =
      s.orders.map Order.frozen := by
  cases status with
  | some str => exact adminUpdateOrderStatus_frozen fault s now session id str
  | none =>
    unfold adminUpdateOrderStatusRaw
    cases s.findOrder id with
    | none => simp only []; split_ifs <;> rfl
    | some o =>
      simp only []
      split_ifs <;>
        first
        | rfl
        | exact frozen_updateOrder s id (fun o => { o with status := .pending, updatedAt := now })
            (fun _ => rfl)

theorem carRoutes_orders (maxYear : Int) (fault : Option Nat) (s : Store) (now : Nat)
    (session : Session) (id : Nat) (body : CarBody) :
    (adminAddCar maxYear fault s now session body).store.orders = s.orders ∧
    (adminDeleteCar fault s session id).store.orders = s.orders ∧
    (adminToggleCar fault s now session id).store.orders = s.orders := by
  refine ⟨?_, ?_, ?_⟩
  · unfold adminAddCar
    simp only []
    split_ifs <;> rfl
  · unfold adminDeleteCar
    cases s.findCar id <;> simp only [] <;> split_ifs <;> rfl
  · unfold adminToggleCar
    cases s.findCar id <;> simp only [] <;> split_ifs <;> rfl

/-- C13. Whatever request is served, the orders of the store before it are
still there afterwards, in the same positions and with the same identifier,
`carId`, `userId`, `customerInfo`, `paymentMethod`, `totalAmount`, notes and
`createdAt`: a request can only append a new order or change `status` and
`updatedAt`. This covers every car and order route, and the status update
whose body has no `status`. -/
theorem orders_frozen_by_every_request (s : Store) (op : Op) (fault : Option Nat)
    (now : Nat) (session : Session) (id : Nat) (status : Option String) :
    (∃ extra, (op.run s).store.orders.map Order.frozen =
      s.orders.map Order.frozen ++ extra) ∧
    (adminUpdateOrderStatusRaw fault s now session id status).store.orders.map Order.frozen =
      s.orders.map Order.frozen := by
  refine ⟨?_, adminUpdateOrderStatusRaw_frozen fault s now session id status⟩
  cases op with
  | addCar maxYear now session body =>
    exact ⟨[], by simp [Op.run, (carRoutes_orders maxYear none s now session 0 body).1]⟩
  | editCar maxYear now session id body =>
    exact ⟨[], by simp [Op.run, adminEditCar_orders]⟩
  | deleteCar session id =>
    exact ⟨[], by simp [Op.run, (carRoutes_orders 0 none s 0 session id sampleCarBody).2.1]⟩
  | toggleCar now session id =>
    exact ⟨[], by simp [Op.run, (carRoutes_orders 0 none s now session id sampleCarBody).2.2]⟩
  | createOrder env now session carId body =>
    exact createOrder_frozen env none s now session carId body
  | cancelOrder env now session id =>
    exact ⟨[], by simp [Op.run, cancelOrder_frozen]⟩
  | updateStatus now session id status =>
    exact ⟨[], by simp [Op.run, adminUpdateOrderStatus_frozen]⟩

/-! ## Status outside the enumerated set -/

theorem adminUpdateOrderStatusRaw_rejects_unknown_text (fault : Option Nat) (s : Store)
    (now : Nat) (session : Session) (id : Nat) (status : String)
    (hadmin : requireAdmin session = true) (hst : Status.ofString status = none) :
    (adminUpdateOrderStatusRaw fault s now session id (some status)).outcome ≠ .ok ∧
    (adminUpdateOrderStatusRaw fault s now session id (some status)).store = s := by
  cases hfind : s.findOrder id <;>
    simp [adminUpdateOrderStatusRaw, adminUpdateOrderStatus, hadmin, hfind, hst]

/-- C14 (the code at the failing input). The sample order is completed. An
admin status update whose body has no `status` is accepted, and the order
reads as pending afterwards. -/
theorem adminUpdate_missing_status_accepted :
    (completedStore.findOrder 1).map Order.status = some .completed ∧
    (adminUpdateOrderStatusRaw none completedStore 70 adminSession 1 none).outcome = .ok ∧
    ((adminUpdateOrderStatusRaw none completedStore 70 adminSession 1 none).store.findOrder
      1).map Order.status = some .pending := by
  decide

/-! ## Access to cancellation -/

/-- C20. For an existing order: with no session user, or with a session
user who is not an admin and is not the user recorded on the order (which
includes every non-admin caller of a guest order), the cancel handler
answers access denied and returns the store unchanged. Hence whenever the
handler changes the store, the session user is the user who placed the
order or an admin. -/
theorem cancelOrder_access (env : NotifyEnv) (fault : Option Nat) (s : Store) (now : Nat)
    (session : Session) (id : Nat) (o : Order) (hfind : s.findOrder id = some o) :
    ((session = none ∨ ∃ u, session = some u ∧ u.isAdmin = false ∧ o.userId ≠ some u.id) →
      cancelOrder env fault s now session id = ⟨.accessDenied, s, []⟩) ∧
    ((cancelOrder env fault s now session id).store ≠ s →
      ∃ u, session = some u ∧ (o.userId = some u.id ∨ u.isAdmin = true)) := by
  have hpop := findOrderPopulated_eq s id o hfind
  have hdenied : (session = none ∨
      ∃ u, session = some u ∧ u.isAdmin = false ∧ o.userId ≠ some u.id) →
      cancelDenied session o = true := by
    rintro (h | ⟨u, hu, ha, hne⟩)
    · subst h; rfl
    · subst hu
      have hown := session_never_owner u o
      simp only [beq_eq_false_iff_ne, ne_eq] at hown
      simp [cancelDenied, ha, hown]
  constructor
  · intro h
    simp [cancelOrder, hpop, hdenied h]
  · intro hchg
    by_contra hno
    apply hchg
    have hd : cancelDenied session o = true := by
      apply hdenied
      cases session with
      | none => exact Or.inl rfl
      | some u =>
        right
        refine ⟨u, rfl, ?_, ?_⟩
        · cases hadm : u.isAdmin with
          | false => rfl
          | true => exact absurd ⟨u, rfl, Or.inr hadm⟩ hno
        · intro e
          exact hno ⟨u, rfl, Or.inl e⟩
    simp [cancelOrder, hpop, hd]

/-- Witness for C20: a stranger is denied on the sample order, and when an
admin cancels it, the store changes. -/
theorem cancelOrder_access_witness :
    cancelOrder okEnv none reservedStore 30 strangerSession 1 =
      ⟨.accessDenied, reservedStore, []⟩ ∧
    ∃ u, adminSession = some u ∧ (sampleOrder.userId = some u.id ∨ u.isAdmin = true) :=
  ⟨(cancelOrder_access okEnv none reservedStore 30 strangerSession 1 sampleOrder
      (by decide)).1 (Or.inr ⟨⟨8, false⟩, rfl, rfl, by decide⟩),
    (cancelOrder_access okEnv none reservedStore 30 adminSession 1 sampleOrder
      (by decide)).2 (by decide)⟩

/-! ## Search -/

theorem mem_sortNewestFirst (c : Car) (l : List Car) : c ∈ sortNewestFirst l ↔ c ∈ l :=
  (List.perm_insertionSort newerOrSame l).mem_iff

theorem search_ok_eq (rx : RegexEngine) (s : Store) (query : SearchQuery) (cars : List Car)
    (h : Car.search rx s query = .ok cars) :
    ∃ rest : List (Car → Bool),
      cars = sortNewestFirst (s.cars.filter
        (fun c => ((fun c : Car => c.isAvailable) :: rest).all (fun cond => cond c))) := by
  unfold Car.search at h
  cases hmake : regexCondition rx query.make Car.make with
  | error e => rw [hmake] at h; cases h
  | ok make =>
    cases hmodel : regexCondition rx query.model Car.model with
    | error e => rw [hmake, hmodel] at h; cases h
    | ok model =>
      rw [hmake, hmodel] at h
      simp only [Except.ok.injEq] at h
      exact ⟨_, by rw [← h]; rfl⟩

/-- C15. Whatever the query holds (any values for the keys that
`Car.search` reads and any other keys), every car in the result of
`Car.search` is a stored car with `isAvailable = true`. -/
theorem search_returns_available_only (rx : RegexEngine) (s : Store) (query : SearchQuery)
    (cars : List Car) (h : Car.search rx s query = .ok cars) :
    ∀ c ∈ cars, c ∈ s.cars ∧ c.isAvailable = true := by
  obtain ⟨rest, rfl⟩ := search_ok_eq rx s query cars h
  intro c hc
  rw [mem_sortNewestFirst, List.mem_filter] at hc
  refine ⟨hc.1, ?_⟩
  have := hc.2
  simp only [List.all_cons, Bool.and_eq_true] at this
  exact this.1

/-- Witness for C15: a query that asks for `isAvailable=false` among its
extra keys returns the two available cars of the lot, and not the reserved
one. -/
theorem search_returns_available_only_witness :
    (sampleCar ∈ lotStore.cars ∧ sampleCar.isAvailable = true) ∧
    (oldCar ∈ lotStore.cars ∧ oldCar.isAvailable = true) :=
  ⟨search_returns_available_only wildcardRegex lotStore
      { SearchQuery.empty with extra := [("isAvailable", "false")] } [sampleCar, oldCar]
      rfl sampleCar (by simp),
    search_returns_available_only wildcardRegex lotStore
      { SearchQuery.empty with extra := [("isAvailable", "false")] } [sampleCar, oldCar]
      rfl oldCar (by simp)⟩

/-- C16 (as stated, refuted). The sample car is available and `Car.search`
on the empty query returns it, but the search route invoked with an empty
query string renders no car. -/
theorem searchRoute_empty_query_renders_nothing :
    Car.search sampleRuntime.regex carOnlyStore SearchQuery.empty = .ok [sampleCar] ∧
    searchRoute sampleRuntime carOnlyStore [] = [] :=
  ⟨rfl, rfl⟩

/-- C16 (amended). On a query with no filter key (whatever other keys it
carries), `Car.search` returns the cars with `isAvailable = true`: the
result is a rearrangement of exactly those cars, ordered by `createdAt`
newest first. The search route invoked with an empty query string does not
search and renders the empty list. -/
theorem search_without_filters (rt : JsRuntime) (s : Store) (extra : List (String × String)) :
    Car.search rt.regex s { SearchQuery.empty with extra := extra } =
      .ok (sortNewestFirst (s.cars.filter (fun c => c.isAvailable))) ∧
    (sortNewestFirst (s.cars.filter (fun c => c.isAvailable))).Perm
      (s.cars.filter (fun c => c.isAvailable)) ∧
    (sortNewestFirst (s.cars.filter (fun c => c.isAvailable))).Pairwise
      (fun a b => b.createdAt ≤ a.createdAt) ∧
    searchRoute rt s [] = [] := by
  refine ⟨?_, List.perm_insertionSort newerOrSame _, List.sorted_insertionSort newerOrSame _,
    rfl⟩
  simp [Car.search, SearchQuery.empty, regexCondition, truthyString, yearCondition, truthyInt,
    priceCondition, truthyPrice, exactCondition]

/-- C17 (the code at the failing input). With any engine in which the
pattern `.` matches the text `Honda`, the search for the make `.` returns
the sample Honda, although `honda` does not contain a dot. -/
theorem search_make_is_a_pattern (rx : RegexEngine) (test : String → Bool)
    (hcompile : rx "." = some test) (hmatch : test "Honda" = true) :
    Car.search rx carOnlyStore { SearchQuery.empty with make := some "." } =
      .ok [sampleCar] ∧
    specContainsIgnoreCase sampleCar.make "." = false := by
  refine ⟨?_, by decide⟩
  have hp : (sampleCar.isAvailable && test sampleCar.make) = true := by
    rw [show sampleCar.make = "Honda" from rfl, hmatch]; rfl
  simp [Car.search, SearchQuery.empty, regexCondition, truthyString, yearCondition, truthyInt,
    priceCondition, truthyPrice, exactCondition, hcompile, carOnlyStore, sortNewestFirst,
    List.filter_cons, hp]

/-- Witness for C17: the sample engine. -/
theorem search_make_is_a_pattern_witness :
    Car.search wildcardRegex carOnlyStore { SearchQuery.empty with make := some "." } =
      .ok [sampleCar] ∧
    specContainsIgnoreCase sampleCar.make "." = false :=
  search_make_is_a_pattern wildcardRegex
    (fun subject => wildcardFind ".".toList subject.toList) rfl (by decide)

/-- C18 (the code at the failing input). With `maxPrice = 0` the search
applies no price bound and returns both available cars, one of which costs
1200; with `minPrice = 1000` and `maxPrice = 0` it returns the car at 1200
although no price lies between 1000 and 0. -/
theorem search_ignores_zero_bounds (rx : RegexEngine) :
    Car.search rx lotStore { SearchQuery.empty with maxPrice := some 0 } =
      .ok [sampleCar, oldCar] ∧
    sampleCar.price = 1200 ∧
    Car.search rx lotStore
        { SearchQuery.empty with minPrice := some 1000, maxPrice := some 0 } =
      .ok [sampleCar] := by
  refine ⟨?_, rfl, ?_⟩
  · simp [Car.search, SearchQuery.empty, regexCondition, truthyString, yearCondition,
      truthyInt, priceCondition, truthyPrice, exactCondition]
    rfl
  · simp [Car.search, SearchQuery.empty, regexCondition, truthyString, yearCondition,
      truthyInt, priceCondition, truthyPrice, exactCondition]
    rfl

/-- Where both bounds are supplied and neither is `0`, the search keeps
exactly the available cars priced within the bounds. -/
theorem search_price_range_of_nonzero (rx : RegexEngine) (s : Store) (lo hi : Price)
    (hlo : lo ≠ 0) (hhi : hi ≠ 0) :
    Car.search rx s { SearchQuery.empty with minPrice := some lo, maxPrice := some hi } =
      .ok (sortNewestFirst (s.cars.filter
        (fun c => c.isAvailable && (decide (lo ≤ c.price) && decide (c.price ≤ hi))))) := by
  simp [Car.search, SearchQuery.empty, regexCondition, truthyString, yearCondition, truthyInt,
    priceCondition, truthyPrice, exactCondition, hlo, hhi]

/-! ## Order summary -/

theorem hexFixed_length (w n : Nat) : (hexFixed w n).length = w := by
  induction w generalizing n with
  | zero => rfl
  | succ w ih => simp [hexFixed, ih]

theorem hexFixed_add (a b n : Nat) :
    hexFixed (a + b) n = hexFixed a (n / 16 ^ b) ++ hexFixed b n := by
  induction b generalizing n with
  | zero => simp [hexFixed]
  | succ b ih =>
    show hexFixed (a + b) (n / 16) ++ [hexDigit (n % 16)] =
      hexFixed a (n / 16 ^ (b + 1)) ++ (hexFixed b (n / 16) ++ [hexDigit (n % 16)])
    rw [ih, List.append_assoc, Nat.div_div_eq_div_mul, pow_succ, Nat.mul_comm]

theorem orderNumber_eq_low_digits (id : Nat) :
    jsSliceLast 8 (objectIdString id) = String.mk (hexFixed 8 id) := by
  have h := hexFixed_add 16 8 id
  have hlen : (hexFixed 16 (id / 16 ^ 8)).length = 24 - 8 := by
    rw [hexFixed_length]
  show String.mk ((hexFixed 24 id).drop ((hexFixed 24 id).length - 8)) = _
  have h24 : hexFixed 24 id = hexFixed 16 (id / 16 ^ 8) ++ hexFixed 8 id := h
  rw [hexFixed_length, h24, List.drop_left' hlen]

theorem jsSliceLast_short (k : Nat) (t : String) (h : t.length ≤ k) : jsSliceLast k t = t := by
  have h0 : t.toList.length - k = 0 := by
    have : t.toList.length = t.length := rfl
    omega
  show String.mk (t.toList.drop (t.toList.length - k)) = t
  rw [h0]
  rfl

theorem jsSliceLast_trailing (k : Nat) (t : String) :
    t.toList = t.toList.take (t.toList.length - k) ++ (jsSliceLast k t).toList ∧
    (jsSliceLast k t).length = min k t.length := by
  constructor
  · show t.toList = _ ++ t.toList.drop (t.toList.length - k)
    rw [List.take_append_drop]
  · show (t.toList.drop (t.toList.length - k)).length = min k t.toList.length
    rw [List.length_drop]
    omega

/-- C19. `getSummary` is a function of the populated order alone, so it
modifies nothing. Its `orderNumber` is the last 8 characters of the
identifier's string form, which are the 8 low hexadecimal digits of the
identifier; the slice takes the trailing characters of any string and the
whole string when it has at most 8. `customerName` is `customerInfo.name`,
`status` is the status of the order, and `carTitle` is the year, make and
model of the populated car separated by blanks, or `Car not available`
when the car reference is absent. -/
theorem getSummary_projection (v : OrderView) :
    v.getSummary.orderNumber = jsSliceLast 8 (objectIdString v.order.id) ∧
    v.getSummary.orderNumber = String.mk (hexFixed 8 v.order.id) ∧
    v.getSummary.orderNumber.length = 8 ∧
    (∀ t : String,
      t.toList = t.toList.take (t.toList.length - 8) ++ (jsSliceLast 8 t).toList ∧
      (jsSliceLast 8 t).length = min 8 t.length ∧
      (t.length ≤ 8 → jsSliceLast 8 t = t)) ∧
    v.getSummary.customerName = v.order.customerInfo.name ∧
    v.getSummary.status = v.order.status ∧
    (∀ car, v.car = some car →
      v.getSummary.carTitle = toString car.year ++ " " ++ car.make ++ " " ++ car.model) ∧
    (v.car = none → v.getSummary.carTitle = "Car not available") := by
  refine ⟨rfl, orderNumber_eq_low_digits v.order.id, ?_, ?_, rfl, rfl, ?_, ?_⟩
  · show (jsSliceLast 8 (objectIdString v.order.id)).length = 8
    rw [orderNumber_eq_low_digits]
    exact hexFixed_length 8 v.order.id
  · intro t
    exact ⟨(jsSliceLast_trailing 8 t).1, (jsSliceLast_trailing 8 t).2, jsSliceLast_short 8 t⟩
  · intro car hcar
    simp [OrderView.getSummary, hcar]
  · intro hcar
    simp [OrderView.getSummary, hcar]

/-- Witness for C19: the summary of the sample order with its car
populated, the summary of the same order once the car is gone, and the
slice of a short string. -/
theorem getSummary_projection_witness :
    (OrderView.getSummary ⟨sampleOrder, some sampleCar.summary⟩).carTitle =
      toString sampleCar.summary.year ++ " " ++ sampleCar.summary.make ++ " " ++
        sampleCar.summary.model ∧
    (OrderView.getSummary ⟨sampleOrder, none⟩).carTitle = "Car not available" ∧
    jsSliceLast 8 "abc" = "abc" ∧
    (OrderView.getSummary ⟨sampleOrder, none⟩).orderNumber = "00000001" :=
  ⟨(getSummary_projection ⟨sampleOrder, some sampleCar.summary⟩).2.2.2.2.2.2.1
      sampleCar.summary rfl,
    (getSummary_projection ⟨sampleOrder, none⟩).2.2.2.2.2.2.2 rfl,
    ((getSummary_projection ⟨sampleOrder, none⟩).2.2.2.1 "abc").2.2 (by decide),
    (getSummary_projection ⟨sampleOrder, none⟩).2.1.trans (by decide)⟩

/-! ## Who may read an order -/

/-- The status page and the admin view show the order only to the user who
placed it or to an admin, respectively only to an admin. -/
theorem status_and_admin_view_restricted (s : Store) (session : Session) (id : Nat)
    (v : OrderView) :
    ((orderStatusPage s session id).data = some v →
      ∃ u, session = some u ∧ (v.order.userId = some u.id ∨ u.isAdmin = true)) ∧
    ((adminViewOrder s session id).data = some v →
      ∃ u, session = some u ∧ u.isAdmin = true) := by
  constructor
  · unfold orderStatusPage
    cases s.findOrderPopulated id with
    | none => intro h; cases h
    | some w =>
      simp only []
      split_ifs with hallow
      · intro h
        simp only [Option.some.injEq] at h
        subst h
        cases session with
        | none => simp [statusAllowed] at hallow
        | some u =>
          refine ⟨u, rfl, ?_⟩
          simp only [statusAllowed, session_never_owner, Bool.false_or] at hallow
          exact Or.inr hallow
      · intro h; cases h
  · unfold adminViewOrder
    split_ifs with hadm
    · intro h; cases h
    · intro _
      cases session with
      | none => simp [requireAdmin] at hadm
      | some u => exact ⟨u, rfl, by simpa [requireAdmin] using hadm⟩

/-- C21 (the code at the failing input). The confirmation page shows the
sample order, with the customer's details, to a visitor who is not logged
in and to a logged-in stranger; the status page denies both. -/
theorem orderConfirmation_open_to_anyone :
    orderConfirmation reservedStore none 1 =
      ⟨.ok, some ⟨sampleOrder,
        some ({ sampleCar with isAvailable := false, updatedAt := 20 } : Car).summary⟩⟩ ∧
    (orderConfirmation reservedStore strangerSession 1).outcome = .ok ∧
    orderStatusPage reservedStore none 1 = ⟨.accessDenied, none⟩ ∧
    orderStatusPage reservedStore strangerSession 1 = ⟨.accessDenied, none⟩ := by
  decide

/-! ## The admin guard -/

/-- C22. When the session has no user, or a user who is not an admin, every
admin route answers that admin access is required without running its
handler: the car and order routes return the store they were given, the
user routes return the accounts they were given, and the listing and view
routes render nothing. -/
theorem requireAdmin_rejects_non_admin (rt : JsRuntime) (maxYear : Int)
    (fault : Option Nat) (s : Store) (a : Accounts) (now : Nat) (session : Session)
    (id : Nat) (body : CarBody) (status : String) (requested : Bool)
    (query : List (String × String))
    (hsession : session = none ∨ ∃ u, session = some u ∧ u.isAdmin = false) :
    adminAddCar maxYear fault s now session body = ⟨.adminRequired, s, []⟩ ∧
    adminEditCar maxYear fault s now session id body = ⟨.adminRequired, s, []⟩ ∧
    postAddCar maxYear fault s now session body = .ok ⟨.adminRequired, s, []⟩ ∧
    postEditCar maxYear fault s now session id body = .ok ⟨.adminRequired, s, []⟩ ∧
    adminDeleteCar fault s session id = ⟨.adminRequired, s, []⟩ ∧
    adminToggleCar fault s now session id = ⟨.adminRequired, s, []⟩ ∧
    adminToggleCarRequest fault s now session id requested = ⟨.adminRequired, s, []⟩ ∧
    adminUpdateOrderStatus fault s now session id status = ⟨.adminRequired, s, []⟩ ∧
    adminUpdateOrderStatusRaw fault s now session id (some status) =
      ⟨.adminRequired, s, []⟩ ∧
    adminUpdateOrderStatusRaw fault s now session id none = ⟨.adminRequired, s, []⟩ ∧
    adminListOrders rt s session query = ⟨.adminRequired, none⟩ ∧
    adminViewOrder s session id = ⟨.adminRequired, none⟩ ∧
    adminListCars rt s session query = ⟨.adminRequired, none⟩ ∧
    adminListUsers rt a session query = ⟨.adminRequired, none⟩ ∧
    adminDeleteUser fault a session id = ⟨.adminRequired, a, session⟩ := by
  have h : requireAdmin session = false := by
    rcases hsession with h | ⟨u, hu, ha⟩
    · subst h; rfl
    · subst hu; simpa [requireAdmin] using ha
  simp [adminAddCar, adminEditCar, postAddCar, postEditCar, adminDeleteCar, adminToggleCar,
    adminToggleCarRequest, adminUpdateOrderStatus, adminUpdateOrderStatusRaw, adminListOrders,
    adminViewOrder, adminListCars, adminListUsers, adminDeleteUser, h]

/-- Witness for C22: a logged-in customer calls the admin routes. -/
theorem requireAdmin_rejects_non_admin_witness :
    adminAddCar 2027 none reservedStore 50 customerSession sampleCarBody =
      ⟨.adminRequired, reservedStore, []⟩ ∧
    adminToggleCar none reservedStore 50 customerSession 0 =
      ⟨.adminRequired, reservedStore, []⟩ ∧
    adminUpdateOrderStatus none reservedStore 50 customerSession 1 "completed" =
      ⟨.adminRequired, reservedStore, []⟩ ∧
    adminDeleteUser none threeAccounts customerSession 0 =
      ⟨.adminRequired, threeAccounts, customerSession⟩ :=
  have h := requireAdmin_rejects_non_admin sampleRuntime 2027 none reservedStore threeAccounts
    50 customerSession 0 sampleCarBody "completed" true []
    (Or.inr ⟨⟨7, false⟩, rfl, rfl⟩)
  have h1 := requireAdmin_rejects_non_admin sampleRuntime 2027 none reservedStore
    threeAccounts 50 customerSession 1 sampleCarBody "completed" true []
    (Or.inr ⟨⟨7, false⟩, rfl, rfl⟩)
  ⟨h.1, h.2.2.2.2.2.1, h1.2.2.2.2.2.2.2.1, h.2.2.2.2.2.2.2.2.2.2.2.2.2.2⟩

/-! ## Toggling availability -/

/-- C23 (as stated, refuted). The sample car is available. A request for
`isAvailable = true` leaves it unavailable; and of two requests for
`isAvailable = false`, the first leaves it unavailable and the second
leaves it available. -/
theorem toggle_request_is_not_a_setter :
    (carOnlyStore.findCar 0).map Car.isAvailable = some true ∧
    ((adminToggleCarRequest none carOnlyStore 11 adminSession 0 true).store.findCar 0).map
      Car.isAvailable = some false ∧
    ((adminToggleCarRequest none carOnlyStore 11 adminSession 0 false).store.findCar 0).map
      Car.isAvailable = some false ∧
    ((adminToggleCarRequest none
        (adminToggleCarRequest none carOnlyStore 11 adminSession 0 false).store 12
        adminSession 0 false).store.findCar 0).map Car.isAvailable = some true := by
  decide

/-- C23 (amended). The availability route is a toggle. For an admin caller
and an existing car, whatever value is requested, one application leaves
`isAvailable` equal to the negation of its previous value and `updatedAt`
equal to the time of the request, and a second application restores the
previous `isAvailable`. -/
theorem toggle_request_negates (s : Store) (now1 now2 : Nat) (session : Session) (id : Nat)
    (car : Car) (v1 v2 : Bool) (hadmin : requireAdmin session = true)
    (hfind : s.findCar id = some car) :
    (adminToggleCarRequest none s now1 session id v1).store.findCar id =
      some { car with isAvailable := !car.isAvailable, updatedAt := now1 } ∧
    (adminToggleCarRequest none
        (adminToggleCarRequest none s now1 session id v1).store now2 session id v2
      ).store.findCar id =
      some { car with isAvailable := car.isAvailable, updatedAt := now2 } := by
  have h1 : (adminToggleCarRequest none s now1 session id v1).store =
      s.updateCar id (fun c => { c with isAvailable := !car.isAvailable, updatedAt := now1 }) := by
    simp [adminToggleCarRequest, adminToggleCar, hadmin, hfind]
  have f1 : (adminToggleCarRequest none s now1 session id v1).store.findCar id =
      some { car with isAvailable := !car.isAvailable, updatedAt := now1 } := by
    rw [h1]
    exact findCar_updateCar_some s id
      (fun c => { c with isAvailable := !car.isAvailable, updatedAt := now1 }) car
      (fun _ => rfl) hfind
  refine ⟨f1, ?_⟩
  have h2 : (adminToggleCarRequest none
        (adminToggleCarRequest none s now1 session id v1).store now2 session id v2).store =
      (adminToggleCarRequest none s now1 session id v1).store.updateCar id
        (fun c => { c with isAvailable := !(!car.isAvailable), updatedAt := now2 }) := by
    simp [adminToggleCarRequest, adminToggleCar, hadmin]
    simp [adminToggleCarRequest, adminToggleCar, hadmin] at f1
    simp [f1]
  rw [h2]
  have f2 := findCar_updateCar_some (adminToggleCarRequest none s now1 session id v1).store id
    (fun c => { c with isAvailable := !(!car.isAvailable), updatedAt := now2 }) _
    (fun _ => rfl) f1
  rw [f2]
  simp

/-- Witness for C23 (amended): the sample car toggled twice. -/
theorem toggle_request_negates_witness :
    (adminToggleCarRequest none carOnlyStore 11 adminSession 0 true).store.findCar 0 =
      some { sampleCar with isAvailable := !sampleCar.isAvailable, updatedAt := 11 } ∧
    (adminToggleCarRequest none
        (adminToggleCarRequest none carOnlyStore 11 adminSession 0 true).store 12
        adminSession 0 true).store.findCar 0 =
      some { sampleCar with isAvailable := sampleCar.isAvailable, updatedAt := 12 } :=
  toggle_request_negates carOnlyStore 11 12 adminSession 0 sampleCar true true
    (by decide) (by decide)

/-! ## Completed orders -/

/-- C24 (as stated, refuted). With no toggle at all: the sample order is
created, cancelled through the cancel route by an admin (which frees the
car) and then set to `completed` by an admin; the car it references is
available. -/
theorem revived_order_completed_on_available_car :
    ¬ completedKeepsReserved (runOps Store.empty reviveOps) := by
  decide

/-- C24 (amended). In every state reached from the empty store by requests,
each served without a rejected store call (`runOps` serves every request
with no persistence failure), that contain no admin availability toggle and
no admin status update moving an order into or out of `cancelled`, every car
referenced by a completed order is unavailable. -/
theorem completed_keeps_car_reserved (ops : List Op)
    (hadm : admissible Store.empty ops = true) :
    completedKeepsReserved (runOps Store.empty ops) := by
  have h := wellReserved_runOps ops Store.empty wellReserved_empty hadm
  intro c hc o ho hcar hdone
  cases hav : c.isAvailable with
  | false => rfl
  | true =>
    have := (h.avail c hc).mp hav o ho hcar
    rw [hdone] at this
    cases this

/-- Witness for C24 (amended): the lifecycle history ends with a completed
order on the reserved sample car. -/
theorem completed_keeps_car_reserved_witness :
    completedKeepsReserved (runOps Store.empty lifecycleOps) :=
  completed_keeps_car_reserved lifecycleOps (by decide)

/-! ## Cancelling after the car is gone -/

/-- C25 (as stated, refuted for the user who placed the order). The sample
order is pending, was placed by user 7 and its car has been deleted; when
user 7 asks to cancel it the route answers access denied and writes
nothing. -/
theorem cancelOrder_after_car_deleted_denies_owner :
    orphanStore.findOrder 1 = some sampleOrder ∧ sampleOrder.userId = some 7 ∧
    sampleOrder.status = .pending ∧ orphanStore.findCar sampleOrder.carId = none ∧
    cancelOrderRoute 2027 okEnv noRejection orphanStore 30 customerSession 1 =
      ⟨.accessDenied, orphanStore, []⟩ := by
  decide

/-- C25 (amended). For a pending or confirmed order whose car no longer
exists, a caller who passes the access check of the cancel route (on this
code such a caller is an admin), a stored order that passes the order
schema, and no
rejection of the two lookups and of `order.save()`: cancellation succeeds;
no car write is attempted, so rejecting `car.save()` changes nothing; the
resulting store is the given one with that order set to `cancelled` (and
its `updatedAt` refreshed): the cars and every other order are as before. -/
theorem cancelOrder_after_car_deleted (maxYear : Int) (env : NotifyEnv)
    (rejects : StoreCall → Bool) (s : Store) (now : Nat) (session : Session) (id : Nat)
    (o : Order) (hfind : s.findOrder id = some o) (hauth : cancelDenied session o = false)
    (hst : o.status = .pending ∨ o.status = .confirmed)
    (hdoc : orderSchemaValid { o with status := .cancelled, updatedAt := now } = true)
    (hcar : s.findCar o.carId = none)
    (h0 : rejects .findFirst = false) (h1 : rejects .saveOrder = false)
    (h2 : rejects .findCar = false) :
    requireAdmin session = true ∧
    (cancelOrderRoute maxYear env rejects s now session id).outcome = .ok ∧
    (cancelOrderRoute maxYear env rejects s now session id).store =
      s.updateOrder id (fun o => { o with status := .cancelled, updatedAt := now }) ∧
    (cancelOrderRoute maxYear env rejects s now session id).store.cars = s.cars ∧
    (cancelOrderRoute maxYear env rejects s now session id).store.findOrder id =
      some { o with status := .cancelled, updatedAt := now } ∧
    ∀ other, other ≠ id →
      (cancelOrderRoute maxYear env rejects s now session id).store.findOrder other =
        s.findOrder other := by
  have hok := (cancelOrderRoute_ok maxYear env rejects s now session id o hfind hauth hst hdoc
    h0 h1 h2).1 hcar
  have hord := findOrder_updateOrder s id
    (fun o => { o with status := .cancelled, updatedAt := now }) (fun _ => rfl)
  rw [hfind] at hord
  refine ⟨(cancelDenied_eq_false_iff session o).1 hauth, hok.1, hok.2, ?_, ?_, ?_⟩
  · rw [hok.2]; rfl
  · rw [hok.2]; exact hord
  · intro other hne
    rw [hok.2]
    exact find_map_update_ne Order.id
      (fun o => { o with status := .cancelled, updatedAt := now }) (fun _ => rfl) id other hne
      s.orders

/-- Witness for C25: an admin cancels the sample order after its car was
deleted, with `car.save()` set to reject. -/
theorem cancelOrder_after_car_deleted_witness :
    requireAdmin adminSession = true ∧
    (cancelOrderRoute 2027 okEnv (rejectOnly .saveCar) orphanStore 30 adminSession 1).outcome =
      .ok ∧
    (cancelOrderRoute 2027 okEnv (rejectOnly .saveCar) orphanStore 30 adminSession 1).store =
      orphanStore.updateOrder 1 (fun o => { o with status := .cancelled, updatedAt := 30 }) ∧
    (cancelOrderRoute 2027 okEnv (rejectOnly .saveCar) orphanStore 30 adminSession 1).store.cars =
      orphanStore.cars ∧
    (cancelOrderRoute 2027 okEnv (rejectOnly .saveCar) orphanStore 30
        adminSession 1).store.findOrder 1 =
      some { sampleOrder with status := .cancelled, updatedAt := 30 } ∧
    ∀ other, other ≠ 1 →
      (cancelOrderRoute 2027 okEnv (rejectOnly .saveCar) orphanStore 30
          adminSession 1).store.findOrder other = orphanStore.findOrder other :=
  cancelOrder_after_car_deleted 2027 okEnv (rejectOnly .saveCar) orphanStore 30 adminSession 1
    sampleOrder (by decide) (by decide) (by decide) (by decide) (by decide) (by decide)
    (by decide) (by decide)

/-! ## Timestamps -/

theorem stamps_updateCar (s : Store) (id now : Nat) (f : Car → Car)
    (hid : ∀ c, (f c).id = c.id) (hc : ∀ c, (f c).createdAt = c.createdAt)
    (hu : ∀ c, (f c).updatedAt = now) :
    ((s.updateCar id f).findCar id).map (fun c => (c.createdAt, c.updatedAt)) =
      (s.findCar id).map (fun c => (c.createdAt, now)) := by
  rw [findCar_updateCar s id f hid]
  cases s.findCar id <;> simp [hc, hu]

theorem stamps_updateOrder (s : Store) (id now : Nat) (f : Order → Order)
    (hid : ∀ o, (f o).id = o.id) (hc : ∀ o, (f o).createdAt = o.createdAt)
    (hu : ∀ o, (f o).updatedAt = now) :
    ((s.updateOrder id f).findOrder id).map (fun o => (o.createdAt, o.updatedAt)) =
      (s.findOrder id).map (fun o => (o.createdAt, now)) := by
  rw [findOrder_updateOrder s id f hid]
  cases s.findOrder id <;> simp [hc, hu]

theorem stamps_adminAddCar (maxYear : Int) (fault : Option Nat) (s : Store) (now : Nat)
    (session : Session) (body : CarBody)
    (hok : (adminAddCar maxYear fault s now session body).outcome = .ok) :
    ∃ c, (adminAddCar maxYear fault s now session body).store.cars = s.cars ++ [c] ∧
      c.createdAt = now ∧ c.updatedAt = now := by
  unfold adminAddCar at hok ⊢
  simp only [] at hok ⊢
  split_ifs at hok ⊢
  exact ⟨_, rfl, rfl, rfl⟩

theorem stamps_adminEditCar (maxYear : Int) (fault : Option Nat) (s : Store) (now : Nat)
    (session : Session) (id : Nat) (body : CarBody)
    (hok : (adminEditCar maxYear fault s now session id body).outcome = .ok) :
    ((adminEditCar maxYear fault s now session id body).store.findCar id).map
        (fun c => (c.createdAt, c.updatedAt)) =
      (s.findCar id).map (fun c => (c.createdAt, now)) := by
  unfold adminEditCar at hok ⊢
  cases hfind : s.findCar id with
  | none =>
    rw [hfind] at hok
    simp only [] at hok
    split_ifs at hok
  | some car =>
    rw [hfind] at hok
    simp only [] at hok ⊢
    split_ifs at hok ⊢ <;>
      (rw [← hfind]
       exact stamps_updateCar s id now _ (fun _ => rfl) (fun _ => rfl) (fun _ => rfl))

theorem stamps_adminToggleCar (fault : Option Nat) (s : Store) (now : Nat)
    (session : Session) (id : Nat)
    (hok : (adminToggleCar fault s now session id).outcome = .ok) :
    ((adminToggleCar fault s now session id).store.findCar id).map
        (fun c => (c.createdAt, c.updatedAt)) =
      (s.findCar id).map (fun c => (c.createdAt, now)) := by
  unfold adminToggleCar at hok ⊢
  cases hfind : s.findCar id with
  | none =>
    rw [hfind] at hok
    simp only [] at hok
    split_ifs at hok
  | some car =>
    rw [hfind] at hok
    simp only [] at hok ⊢
    split_ifs at hok ⊢
    rw [← hfind]
    exact stamps_updateCar s id now _ (fun _ => rfl) (fun _ => rfl) (fun _ => rfl)

theorem stamps_createOrder (env : NotifyEnv) (fault : Option Nat) (s : Store) (now : Nat)
    (session : Session) (carId : Nat) (body : OrderBody)
    (hok : (createOrder env fault s now session carId body).outcome = .ok) :
    (∃ o, (createOrder env fault s now session carId body).store.orders = s.orders ++ [o] ∧
      o.createdAt = now ∧ o.updatedAt = now) ∧
    ((createOrder env fault s now session carId body).store.findCar carId).map
        (fun c => (c.createdAt, c.updatedAt)) =
      (s.findCar carId).map (fun c => (c.createdAt, now)) := by
  cases hfind : s.findCar carId with
  | none => simp [createOrder, hfind] at hok
  | some car =>
    have hid : car.id = carId := findCar_id hfind
    subst hid
    have key := stamps_updateCar (s.insertOrder (newOrder s.nextId now session car body))
      car.id now (fun c => { c with isAvailable := false, updatedAt := now })
      (fun _ => rfl) (fun _ => rfl) (fun _ => rfl)
    rw [findCar_insertOrder, hfind] at key
    unfold createOrder at hok ⊢
    rw [hfind] at hok ⊢
    simp only [] at hok ⊢
    split_ifs at hok ⊢
    exact ⟨⟨_, rfl, rfl, rfl⟩, key⟩

theorem stamps_cancelOrder (env : NotifyEnv) (fault : Option Nat) (s : Store) (now : Nat)
    (session : Session) (id : Nat)
    (hok : (cancelOrder env fault s now session id).outcome = .ok) :
    ((cancelOrder env fault s now session id).store.findOrder id).map
        (fun o => (o.createdAt, o.updatedAt)) =
      (s.findOrder id).map (fun o => (o.createdAt, now)) ∧
    ∀ o, s.findOrder id = some o →
      ((cancelOrder env fault s now session id).store.findCar o.carId).map
          (fun c => (c.createdAt, c.updatedAt)) =
        (s.findCar o.carId).map (fun c => (c.createdAt, now)) := by
  have kord := stamps_updateOrder s id now
    (fun o => { o with status := .cancelled, updatedAt := now })
    (fun _ => rfl) (fun _ => rfl) (fun _ => rfl)
  cases hfind : s.findOrder id with
  | none => simp [cancelOrder, Store.findOrderPopulated, hfind] at hok
  | some o =>
    have hpop := findOrderPopulated_eq s id o hfind
    rw [hfind] at kord
    by_cases h1 : cancelDenied session o = true
    · simp [cancelOrder, hpop, h1] at hok
    · by_cases h2 : cancellable o.status = true
      · by_cases h3 : fault = some 0
        · simp [cancelOrder, hpop, h1, h2, h3] at hok
        · cases hcar : s.findCar o.carId with
          | none =>
            have hstore : (cancelOrder env fault s now session id).store =
                s.updateOrder id (fun o => { o with status := .cancelled, updatedAt := now }) := by
              simp [cancelOrder, hpop, h1, h2, h3, hcar]
            rw [hstore]
            refine ⟨kord, ?_⟩
            intro o2 ho2
            cases ho2
            rw [findCar_updateOrder, hcar]
            rfl
          | some car =>
            have hcid : car.id = o.carId := findCar_id hcar
            by_cases h4 : fault = some 1
            · simp [cancelOrder, hpop, h1, h2, hcar, h4] at hok
            · have hstore : (cancelOrder env fault s now session id).store =
                  (s.updateOrder id
                    (fun o => { o with status := .cancelled, updatedAt := now })).updateCar
                    o.carId (fun c => { c with isAvailable := true, updatedAt := now }) := by
                simp [cancelOrder, hpop, h1, h2, h3, hcar, h4, hcid]
              rw [hstore]
              refine ⟨by rw [findOrder_updateCar]; exact kord, ?_⟩
              intro o2 ho2
              cases ho2
              have kcar := stamps_updateCar
                (s.updateOrder id (fun o => { o with status := .cancelled, updatedAt := now }))
                o.carId now (fun c => { c with isAvailable := true, updatedAt := now })
                (fun _ => rfl) (fun _ => rfl) (fun _ => rfl)
              rw [findCar_updateOrder] at kcar
              exact kcar
      · simp [cancelOrder, hpop, h1, h2] at hok

theorem stamps_adminUpdateOrderStatus (fault : Option Nat) (s : Store) (now : Nat)
    (session : Session) (id : Nat) (status : String)
    (hok : (adminUpdateOrderStatus fault s now session id status).outcome = .ok) :
    ((adminUpdateOrderStatus fault s now session id status).store.findOrder id).map
        (fun o => (o.createdAt, o.updatedAt)) =
      (s.findOrder id).map (fun o => (o.createdAt, now)) := by
  unfold adminUpdateOrderStatus at hok ⊢
  cases hfind : s.findOrder id with
  | none =>
    rw [hfind] at hok
    simp only [] at hok
    split_ifs at hok
  | some o =>
    rw [hfind] at hok
    cases hst : Status.ofString status with
    | none =>
      rw [hst] at hok
      simp only [] at hok
      split_ifs at hok
    | some st =>
      rw [hst] at hok
      simp only [] at hok ⊢
      split_ifs at hok ⊢
      rw [← hfind]
      exact stamps_updateOrder s id now _ (fun _ => rfl) (fun _ => rfl) (fun _ => rfl)

theorem stamps_found {α : Type} (x y : Option α) (created updated : α → Nat) (now : Nat)
    (h : x.map (fun c => (created c, updated c)) = y.map (fun c => (created c, now)))
    (hy : ∃ c, y = some c) :
    ∃ c c2, y = some c ∧ x = some c2 ∧ created c2 = created c ∧ updated c2 = now := by
  obtain ⟨c, rfl⟩ := hy
  cases x with
  | none => simp at h
  | some c2 =>
    simp only [Option.map_some', Option.some.injEq, Prod.mk.injEq] at h
    exact ⟨c, c2, rfl, rfl, h.1, h.2⟩

theorem adminEditCar_ok_found (maxYear : Int) (fault : Option Nat) (s : Store) (now : Nat)
    (session : Session) (id : Nat) (body : CarBody)
    (hok : (adminEditCar maxYear fault s now session id body).outcome = .ok) :
    ∃ c, s.findCar id = some c := by
  cases hfind : s.findCar id with
  | some c => exact ⟨c, rfl⟩
  | none =>
    unfold adminEditCar at hok
    rw [hfind] at hok
    simp only [] at hok
    split_ifs at hok

theorem adminToggleCar_ok_found (fault : Option Nat) (s : Store) (now : Nat)
    (session : Session) (id : Nat)
    (hok : (adminToggleCar fault s now session id).outcome = .ok) :
    ∃ c, s.findCar id = some c := by
  cases hfind : s.findCar id with
  | some c => exact ⟨c, rfl⟩
  | none =>
    unfold adminToggleCar at hok
    rw [hfind] at hok
    simp only [] at hok
    split_ifs at hok

theorem adminUpdateOrderStatus_ok_found (fault : Option Nat) (s : Store) (now : Nat)
    (session : Session) (id : Nat) (status : String)
    (hok : (adminUpdateOrderStatus fault s now session id status).outcome = .ok) :
    ∃ o, s.findOrder id = some o := by
  cases hfind : s.findOrder id with
  | some o => exact ⟨o, rfl⟩
  | none =>
    unfold adminUpdateOrderStatus at hok
    rw [hfind] at hok
    simp only [] at hok
    split_ifs at hok

theorem stamps_createOrderRoute (lib : FormLibrary) (maxYear : Int) (env : NotifyEnv)
    (rejects : StoreCall → Bool) (s : Store) (now : Nat) (session : Session) (carId : Nat)
    (body : OrderBody) (r : Response)
    (hr : createOrderRoute lib maxYear env rejects s now session carId body = .ok r)
    (hok : r.outcome = .ok) :
    ∃ car o, s.findCar carId = some car ∧ r.store.orders = s.orders ++ [o] ∧
      o.createdAt = now ∧ o.updatedAt = now ∧
      r.store.findCar carId = some { car with isAvailable := false, updatedAt := now } := by
  cases hval : validateOrder lib body with
  | cons e es => simp [createOrderRoute, hval] at hr
  | nil =>
    cases hfind : s.findCar carId with
    | none =>
      simp only [createOrderRoute, hval, hfind] at hr
      split_ifs at hr <;> (cases hr; cases hok)
    | some car =>
      have hid : car.id = carId := findCar_id hfind
      subst hid
      have key := findCar_updateCar_some
        (s.insertOrder (newOrderWith lib s.nextId now session car (sanitizeOrder lib body)))
        car.id (fun c => { c with isAvailable := false, updatedAt := now }) car
        (fun _ => rfl) (by rw [findCar_insertOrder]; exact hfind)
      simp only [createOrderRoute, hval, hfind] at hr
      split_ifs at hr <;> cases hr <;> first
        | exact ⟨car, newOrderWith lib s.nextId now session car (sanitizeOrder lib body),
            rfl, rfl, rfl, rfl, key⟩
        | cases hok

theorem stamps_cancelOrderRoute (maxYear : Int) (env : NotifyEnv) (rejects : StoreCall → Bool)
    (s : Store) (now : Nat) (session : Session) (id : Nat)
    (hok : (cancelOrderRoute maxYear env rejects s now session id).outcome = .ok) :
    ∃ o, s.findOrder id = some o ∧
      (cancelOrderRoute maxYear env rejects s now session id).store.findOrder id =
        some { o with status := .cancelled, updatedAt := now } ∧
      ∀ car, s.findCar o.carId = some car →
        (cancelOrderRoute maxYear env rejects s now session id).store.findCar o.carId =
          some { car with isAvailable := true, updatedAt := now } := by
  by_cases h0 : rejects .findFirst = true
  · simp [cancelOrderRoute, h0] at hok
  cases hfind : s.findOrder id with
  | none => simp [cancelOrderRoute, h0, Store.findOrderPopulated, hfind] at hok
  | some o =>
    have hpop := findOrderPopulated_eq s id o hfind
    by_cases h1 : cancelDenied session o = true
    · simp [cancelOrderRoute, h0, hpop, h1] at hok
    by_cases h2 : cancellable o.status = true
    swap
    · simp [cancelOrderRoute, h0, hpop, h1, h2] at hok
    by_cases h3 : orderSchemaValid { o with status := .cancelled, updatedAt := now } = true
    swap
    · simp [cancelOrderRoute, h0, hpop, h1, h2, h3] at hok
    by_cases h4 : rejects .saveOrder = true
    · simp [cancelOrderRoute, h0, hpop, h1, h2, h3, h4] at hok
    by_cases h5 : rejects .findCar = true
    · simp [cancelOrderRoute, h0, hpop, h1, h2, h3, h4, h5] at hok
    have hst : o.status = .pending ∨ o.status = .confirmed := by
      cases hs : o.status <;> simp [cancellable, hs] at h2 ⊢
    have hroute := cancelOrderRoute_ok maxYear env rejects s now session id o hfind
      (by simpa using h1) hst h3 (by simpa using h0) (by simpa using h4) (by simpa using h5)
    have hord := findOrder_updateOrder s id
      (fun o => { o with status := .cancelled, updatedAt := now }) (fun _ => rfl)
    rw [hfind] at hord
    refine ⟨o, rfl, ?_, ?_⟩
    · cases hcar : s.findCar o.carId with
      | none =>
        rw [(hroute.1 hcar).2]
        exact hord
      | some car =>
        by_cases h6 : carSchemaValid maxYear car = true
        swap
        · have h6b : carSchemaValid maxYear
              { car with isAvailable := true, updatedAt := now } = false := by
            simpa using h6
          simp [cancelOrderRoute, h0, hpop, h1, h2, h3, h4, h5, hcar, h6b] at hok
        by_cases h7 : rejects .saveCar = true
        · simp [cancelOrderRoute, h0, hpop, h1, h2, h3, h4, h5, hcar, h7] at hok
        rw [(hroute.2 car hcar h6 (by simpa using h7)).2, findOrder_updateCar]
        exact hord
    · intro car hcar
      by_cases h6 : carSchemaValid maxYear car = true
      swap
      · have h6b : carSchemaValid maxYear
            { car with isAvailable := true, updatedAt := now } = false := by
          simpa using h6
        simp [cancelOrderRoute, h0, hpop, h1, h2, h3, h4, h5, hcar, h6b] at hok
      by_cases h7 : rejects .saveCar = true
      · simp [cancelOrderRoute, h0, hpop, h1, h2, h3, h4, h5, hcar, h7] at hok
      rw [(hroute.2 car hcar h6 (by simpa using h7)).2]
      exact findCar_updateCar_some _ o.carId
        (fun c => { c with isAvailable := true, updatedAt := now }) car (fun _ => rfl)
        (by rw [findCar_updateOrder]; exact hcar)

/-- C26. Every request that mutates a car or an order at clock time `now`
and succeeds leaves the mutated record with `updatedAt = now` and its
`createdAt` as before; a record created by the request has both equal to
`now`. A successful car add appends a car stamped `now`; a successful edit
or toggle finds the car and stores it with its `createdAt` and
`updatedAt = now`; a successful order creation appends an order stamped
`now` and stores the car with only `isAvailable` and `updatedAt = now`
changed; a successful cancellation stores the order, and the car when it
exists, with only the status, respectively `isAvailable`, and
`updatedAt = now` changed; a successful admin status update finds the order
and stores it with its `createdAt` and `updatedAt = now`. -/
theorem updatedAt_refreshed_by_every_mutation (lib : FormLibrary) (env : NotifyEnv)
    (maxYear : Int) (fault : Option Nat) (rejects : StoreCall → Bool) (s : Store) (now : Nat)
    (session : Session) (id : Nat) (carBody : CarBody) (orderBody : OrderBody)
    (status : String) :
    ((adminAddCar maxYear fault s now session carBody).outcome = .ok →
      ∃ c, (adminAddCar maxYear fault s now session carBody).store.cars = s.cars ++ [c] ∧
        c.createdAt = now ∧ c.updatedAt = now) ∧
    ((adminEditCar maxYear fault s now session id carBody).outcome = .ok →
      ∃ c c2, s.findCar id = some c ∧
        (adminEditCar maxYear fault s now session id carBody).store.findCar id = some c2 ∧
        c2.createdAt = c.createdAt ∧ c2.updatedAt = now) ∧
    ((adminToggleCar fault s now session id).outcome = .ok →
      ∃ c c2, s.findCar id = some c ∧
        (adminToggleCar fault s now session id).store.findCar id = some c2 ∧
        c2.createdAt = c.createdAt ∧ c2.updatedAt = now) ∧
    (∀ r, createOrderRoute lib maxYear env rejects s now session id orderBody = .ok r →
      r.outcome = .ok →
      ∃ car o, s.findCar id = some car ∧ r.store.orders = s.orders ++ [o] ∧
        o.createdAt = now ∧ o.updatedAt = now ∧
        r.store.findCar id = some { car with isAvailable := false, updatedAt := now }) ∧
    ((cancelOrderRoute maxYear env rejects s now session id).outcome = .ok →
      ∃ o, s.findOrder id = some o ∧
        (cancelOrderRoute maxYear env rejects s now session id).store.findOrder id =
          some { o with status := .cancelled, updatedAt := now } ∧
        ∀ car, s.findCar o.carId = some car →
          (cancelOrderRoute maxYear env rejects s now session id).store.findCar o.carId =
            some { car with isAvailable := true, updatedAt := now }) ∧
    ((adminUpdateOrderStatus fault s now session id status).outcome = .ok →
      ∃ o o2, s.findOrder id = some o ∧
        (adminUpdateOrderStatus fault s now session id status).store.findOrder id = some o2 ∧
        o2.createdAt = o.createdAt ∧ o2.updatedAt = now) :=
  ⟨stamps_adminAddCar maxYear fault s now session carBody,
    fun hok => stamps_found _ _ Car.createdAt Car.updatedAt now
      (stamps_adminEditCar maxYear fault s now session id carBody hok)
      (adminEditCar_ok_found maxYear fault s now session id carBody hok),
    fun hok => stamps_found _ _ Car.createdAt Car.updatedAt now
      (stamps_adminToggleCar fault s now session id hok)
      (adminToggleCar_ok_found fault s now session id hok),
    stamps_createOrderRoute lib maxYear env rejects s now session id orderBody,
    stamps_cancelOrderRoute maxYear env rejects s now session id,
    fun hok => stamps_found _ _ Order.createdAt Order.updatedAt now
      (stamps_adminUpdateOrderStatus fault s now session id status hok)
      (adminUpdateOrderStatus_ok_found fault s now session id status hok)⟩

/-- Witness for C26: at time 77 an admin adds the sample car, edits it and
toggles it, the sample customer orders it, and an admin cancels and confirms
the sample order; each request succeeds. -/
theorem updatedAt_refreshed_by_every_mutation_witness :
    (∃ c, (adminAddCar 2027 none Store.empty 77 adminSession sampleCarBody).store.cars =
        Store.empty.cars ++ [c] ∧ c.createdAt = 77 ∧ c.updatedAt = 77) ∧
    (∃ c c2, carOnlyStore.findCar 0 = some c ∧
      (adminEditCar 2027 none carOnlyStore 77 adminSession 0 sampleCarBody).store.findCar 0 =
        some c2 ∧ c2.createdAt = c.createdAt ∧ c2.updatedAt = 77) ∧
    (∃ c c2, reservedStore.findCar 0 = some c ∧
      (adminToggleCar none reservedStore 77 adminSession 0).store.findCar 0 = some c2 ∧
      c2.createdAt = c.createdAt ∧ c2.updatedAt = 77) ∧
    (∃ car o, carOnlyStore.findCar 0 = some car ∧
      createdResponse.store.orders = carOnlyStore.orders ++ [o] ∧
      o.createdAt = 77 ∧ o.updatedAt = 77 ∧
      createdResponse.store.findCar 0 =
        some { car with isAvailable := false, updatedAt := 77 }) ∧
    (∃ o, reservedStore.findOrder 1 = some o ∧
      (cancelOrderRoute 2027 okEnv noRejection reservedStore 77 adminSession 1).store.findOrder
          1 = some { o with status := .cancelled, updatedAt := 77 } ∧
      ∀ car, reservedStore.findCar o.carId = some car →
        (cancelOrderRoute 2027 okEnv noRejection reservedStore 77 adminSession
            1).store.findCar o.carId =
          some { car with isAvailable := true, updatedAt := 77 }) ∧
    (∃ o o2, reservedStore.findOrder 1 = some o ∧
      (adminUpdateOrderStatus none reservedStore 77 adminSession 1
          "confirmed").store.findOrder 1 = some o2 ∧
      o2.createdAt = o.createdAt ∧ o2.updatedAt = 77) :=
  ⟨(updatedAt_refreshed_by_every_mutation sampleLibrary okEnv 2027 none noRejection
      Store.empty 77 adminSession 0 sampleCarBody sampleOrderBody "confirmed").1 (by decide),
    (updatedAt_refreshed_by_every_mutation sampleLibrary okEnv 2027 none noRejection
      carOnlyStore 77 adminSession 0 sampleCarBody sampleOrderBody "confirmed").2.1
      (by decide),
    (updatedAt_refreshed_by_every_mutation sampleLibrary okEnv 2027 none noRejection
      reservedStore 77 adminSession 0 sampleCarBody sampleOrderBody "confirmed").2.2.1
      (by decide),
    (updatedAt_refreshed_by_every_mutation sampleLibrary okEnv 2027 none noRejection
      carOnlyStore 77 customerSession 0 sampleCarBody sampleOrderBody "confirmed").2.2.2.1
      createdResponse (handlerResponse_eq_some _ _ (by decide)) (by decide),
    (updatedAt_refreshed_by_every_mutation sampleLibrary okEnv 2027 none noRejection
      reservedStore 77 adminSession 1 sampleCarBody sampleOrderBody "confirmed").2.2.2.2.1
      (by decide),
    (updatedAt_refreshed_by_every_mutation sampleLibrary okEnv 2027 none noRejection
      reservedStore 77 adminSession 1 sampleCarBody sampleOrderBody "confirmed").2.2.2.2.2
      (by decide)⟩

/-! ## Price bounds (C27) -/

theorem priceBounded_updateCar_keep (s : Store) (id : Nat) (f : Car → Car)
    (hf : ∀ c, (f c).price = c.price) (hs : priceBounded s) :
    priceBounded (s.updateCar id f) := by
  intro c hc
  simp only [Store.updateCar, List.mem_map] at hc
  obtain ⟨c0, hc0, rfl⟩ := hc
  split_ifs
  · rw [hf]
    exact hs c0 hc0
  · exact hs c0 hc0

theorem priceBounded_updateCar_set (s : Store) (id : Nat) (f : Car → Car)
    (hf : ∀ c, 0 ≤ (f c).price ∧ (f c).price ≤ 3000) (hs : priceBounded s) :
    priceBounded (s.updateCar id f) := by
  intro c hc
  simp only [Store.updateCar, List.mem_map] at hc
  obtain ⟨c0, hc0, rfl⟩ := hc
  split_ifs
  · exact hf c0
  · exact hs c0 hc0

theorem priceBounded_insertCar (s : Store) (c : Car)
    (hc : 0 ≤ c.price ∧ c.price ≤ 3000) (hs : priceBounded s) :
    priceBounded (s.insertCar c) := by
  intro c1 hc1
  simp only [Store.insertCar, List.mem_append, List.mem_singleton] at hc1
  rcases hc1 with h | rfl
  · exact hs c1 h
  · exact hc

theorem priceBounded_deleteCar (s : Store) (id : Nat) (hs : priceBounded s) :
    priceBounded (s.deleteCar id) := by
  intro c hc
  simp only [Store.deleteCar, List.mem_filter] at hc
  exact hs c hc.1

theorem priceBounded_insertOrder (s : Store) (o : Order) (hs : priceBounded s) :
    priceBounded (s.insertOrder o) := hs

theorem priceBounded_updateOrder (s : Store) (id : Nat) (f : Order → Order)
    (hs : priceBounded s) : priceBounded (s.updateOrder id f) := hs

theorem carSchemaValid_price (maxYear : Int) (c : Car) (h : carSchemaValid maxYear c = true) :
    0 ≤ c.price ∧ c.price ≤ 3000 := by
  simp only [carSchemaValid, Bool.and_eq_true, decide_eq_true_eq] at h
  exact ⟨h.1.1.1.1.1.1.1.2, h.1.1.1.1.1.1.2⟩

theorem carSchemaValid_price_out (maxYear : Int) (c : Car)
    (h : ¬ (0 ≤ c.price ∧ c.price ≤ 3000)) : carSchemaValid maxYear c = false := by
  cases hv : carSchemaValid maxYear c with
  | false => rfl
  | true => exact absurd (carSchemaValid_price maxYear c hv) h

theorem adminAddCar_price_out (maxYear : Int) (fault : Option Nat) (s : Store) (now : Nat)
    (session : Session) (body : CarBody) (h : ¬ (0 ≤ body.price ∧ body.price ≤ 3000)) :
    (adminAddCar maxYear fault s now session body).outcome ≠ .ok ∧
      (adminAddCar maxYear fault s now session body).store = s := by
  unfold adminAddCar
  simp only []
  rw [carSchemaValid_price_out maxYear _ h]
  split_ifs <;> simp at *

theorem adminEditCar_price_out (maxYear : Int) (fault : Option Nat) (s : Store) (now : Nat)
    (session : Session) (id : Nat) (body : CarBody)
    (h : ¬ (0 ≤ body.price ∧ body.price ≤ 3000)) :
    (adminEditCar maxYear fault s now session id body).outcome ≠ .ok ∧
      (adminEditCar maxYear fault s now session id body).store = s := by
  unfold adminEditCar
  cases hfind : s.findCar id with
  | none =>
    simp only []
    split_ifs <;> simp
  | some car =>
    simp only []
    rw [carSchemaValid_price_out maxYear _ h]
    split_ifs <;> simp at *

theorem priceBounded_adminAddCar (maxYear : Int) (fault : Option Nat) (s : Store) (now : Nat)
    (session : Session) (body : CarBody) (hs : priceBounded s) :
    priceBounded (adminAddCar maxYear fault s now session body).store := by
  by_cases hp : 0 ≤ body.price ∧ body.price ≤ 3000
  · unfold adminAddCar
    simp only []
    split_ifs <;> first | exact hs | exact priceBounded_insertCar s _ hp hs
  · rw [(adminAddCar_price_out maxYear fault s now session body hp).2]
    exact hs

theorem priceBounded_adminEditCar (maxYear : Int) (fault : Option Nat) (s : Store) (now : Nat)
    (session : Session) (id : Nat) (body : CarBody) (hs : priceBounded s) :
    priceBounded (adminEditCar maxYear fault s now session id body).store := by
  by_cases hp : 0 ≤ body.price ∧ body.price ≤ 3000
  · unfold adminEditCar
    cases hfind : s.findCar id with
    | none =>
      simp only []
      split_ifs <;> exact hs
    | some car =>
      simp only []
      split_ifs <;>
        first | exact hs | exact priceBounded_updateCar_set s id _ (fun _ => hp) hs
  · rw [(adminEditCar_price_out maxYear fault s now session id body hp).2]
    exact hs

theorem priceBounded_createOrder (env : NotifyEnv) (fault : Option Nat) (s : Store) (now : Nat)
    (session : Session) (carId : Nat) (body : OrderBody) (hs : priceBounded s) :
    priceBounded (createOrder env fault s now session carId body).store := by
  unfold createOrder
  repeat' first
    | exact hs
    | exact priceBounded_updateCar_keep _ _ _ (fun _ => rfl) hs
    | split
    | dsimp only

theorem priceBounded_cancelOrder (env : NotifyEnv) (fault : Option Nat) (s : Store) (now : Nat)
    (session : Session) (id : Nat) (hs : priceBounded s) :
    priceBounded (cancelOrder env fault s now session id).store := by
  unfold cancelOrder
  repeat' first
    | exact hs
    | exact priceBounded_updateCar_keep _ _ _ (fun _ => rfl) hs
    | split
    | dsimp only

theorem priceBounded_run (s : Store) (op : Op) (hs : priceBounded s) :
    priceBounded (op.run s).store := by
  cases op with
  | addCar maxYear now session body =>
    exact priceBounded_adminAddCar maxYear none s now session body hs
  | editCar maxYear now session id body =>
    exact priceBounded_adminEditCar maxYear none s now session id body hs
  | deleteCar session id =>
    simp only [Op.run, adminDeleteCar]
    repeat' first
      | exact hs
      | exact priceBounded_deleteCar s id hs
      | split
  | toggleCar now session id =>
    simp only [Op.run, adminToggleCar]
    repeat' first
      | exact hs
      | exact priceBounded_updateCar_keep _ _ _ (fun _ => rfl) hs
      | split
  | createOrder env now session carId body =>
    exact priceBounded_createOrder env none s now session carId body hs
  | cancelOrder env now session id =>
    exact priceBounded_cancelOrder env none s now session id hs
  | updateStatus now session id status =>
    simp only [Op.run, adminUpdateOrderStatus]
    repeat' first
      | exact hs
      | split

theorem priceBounded_runOps (ops : List Op) (s : Store) (hs : priceBounded s) :
    priceBounded (runOps s ops) := by
  induction ops generalizing s with
  | nil => exact hs
  | cons op ops ih => exact ih (op.run s).store (priceBounded_run s op hs)

theorem validateCar_price_out (maxYear : Int) (body : CarBody)
    (h : ¬ (0 ≤ body.price ∧ body.price ≤ 3000)) : validateCar maxYear body ≠ [] := by
  have h1 : ¬ (1 ≤ body.price ∧ body.price ≤ 3000) :=
    fun h2 => h ⟨le_trans (by norm_num) h2.1, h2.2⟩
  intro hnil
  simp only [validateCar, if_neg h1, List.append_eq_nil] at hnil
  simp at hnil

/-- C27. From a store whose cars are all priced within `[0, 3000]` (the
empty store among them), every sequence of requests, admin car creations and
edits included, leads to a store whose cars are all priced within
`[0, 3000]`. A create or edit request whose price is outside that range is
rejected and leaves the store as it was: the form validator answers with at
least one message before the handler runs, and the handler alone (the schema
validators of `car.save()`) does not report success and writes nothing. -/
theorem price_within_bounds (maxYear : Int) (fault : Option Nat) (s : Store) (now : Nat)
    (session : Session) (id : Nat) (body : CarBody) (ops : List Op) :
    (priceBounded s → priceBounded (runOps s ops)) ∧
    (¬ (0 ≤ body.price ∧ body.price ≤ 3000) →
      validateCar maxYear body ≠ [] ∧
      routedStore s (postAddCar maxYear fault s now session body) = s ∧
      routedStore s (postEditCar maxYear fault s now session id body) = s ∧
      (∀ store sent, postAddCar maxYear fault s now session body ≠ .ok ⟨.ok, store, sent⟩) ∧
      (∀ store sent,
        postEditCar maxYear fault s now session id body ≠ .ok ⟨.ok, store, sent⟩) ∧
      (adminAddCar maxYear fault s now session body).outcome ≠ .ok ∧
      (adminAddCar maxYear fault s now session body).store = s ∧
      (adminEditCar maxYear fault s now session id body).outcome ≠ .ok ∧
      (adminEditCar maxYear fault s now session id body).store = s) := by
  refine ⟨priceBounded_runOps ops s, fun h => ?_⟩
  have hv := validateCar_price_out maxYear body h
  have ha := adminAddCar_price_out maxYear fault s now session body h
  have he := adminEditCar_price_out maxYear fault s now session id body h
  refine ⟨hv, ?_, ?_, ?_, ?_, ha.1, ha.2, he.1, he.2⟩
  · unfold postAddCar
    split_ifs
    · rfl
    · cases hval : validateCar maxYear body with
      | nil => exact absurd hval hv
      | cons e es => rfl
  · unfold postEditCar
    split_ifs
    · rfl
    · cases hval : validateCar maxYear body with
      | nil => exact absurd hval hv
      | cons e es => rfl
  · intro store sent
    unfold postAddCar
    split_ifs
    · simp
    · cases hval : validateCar maxYear body with
      | nil => exact absurd hval hv
      | cons e es => simp
  · intro store sent
    unfold postEditCar
    split_ifs
    · simp
    · cases hval : validateCar maxYear body with
      | nil => exact absurd hval hv
      | cons e es => simp

/-- Witness for C27: the store reached by adding the sample car and editing
it keeps its prices within bounds, and the form priced at 3500 is rejected
on both routes without a write. -/
theorem price_within_bounds_witness :
    priceBounded (runOps Store.empty (.addCar 2027 30 adminSession sampleCarBody :: priceEdits)) ∧
    validateCar 2027 dearCarBody ≠ [] ∧
    routedStore carOnlyStore (postAddCar 2027 none carOnlyStore 50 adminSession dearCarBody) =
      carOnlyStore ∧
    routedStore carOnlyStore
      (postEditCar 2027 none carOnlyStore 50 adminSession 0 dearCarBody) = carOnlyStore ∧
    (adminAddCar 2027 none carOnlyStore 50 adminSession dearCarBody).store = carOnlyStore ∧
    (adminEditCar 2027 none carOnlyStore 50 adminSession 0 dearCarBody).store = carOnlyStore :=
  have h := (price_within_bounds 2027 none carOnlyStore 50 adminSession 0 dearCarBody []).2
    (by norm_num [dearCarBody])
  ⟨(price_within_bounds 2027 none Store.empty 50 adminSession 0 dearCarBody
      (.addCar 2027 30 adminSession sampleCarBody :: priceEdits)).1
      (by simp [priceBounded, Store.empty]),
    h.1, h.2.1, h.2.2.1, h.2.2.2.2.2.2.1, h.2.2.2.2.2.2.2.2⟩

/-! ## Deleting users (C28) -/

theorem filter_ne_eq_erase (l : List User) (id : Nat) (u : User)
    (hnodup : (l.map User.id).Nodup) (hfind : l.find? (fun v => v.id == id) = some u) :
    l.filter (fun v => v.id != id) = l.erase u := by
  induction l with
  | nil => simp at hfind
  | cons x xs ih =>
    rw [List.map_cons, List.nodup_cons] at hnodup
    by_cases hx : x.id = id
    · have hux : x = u := by simpa [List.find?_cons, hx] using hfind
      subst hux
      have hkeep : ∀ v ∈ xs, (v.id != id) = true := by
        intro v hv
        have hne : v.id ≠ x.id := fun e => hnodup.1 (e ▸ List.mem_map_of_mem User.id hv)
        simpa [hx] using hne
      rw [List.erase_cons_head, List.filter_cons_of_neg (by simp [hx]),
        List.filter_eq_self.2 hkeep]
    · have hfind2 : xs.find? (fun v => v.id == id) = some u := by
        simpa [List.find?_cons, hx] using hfind
      have hu : u.id = id := by
        have := List.find?_some hfind2
        simpa using this
      have hxu : x ≠ u := fun e => hx (e ▸ hu)
      rw [List.filter_cons_of_pos (by simpa using hx), ih hnodup.2 hfind2,
        List.erase_cons_tail (by simpa using hxu)]

/-- C28. For an admin session and a target id that names a stored user: if
that user has `isAdmin = true`, the delete-user route answers with an error
and leaves the collection and the session as they were, whether or not the
store would have failed; if the user has `isAdmin = false` (and the store
does not fail), the route succeeds and the users left are the stored ones
whose id is not the target, every other user being kept in place; with
unique ids that is the stored list with exactly this user erased. -/
theorem adminDeleteUser_spares_admins (fault : Option Nat) (a : Accounts) (session : Session)
    (id : Nat) (u : User) (hadmin : requireAdmin session = true)
    (hfind : a.findUser id = some u) :
    (u.isAdmin = true → adminDeleteUser fault a session id = ⟨.error, a, session⟩) ∧
    (u.isAdmin = false →
      (adminDeleteUser none a session id).outcome = .ok ∧
      (adminDeleteUser none a session id).accounts.users =
        a.users.filter (fun v => v.id != id) ∧
      (adminDeleteUser none a session id).accounts.nextId = a.nextId ∧
      u ∉ (adminDeleteUser none a session id).accounts.users ∧
      (∀ v, v ∈ (adminDeleteUser none a session id).accounts.users ↔
        v ∈ a.users ∧ v.id ≠ id) ∧
      ((a.users.map User.id).Nodup →
        (adminDeleteUser none a session id).accounts.users = a.users.erase u)) := by
  have huid : u.id = id := by
    have := List.find?_some hfind
    simpa using this
  constructor
  · intro hu
    simp [adminDeleteUser, hadmin, hfind, hu]
  · intro hu
    have hres : adminDeleteUser none a session id =
        ⟨.ok, { a with users := a.users.filter (fun v => v.id != id) }, session⟩ := by
      simp [adminDeleteUser, hadmin, hfind, hu]
    rw [hres]
    refine ⟨rfl, rfl, rfl, ?_, ?_, ?_⟩
    · simp [List.mem_filter, huid]
    · intro v
      simp [List.mem_filter]
    · intro hnodup
      exact filter_ne_eq_erase a.users id u hnodup hfind

/-- Witness for C28: among the three sample accounts the admin (id 1) cannot
be deleted and the first user (id 0) can. -/
theorem adminDeleteUser_spares_admins_witness :
    adminDeleteUser none threeAccounts (some ⟨1, true⟩) 1 =
      ⟨.error, threeAccounts, some ⟨1, true⟩⟩ ∧
    (adminDeleteUser none threeAccounts (some ⟨1, true⟩) 0).outcome = .ok ∧
    (adminDeleteUser none threeAccounts (some ⟨1, true⟩) 0).accounts.users.map User.id =
      [1, 2] :=
  ⟨(adminDeleteUser_spares_admins none threeAccounts (some ⟨1, true⟩) 1
      ⟨1, "admin", "admin@example.com", "Admin123", some "+15550100", true, 2⟩
      (by decide) (by decide)).1 rfl,
    ((adminDeleteUser_spares_admins none threeAccounts (some ⟨1, true⟩) 0
      ⟨0, "ada", "ada@example.com", "Secret1", none, false, 1⟩
      (by decide) (by decide)).2 rfl).1,
    by decide⟩

/-! ## Pagination (C29) -/

theorem totalPages_le_iff (L n k : Nat) (hL : 0 < L) : (n + L - 1) / L ≤ k ↔ n ≤ k * L := by
  rw [Nat.div_le_iff_le_mul_add_pred hL, Nat.mul_comm L k]
  omega

theorem totalPages_eq_ceil (L n : Nat) (hL : 0 < L) :
    (n + L - 1) / L = ⌈(n : ℚ) / (L : ℚ)⌉₊ := by
  apply eq_of_forall_ge_iff
  intro k
  have hLq : (0 : ℚ) < (L : ℚ) := by exact_mod_cast hL
  rw [totalPages_le_iff L n k hL, Nat.ceil_le, div_le_iff₀ hLq]
  exact_mod_cast Iff.rfl

theorem firstPages_eq_take {α : Type} (L : Nat) (l : List α) (k : Nat) :
    firstPages L l k = l.take (k * L) := by
  induction k with
  | zero => simp [firstPages]
  | succ k ih =>
    simp only [firstPages, ih, paginate, Nat.add_sub_cancel]
    rw [Nat.succ_mul, List.take_add]

theorem page_slice {α : Type} (L p : Nat) (l : List α) (hp : 1 ≤ p) :
    (paginate L p l).items = (l.take (min (p * L) l.length)).drop ((p - 1) * L) := by
  have hpl : p * L = (p - 1) * L + L := by
    obtain ⟨q, rfl⟩ : ∃ q, p = q + 1 := ⟨p - 1, by omega⟩
    simp [Nat.succ_mul]
  have htake : l.take (min (p * L) l.length) = l.take (p * L) := by
    rw [List.take_eq_take]
    simp
  rw [htake, hpl]
  simp only [paginate]
  exact List.take_drop _ _ _

/-- The facts about `paginate` that the listing routes inherit. -/
theorem paginate_facts {α : Type} (L p : Nat) (l : List α) (hL : 0 < L) (hp : 1 ≤ p) :
    (paginate L p l).items = (l.take (min (p * L) l.length)).drop ((p - 1) * L) ∧
    (paginate L p l).items.length = min (p * L) l.length - (p - 1) * L ∧
    (∀ i, i < min (p * L) l.length - (p - 1) * L →
      (paginate L p l).items[i]? = l[(p - 1) * L + i]?) ∧
    (paginate L p l).totalPages = ⌈(l.length : ℚ) / (L : ℚ)⌉₊ ∧
    firstPages L l (paginate L p l).totalPages = l ∧
    ((paginate L p l).hasNext = true ↔ (paginate L (p + 1) l).items ≠ []) := by
  have hslice := page_slice L p l hp
  refine ⟨hslice, ?_, ?_, totalPages_eq_ceil L l.length hL, ?_, ?_⟩
  · rw [hslice, List.length_drop, List.length_take]
    simp
  · intro i hi
    rw [hslice, List.getElem?_drop, List.getElem?_take, if_pos (by omega)]
  · rw [firstPages_eq_take]
    apply List.take_of_length_le
    exact (totalPages_le_iff L l.length _ hL).1 (le_refl _)
  · simp only [paginate, decide_eq_true_eq, Nat.add_sub_cancel, ne_eq, List.take_eq_nil_iff,
      List.drop_eq_nil_iff, not_or, not_le]
    constructor
    · intro h
      refine ⟨by omega, ?_⟩
      by_contra hc
      exact absurd ((totalPages_le_iff L l.length p hL).2 (not_lt.1 hc)) (not_le.2 h)
    · intro h
      by_contra hc
      exact absurd ((totalPages_le_iff L l.length p hL).1 (not_lt.1 hc)) (not_le.2 h.2)

theorem inventoryRoute_page (rt : JsRuntime) (s : Store) (query : List (String × String))
    (page : Page Car) (h : inventoryRoute rt s query = ⟨.ok, some page⟩) :
    1 ≤ requestedPage rt query ∧
    ∃ cars, Car.search rt.regex s (inventoryFilters rt query) = .ok cars ∧
      page = paginate 12 (requestedPage rt query).toNat cars := by
  unfold inventoryRoute at h
  cases hs : Car.search rt.regex s (inventoryFilters rt query) with
  | error e => simp [hs] at h
  | ok cars =>
    rw [hs] at h
    simp only [] at h
    split_ifs at h with hp
    · cases h
    · cases h
      exact ⟨not_lt.1 hp, cars, rfl, rfl⟩

theorem adminListOrders_page (rt : JsRuntime) (s : Store) (session : Session)
    (query : List (String × String)) (page : Page OrderView)
    (h : adminListOrders rt s session query = ⟨.ok, some page⟩) :
    1 ≤ requestedPage rt query ∧
    ∃ views, page = paginate 10 (requestedPage rt query).toNat views := by
  unfold adminListOrders at h
  simp only [] at h
  split_ifs at h with h1 hp
  · cases h
  · cases h
  · cases h
    exact ⟨not_lt.1 hp, _, rfl⟩

theorem paginate_specPage {α : Type} (L p : Nat) (l : List α) (hL : 0 < L) (hp : 1 ≤ p) :
    specPage L p l (paginate L p l) :=
  ⟨(paginate_facts L p l hL hp).1, rfl, (paginate_facts L p l hL hp).2.2.2.1⟩

theorem concatPages_paginate {α : Type} (L : Nat) (l : List α) (render : Nat → List α)
    (n : Nat) (h : ∀ k ∈ List.range n, render (k + 1) = (paginate L (k + 1) l).items) :
    concatPages render n = firstPages L l n := by
  induction n with
  | zero => rfl
  | succ n ih =>
    have hn := h n (List.mem_range.2 (Nat.lt_succ_self n))
    have hrest : ∀ k ∈ List.range n, render (k + 1) = (paginate L (k + 1) l).items :=
      fun k hk => h k (List.mem_range.2 (Nat.lt_succ_of_lt (List.mem_range.1 hk)))
    simp only [concatPages, firstPages, ih hrest, hn]

theorem toOption_eq_some {ε α : Type} (x : Except ε α) (a : α)
    (h : x.toOption = some a) : x = .ok a := by
  cases x with
  | error e => cases h
  | ok b =>
    simp only [Except.toOption, Option.some.injEq] at h
    rw [h]

theorem page_of_request (v : Int) (p : Nat) (h : v = (p : Int)) (hp : 1 ≤ p) :
    ¬ v < 1 ∧ v.toNat = p := by
  subst h
  constructor
  · omega
  · simp

theorem inventoryRoute_eq (rt : JsRuntime) (s : Store) (query : List (String × String))
    (cars : List Car) (p : Nat)
    (hsearch : (Car.search rt.regex s (inventoryFilters rt query)).toOption = some cars)
    (hpage : requestedPage rt query = (p : Int)) (hp : 1 ≤ p) :
    inventoryRoute rt s query = ⟨.ok, some (paginate 12 p cars)⟩ := by
  have h := page_of_request _ p hpage hp
  simp only [inventoryRoute, toOption_eq_some _ _ hsearch, if_neg h.1, h.2]

theorem adminListOrders_eq (rt : JsRuntime) (s : Store) (session : Session)
    (query : List (String × String)) (p : Nat) (hadmin : requireAdmin session = true)
    (hpage : requestedPage rt query = (p : Int)) (hp : 1 ≤ p) :
    adminListOrders rt s session query =
      ⟨.ok, some (paginate 10 p (adminOrderListing s query))⟩ := by
  have h := page_of_request _ p hpage hp
  simp only [adminListOrders, adminOrderListing, hadmin, if_neg h.1, h.2, Bool.not_true,
    Bool.false_eq_true, if_false]

theorem adminListCars_eq (rt : JsRuntime) (s : Store) (session : Session)
    (query : List (String × String)) (p : Nat) (hadmin : requireAdmin session = true)
    (hpage : requestedPage rt query = (p : Int)) (hp : 1 ≤ p) :
    adminListCars rt s session query =
      ⟨.ok, some (paginate 10 p (sortNewestFirst s.cars))⟩ := by
  have h := page_of_request _ p hpage hp
  simp only [adminListCars, hadmin, if_neg h.1, h.2, Bool.not_true, Bool.false_eq_true,
    if_false]

/-- C29. For a query that requests page `p ≥ 1`: the inventory route, whose
search gives the list `cars`, renders page `p` of `cars` in pages of twelve,
and the admin order and car lists render page `p` of their sorted listings
in pages of ten. The rendered page is the sub-list from offset `(p-1)*L` up
to but excluding `min (p*L) n`, with `totalPages` the ceiling of `n / L`;
`hasNext` is true exactly when the route shows an item for a query that
requests page `p + 1` of the same listing; and the items shown for queries
that request the pages `1 .. totalPages` of the same listing, put one after
the other, are the listing itself. -/
theorem pagination_pages (rt : JsRuntime) (s : Store) (session : Session)
    (query next : List (String × String)) (queries : Nat → List (String × String))
    (cars : List Car) (p : Nat) (hadmin : requireAdmin session = true) (hp : 1 ≤ p)
    (hpage : requestedPage rt query = (p : Int))
    (hsearch : (Car.search rt.regex s (inventoryFilters rt query)).toOption = some cars) :
    (∃ page, inventoryRoute rt s query = ⟨.ok, some page⟩ ∧ specPage 12 p cars page ∧
      (requestedPage rt next = ((p + 1 : Nat) : Int) →
        (Car.search rt.regex s (inventoryFilters rt next)).toOption = some cars →
        (page.hasNext = true ↔ renderedItems (inventoryRoute rt s next) ≠ [])) ∧
      ((∀ k ∈ List.range page.totalPages,
          requestedPage rt (queries (k + 1)) = ((k + 1 : Nat) : Int) ∧
          (Car.search rt.regex s (inventoryFilters rt (queries (k + 1)))).toOption =
            some cars) →
        concatPages (fun k => renderedItems (inventoryRoute rt s (queries k)))
          page.totalPages = cars)) ∧
    (∃ page, adminListOrders rt s session query = ⟨.ok, some page⟩ ∧
      specPage 10 p (adminOrderListing s query) page ∧
      (requestedPage rt next = ((p + 1 : Nat) : Int) →
        adminOrderListing s next = adminOrderListing s query →
        (page.hasNext = true ↔ renderedItems (adminListOrders rt s session next) ≠ [])) ∧
      ((∀ k ∈ List.range page.totalPages,
          requestedPage rt (queries (k + 1)) = ((k + 1 : Nat) : Int) ∧
          adminOrderListing s (queries (k + 1)) = adminOrderListing s query) →
        concatPages (fun k => renderedItems (adminListOrders rt s session (queries k)))
          page.totalPages = adminOrderListing s query)) ∧
    (∃ page, adminListCars rt s session query = ⟨.ok, some page⟩ ∧
      specPage 10 p (sortNewestFirst s.cars) page ∧
      (requestedPage rt next = ((p + 1 : Nat) : Int) →
        (page.hasNext = true ↔ renderedItems (adminListCars rt s session next) ≠ [])) ∧
      ((∀ k ∈ List.range page.totalPages,
          requestedPage rt (queries (k + 1)) = ((k + 1 : Nat) : Int)) →
        concatPages (fun k => renderedItems (adminListCars rt s session (queries k)))
          page.totalPages = sortNewestFirst s.cars)) := by
  refine ⟨⟨_, inventoryRoute_eq rt s query cars p hsearch hpage hp,
      paginate_specPage 12 p cars (by decide) hp, ?_, ?_⟩,
    ⟨_, adminListOrders_eq rt s session query p hadmin hpage hp,
      paginate_specPage 10 p _ (by decide) hp, ?_, ?_⟩,
    ⟨_, adminListCars_eq rt s session query p hadmin hpage hp,
      paginate_specPage 10 p _ (by decide) hp, ?_, ?_⟩⟩
  · intro hnext hs
    rw [inventoryRoute_eq rt s next cars (p + 1) hs hnext (by omega)]
    exact (paginate_facts 12 p cars (by decide) hp).2.2.2.2.2
  · intro h
    rw [concatPages_paginate 12 cars _ _ (fun k hk => by
      rw [inventoryRoute_eq rt s (queries (k + 1)) cars (k + 1) (h k hk).2 (h k hk).1
        (by omega)]
      rfl)]
    exact (paginate_facts 12 p cars (by decide) hp).2.2.2.2.1
  · intro hnext hs
    rw [adminListOrders_eq rt s session next (p + 1) hadmin hnext (by omega), hs]
    exact (paginate_facts 10 p _ (by decide) hp).2.2.2.2.2
  · intro h
    rw [concatPages_paginate 10 (adminOrderListing s query) _ _ (fun k hk => by
      rw [adminListOrders_eq rt s session (queries (k + 1)) (k + 1) hadmin (h k hk).1
        (by omega), (h k hk).2]
      rfl)]
    exact (paginate_facts 10 p _ (by decide) hp).2.2.2.2.1
  · intro hnext
    rw [adminListCars_eq rt s session next (p + 1) hadmin hnext (by omega)]
    exact (paginate_facts 10 p _ (by decide) hp).2.2.2.2.2
  · intro h
    rw [concatPages_paginate 10 (sortNewestFirst s.cars) _ _ (fun k hk => by
      rw [adminListCars_eq rt s session (queries (k + 1)) (k + 1) hadmin (h k hk) (by omega)]
      rfl)]
    exact (paginate_facts 10 p _ (by decide) hp).2.2.2.2.1

set_option maxRecDepth 100000 in
/-- Witness for C29: the twenty-five cars of `fleetStore` in the inventory
(three pages of twelve) and its twenty-five orders in the admin list (three
pages of ten), for the queries `?page=1`, `?page=2` and `?page=3`. -/
theorem pagination_pages_witness :
    (∃ page, inventoryRoute sampleRuntime fleetStore (pageQuery 2) = ⟨.ok, some page⟩ ∧
      specPage 12 2 fleetListing page ∧
      page.items.map Car.id = [12, 11, 10, 9, 8, 7, 6, 5, 4, 3, 2, 1] ∧
      (page.hasNext = true ↔
        renderedItems (inventoryRoute sampleRuntime fleetStore (pageQuery 3)) ≠ []) ∧
      concatPages (fun k => renderedItems (inventoryRoute sampleRuntime fleetStore (pageQuery k)))
        page.totalPages = fleetListing) ∧
    (∃ page, adminListOrders sampleRuntime fleetStore adminSession (pageQuery 2) =
        ⟨.ok, some page⟩ ∧
      specPage 10 2 (adminOrderListing fleetStore (pageQuery 2)) page ∧
      page.items.length = 10 ∧
      (page.hasNext = true ↔
        renderedItems (adminListOrders sampleRuntime fleetStore adminSession (pageQuery 3)) ≠
          []) ∧
      concatPages
        (fun k => renderedItems (adminListOrders sampleRuntime fleetStore adminSession
          (pageQuery k))) page.totalPages = adminOrderListing fleetStore (pageQuery 2)) := by
  have h := pagination_pages sampleRuntime fleetStore adminSession (pageQuery 2) (pageQuery 3)
    pageQuery fleetListing 2 (by decide) (by decide) (by decide) (by decide)
  obtain ⟨⟨page1, e1, s1, n1, c1⟩, ⟨page2, e2, s2, n2, c2⟩, _⟩ := h
  have p1 : page1 = paginate 12 2 fleetListing := by
    have := e1.symm.trans (inventoryRoute_eq sampleRuntime fleetStore (pageQuery 2)
      fleetListing 2 (by decide) (by decide) (by decide))
    simpa using this
  have p2 : page2 = paginate 10 2 (adminOrderListing fleetStore (pageQuery 2)) := by
    have := e2.symm.trans (adminListOrders_eq sampleRuntime fleetStore adminSession
      (pageQuery 2) 2 (by decide) (by decide) (by decide))
    simpa using this
  subst p1
  subst p2
  exact ⟨⟨_, e1, s1, by decide, n1 (by decide) (by decide), c1 (by decide)⟩,
    ⟨_, e2, s2, by decide, n2 (by decide) (by decide), c2 (by decide)⟩⟩

/-! ## At most one admin (C30) -/

theorem register_accounts (schema : UserSchema) (fault : Option Nat) (a : Accounts) (now : Nat)
    (session : Session) (body : RegisterBody) :
    (register schema fault a now session body).accounts = a ∨
    ∃ u, u.isAdmin = false ∧
      (register schema fault a now session body).accounts = ⟨a.users ++ [u], a.nextId + 1⟩ := by
  unfold register
  split_ifs
  · exact Or.inl rfl
  · split
    · exact Or.inl rfl
    · dsimp only
      split_ifs
      · exact Or.inl rfl
      · exact Or.inr ⟨_, rfl, rfl⟩

theorem adminSetup_accounts (schema : UserSchema) (fault : Option Nat) (a : Accounts)
    (now : Nat) (session : Session) (env : AdminEnv) :
    (adminSetup schema fault a now session env).accounts = a ∨
    (a.adminCount = 0 ∧ ∃ u, u.isAdmin = true ∧
      (adminSetup schema fault a now session env).accounts =
        ⟨a.users ++ [u], a.nextId + 1⟩) := by
  unfold adminSetup
  cases hfind : a.users.find? (fun u => u.isAdmin) with
  | some u => exact Or.inl rfl
  | none =>
    have hzero : a.adminCount = 0 := by
      rw [Accounts.adminCount, List.countP_eq_zero]
      exact List.find?_eq_none.1 hfind
    dsimp only
    split_ifs
    · exact Or.inl rfl
    · exact Or.inr ⟨hzero, _, rfl, rfl⟩

theorem adminDeleteUser_adminCount (fault : Option Nat) (a : Accounts) (session : Session)
    (id : Nat) : (adminDeleteUser fault a session id).accounts.adminCount ≤ a.adminCount := by
  unfold adminDeleteUser
  repeat' first
    | exact le_refl _
    | exact List.Sublist.countP_le _ (List.filter_sublist _)
    | split

theorem adminCount_run (schema : UserSchema) (a : Accounts) (op : AccountOp)
    (h : a.adminCount ≤ 1) : (op.run schema a).accounts.adminCount ≤ 1 := by
  cases op with
  | register now session body =>
    rcases register_accounts schema none a now session body with he | ⟨u, hu, he⟩
    · simp only [AccountOp.run, he]
      exact h
    · simp only [AccountOp.run, he, Accounts.adminCount, List.countP_append,
        List.countP_singleton, hu]
      simpa [Accounts.adminCount] using h
  | adminSetup now session env =>
    rcases adminSetup_accounts schema none a now session env with he | ⟨hz, u, hu, he⟩
    · simp only [AccountOp.run, he]
      exact h
    · simp only [AccountOp.run, he, Accounts.adminCount, List.countP_append,
        List.countP_singleton, hu]
      rw [Accounts.adminCount] at hz
      simp [hz]
  | deleteUser session id =>
    exact le_trans (adminDeleteUser_adminCount none a session id) h

theorem adminCount_runAccountOps (schema : UserSchema) (ops : List AccountOp) (a : Accounts)
    (h : a.adminCount ≤ 1) : (runAccountOps schema a ops).adminCount ≤ 1 := by
  induction ops generalizing a with
  | nil => exact h
  | cons op ops ih => exact ih (op.run schema a).accounts (adminCount_run schema a op h)

/-- C30. From a collection in which no user is an admin, every sequence of
registrations, admin set-ups and admin delete-user requests (served one
after the other, whatever `user.save()` accepts) leads to a collection with
at most one user whose `isAdmin` is true. Registration leaves the
collection as it was or appends one user with `isAdmin = false`; admin
set-up leaves the collection as it was or, only when no stored user is an
admin, appends one user with `isAdmin = true`. -/
theorem at_most_one_admin (schema : UserSchema) (a : Accounts) (ops : List AccountOp)
    (hnone : ∀ u ∈ a.users, u.isAdmin = false) :
    (runAccountOps schema a ops).adminCount ≤ 1 ∧
    (∀ (fault : Option Nat) (b : Accounts) (now : Nat) (session : Session)
        (body : RegisterBody),
      (register schema fault b now session body).accounts = b ∨
      ∃ u, u.isAdmin = false ∧
        (register schema fault b now session body).accounts =
          ⟨b.users ++ [u], b.nextId + 1⟩) ∧
    (∀ (fault : Option Nat) (b : Accounts) (now : Nat) (session : Session) (env : AdminEnv),
      (adminSetup schema fault b now session env).accounts = b ∨
      (b.adminCount = 0 ∧ ∃ u, u.isAdmin = true ∧
        (adminSetup schema fault b now session env).accounts =
          ⟨b.users ++ [u], b.nextId + 1⟩)) := by
  refine ⟨adminCount_runAccountOps schema ops a ?_, register_accounts schema,
    adminSetup_accounts schema⟩
  have hzero : a.adminCount = 0 := by
    rw [Accounts.adminCount, List.countP_eq_zero]
    intro u hu
    simp [hnone u hu]
  omega

/-- Witness for C30: after the six sample requests, which try to set up the
admin twice, exactly one of the two remaining users is an admin. -/
theorem at_most_one_admin_witness :
    (runAccountOps anySchema noAccounts accountOps).adminCount ≤ 1 ∧
    (runAccountOps anySchema noAccounts accountOps).users.map
      (fun u => (u.id, u.isAdmin)) = [(1, true), (2, false)] :=
  ⟨(at_most_one_admin anySchema noAccounts accountOps (by decide)).1, by decide⟩

end AutoCentral
